import Mathlib

/-!
Task list of the Wrike client: relation building, sorting, flattening.

A shallow embedding of `src/task_list.cpp`.  Global module state becomes one
explicit `State` record that each operation takes and returns.  Operations
that can fault in C (an index outside an allocated block, a null pointer
dereference, a failed assertion) return `Option`, with `none` for the fault.

Conventions of the embedding:

* a pointer to a record that is never mutated after it is built
  (`Folder_Task`, `Custom_Status`, `User`, `Custom_Field`) is modelled by the
  record itself, a nullable pointer by `Option`;
* a pointer to a `Sorted_Folder_Task` is the index of that record in the
  `sorted_folder_tasks` block, because those records are mutated in place;
* `u32` counters and lengths are `Nat`: they are bounded by the size of the
  decoded batch; values that go through a C `int` or `char` are wrapped
  explicitly (`to_int`, `to_char`);
* the precomputed hashes (`id_hash`, `custom_status_id_hash`) are functions of
  the id and only speed up lookups, so they are left out.
-/

set_option autoImplicit false

namespace TaskList

/-! ## Primitive types -/

/-- Task identifier: an integer value (the typedef is in `common.h`). -/
abbrev Task_Id := Int

/-- Folder identifier. -/
abbrev Folder_Id := Int

/-- User identifier. -/
abbrev User_Id := Int

/-- Custom field identifier. -/
abbrev Custom_Field_Id := Int

/-- Custom status identifier. -/
abbrev Custom_Status_Id := Int

/-- The C `String {char* start; u32 length}`: its `length` bytes, each a value below 256. -/
abbrev Str := List Nat

/-- Conversion of an integer value to a 32-bit two's complement `int`. -/
def to_int (x : Int) : Int := (x + 2147483648) % 4294967296 - 2147483648

/-- Conversion of an integer value to a signed 8-bit `char`. -/
def to_char (x : Int) : Int := (x + 128) % 256 - 128

/-- The macro `MIN`. -/
def MIN (a b : Nat) : Nat := if a < b then a else b

/-- The libc `strncmp` on byte strings: compares at most `n` bytes as unsigned
values, stops at the first difference or at a NUL byte, and returns the
difference of the two bytes (zero when none differs). -/
def strncmp : Str → Str → Nat → Int
  | _, _, 0 => 0
  | a :: as, b :: bs, n + 1 =>
    if a ≠ b then (a : Int) - (b : Int)
    else if a = 0 then 0
    else strncmp as bs n
  | [], b :: _, _ + 1 => - (b : Int)
  | a :: _, [], _ + 1 => (a : Int)
  | [], [], _ + 1 => 0

/-! ## Registry records (declared in headers outside this file) -/

/-- Modelled from the spec: the status groups of `workflows.h`; only `Active`
is named by this file. -/
inductive Status_Group where
  | Invalid
  | Active
  | Completed
  | Deferred
  | Cancelled
  deriving DecidableEq, Inhabited

/-- Modelled from the spec: `Custom_Status` of `workflows.h`, a registry entry
with name, color, natural display-order index and group. -/
structure Custom_Status where
  id : Custom_Status_Id
  group : Status_Group
  name : Str
  color : Nat
  natural_index : Int
  deriving DecidableEq, Inhabited

/-- The `User` record of `users.h` (avatar fields left out). -/
structure User where
  id : User_Id
  first_name : Str
  last_name : Str
  deriving DecidableEq, Inhabited

/-- Modelled from the spec: the custom field types of `accounts.h`; this file
names `Numeric`, `DropDown` and `Text`, every other type is `Other`. -/
inductive Custom_Field_Type where
  | Text
  | DropDown
  | Numeric
  | Other
  deriving DecidableEq, Inhabited

/-- Modelled from the spec: `Custom_Field` of `accounts.h`, a registry entry
with type and title. -/
structure Custom_Field where
  id : Custom_Field_Id
  type : Custom_Field_Type
  title : Str
  deriving DecidableEq, Inhabited

/-! ## Data model of `task_list.cpp` -/

/-- The enum `Task_List_Sort_Field`. -/
inductive Task_List_Sort_Field where
  | None
  | Title
  | Status
  | Assignee
  | Custom_Field
  deriving DecidableEq, Inhabited

/-- One `(field id, value)` entry of a task. -/
structure Custom_Field_Value where
  field_id : Custom_Field_Id
  value : Str
  deriving DecidableEq, Inhabited

/-- The struct `Folder_Task`: the relative pointer and count pairs are lists. -/
structure Folder_Task where
  id : Task_Id
  custom_status_id : Custom_Status_Id
  title : Str
  custom_field_values : List Custom_Field_Value
  parent_folder_ids : List Folder_Id
  parent_task_ids : List Task_Id
  assignees : List User_Id
  deriving DecidableEq, Inhabited

/-- The struct `Folder_Header`. -/
structure Folder_Header where
  id : Folder_Id
  name : Str
  custom_columns : List Custom_Field_Id
  deriving DecidableEq, Inhabited

/-- The struct `Sorted_Folder_Task`.  `sub_tasks` is the offset of the task's
range inside the shared `sub_tasks` slab. -/
structure Sorted_Folder_Task where
  id : Task_Id
  source_task : Folder_Task
  cached_status : Option Custom_Status
  cached_first_assignee : Option User
  sub_tasks : Nat
  num_sub_tasks : Nat
  is_expanded : Bool
  deriving DecidableEq, Inhabited

/-- The struct `Flattened_Folder_Task`; `sorted_task` is an index into
`sorted_folder_tasks`. -/
structure Flattened_Folder_Task where
  sorted_task : Nat
  nesting_level : Nat
  num_visible_sub_tasks : Nat
  needs_sub_task_sort : Bool
  deriving DecidableEq, Inhabited

/-- The constant `Sort_Direction_Normal`. -/
def Sort_Direction_Normal : Int := 1

/-- The constant `Sort_Direction_Reverse`. -/
def Sort_Direction_Reverse : Int := -1

/-- The constant `custom_columns_start_index`. -/
def custom_columns_start_index : Nat := 3

/-! ## Id index -/

/-- Modelled from the spec: the `Id_Hash_Map` of `id_hash_map.h`, a map from
task id to the decorated task (its index), one entry per id. -/
abbrev Id_Hash_Map := List (Task_Id × Nat)

/-- Modelled from the spec: `lookup(id, hash) -> Task or NotFound`. -/
def id_hash_map_get (map : Id_Hash_Map) (id : Task_Id) : Option Nat :=
  match map with
  | [] => none
  | (key, value) :: rest => if key = id then some value else id_hash_map_get rest id

/-- Modelled from the spec: `insert(id, hash, task)`, which fails with
`DuplicateId` when the id is already present in the current batch. -/
def id_hash_map_put (map : Id_Hash_Map) (value : Nat) (id : Task_Id) : Option Id_Hash_Map :=
  match id_hash_map_get map id with
  | some _ => none
  | none => some (map ++ [(id, value)])

/-! ## Module state -/

/-- The static variables of `task_list.cpp`.  `sorted_folder_tasks`,
`flattened_data` and `sub_tasks` are whole allocated blocks (their list length
is the allocated capacity); `folder_tasks` holds the `folder_tasks.length`
live records; `flattened_length` is `flattened_sorted_folder_task_tree.length`. -/
structure State where
  current_folder : Folder_Header
  folder_tasks : List Folder_Task
  sorted_folder_tasks : List Sorted_Folder_Task
  flattened_data : List Flattened_Folder_Task
  flattened_length : Nat
  top_level_tasks : List Nat
  id_to_sorted_folder_task : Id_Hash_Map
  sub_tasks : List Nat
  sort_field : Task_List_Sort_Field
  sort_custom_field_id : Custom_Field_Id
  sort_custom_field : Option Custom_Field
  sort_direction : Int
  has_been_sorted_after_loading : Bool
  show_only_active_tasks : Bool
  queue_flattened_tree_rebuild : Bool
  deriving DecidableEq, Inhabited

/-- The static initialisers of the module state. -/
def initial_state : State where
  current_folder := { id := 0, name := [], custom_columns := [] }
  folder_tasks := []
  sorted_folder_tasks := []
  flattened_data := []
  flattened_length := 0
  top_level_tasks := []
  id_to_sorted_folder_task := []
  sub_tasks := []
  sort_field := Task_List_Sort_Field.None
  sort_custom_field_id := 0
  sort_custom_field := none
  sort_direction := Sort_Direction_Normal
  has_been_sorted_after_loading := false
  show_only_active_tasks := true
  queue_flattened_tree_rebuild := false

/-- What the allocator hands out: the content of freshly allocated cells, by
cell index.  The code never initialises these cells itself. -/
structure Heap_Garbage where
  sorted_task : Nat → Sorted_Folder_Task
  flattened_task : Nat → Flattened_Folder_Task
  sub_task : Nat → Nat

/-- The macro `REALLOC`: a block of `n` cells that keeps the old prefix; cells
past the old block hold whatever the allocator hands out. -/
def REALLOC {α : Type} (old : List α) (n : Nat) (fresh : Nat → α) : List α :=
  (List.range n).map (fun i => match old[i]? with
    | some x => x
    | none => fresh i)

/-! ## Relation graph builder -/

/-- Step 0 of `associate_parent_tasks_with_sub_tasks`, inner loop: one append
to the top level list per folder id equal to the active container. -/
def append_top_level_occurrences (top_parent_id : Folder_Id) (task_index : Nat)
    (parent_folder_ids : List Folder_Id) (top_level_tasks : List Nat) : List Nat :=
  parent_folder_ids.foldl
    (fun top parent_id => if parent_id = top_parent_id then top ++ [task_index] else top)
    top_level_tasks

/-- Step 0 of `associate_parent_tasks_with_sub_tasks`: determine and populate
the top level tasks. -/
def populate_top_level_tasks (top_parent_id : Folder_Id) (n : Nat)
    (tasks : List Sorted_Folder_Task) (top_level_tasks : List Nat) : Option (List Nat) :=
  (List.range n).foldlM
    (fun top task_index =>
      match tasks[task_index]? with
      | none => none
      | some folder_task =>
        some (append_top_level_occurrences top_parent_id task_index
          folder_task.source_task.parent_folder_ids top))
    top_level_tasks

/-- Step 1, loop body: resolve one parent id and count it on the parent. -/
def count_sub_task (map : Id_Hash_Map) (acc : List Sorted_Folder_Task × Nat)
    (parent_id : Task_Id) : Option (List Sorted_Folder_Task × Nat) :=
  match id_hash_map_get map parent_id with
  | none => some acc
  | some parent_index =>
    match acc.1[parent_index]? with
    | none => none
    | some parent =>
      some (acc.1.set parent_index { parent with num_sub_tasks := parent.num_sub_tasks + 1 },
        acc.2 + 1)

/-- The loop header shared by steps 1 and 3: for every task in task store
order, for every id of its parent task id list in list order. -/
def for_each_parent_task_id {β : Type} (n : Nat)
    (body : Nat → List Sorted_Folder_Task × β → Task_Id → Option (List Sorted_Folder_Task × β))
    (init : List Sorted_Folder_Task × β) : Option (List Sorted_Folder_Task × β) :=
  (List.range n).foldlM
    (fun acc task_index =>
      match acc.1[task_index]? with
      | none => none
      | some folder_task =>
        folder_task.source_task.parent_task_ids.foldlM (body task_index) acc)
    init

/-- Step 1 of `associate_parent_tasks_with_sub_tasks`: count the sub tasks of
each parent and the total. -/
def count_sub_tasks (map : Id_Hash_Map) (n : Nat) (tasks : List Sorted_Folder_Task) :
    Option (List Sorted_Folder_Task × Nat) :=
  for_each_parent_task_id n (fun _ => count_sub_task map) (tasks, 0)

/-- Step 2, loop body: a task with a nonzero counter gets the next sub-range
of the slab and its counter is reset. -/
def assign_sub_task_range (acc : List Sorted_Folder_Task × Nat) (task_index : Nat) :
    Option (List Sorted_Folder_Task × Nat) :=
  match acc.1[task_index]? with
  | none => none
  | some folder_task =>
    if folder_task.num_sub_tasks ≠ 0 then
      some (acc.1.set task_index
          { folder_task with sub_tasks := acc.2, num_sub_tasks := 0 },
        acc.2 + folder_task.num_sub_tasks)
    else some acc

/-- Step 2 of `associate_parent_tasks_with_sub_tasks`, after the allocation:
hand out the sub-ranges in task store order. -/
def assign_sub_task_ranges (n : Nat) (tasks : List Sorted_Folder_Task) :
    Option (List Sorted_Folder_Task × Nat) :=
  (List.range n).foldlM assign_sub_task_range (tasks, 0)

/-- Step 3, loop body: resolve one parent id and append the task to the
parent's range, the parent's counter being the fill cursor. -/
def fill_sub_task (map : Id_Hash_Map) (task_index : Nat)
    (acc : List Sorted_Folder_Task × List Nat) (parent_id : Task_Id) :
    Option (List Sorted_Folder_Task × List Nat) :=
  match id_hash_map_get map parent_id with
  | none => some acc
  | some parent_index =>
    match acc.1[parent_index]? with
    | none => none
    | some parent =>
      if parent.sub_tasks + parent.num_sub_tasks < acc.2.length then
        some (acc.1.set parent_index { parent with num_sub_tasks := parent.num_sub_tasks + 1 },
          acc.2.set (parent.sub_tasks + parent.num_sub_tasks) task_index)
      else none

/-- Step 3 of `associate_parent_tasks_with_sub_tasks`: fill the sub tasks. -/
def fill_sub_tasks (map : Id_Hash_Map) (n : Nat) (tasks : List Sorted_Folder_Task)
    (slab : List Nat) : Option (List Sorted_Folder_Task × List Nat) :=
  for_each_parent_task_id n (fill_sub_task map) (tasks, slab)

/-- The function `associate_parent_tasks_with_sub_tasks`. -/
def associate_parent_tasks_with_sub_tasks (heap : Heap_Garbage) (top_parent_id : Folder_Id)
    (s : State) : Option State :=
  let n := s.folder_tasks.length
  match populate_top_level_tasks top_parent_id n s.sorted_folder_tasks s.top_level_tasks with
  | none => none
  | some top_level_tasks =>
    match count_sub_tasks s.id_to_sorted_folder_task n s.sorted_folder_tasks with
    | none => none
    | some (counted, total_sub_tasks) =>
      let slab := REALLOC s.sub_tasks total_sub_tasks heap.sub_task
      match assign_sub_task_ranges n counted with
      | none => none
      | some (ranged, _) =>
        match fill_sub_tasks s.id_to_sorted_folder_task n ranged slab with
        | none => none
        | some (filled, sub_tasks) =>
          some { s with
            top_level_tasks := top_level_tasks
            sorted_folder_tasks := filled
            sub_tasks := sub_tasks }

/-! ## Ingestion -/

/-- The function `process_folder_contents_data_object`, on an already decoded
record: fill the next slot of both arrays and register the id. -/
def process_folder_contents_data_object (s : State) (record : Folder_Task) : Option State :=
  let index := s.folder_tasks.length
  match s.sorted_folder_tasks[index]? with
  | none => none
  | some slot =>
    let sorted_folder_task : Sorted_Folder_Task :=
      { slot with
        num_sub_tasks := 0
        source_task := record
        is_expanded := false
        id := record.id }
    match id_hash_map_put s.id_to_sorted_folder_task index record.id with
    | none => none
    | some map =>
      some { s with
        folder_tasks := s.folder_tasks ++ [record]
        sorted_folder_tasks := s.sorted_folder_tasks.set index sorted_folder_task
        id_to_sorted_folder_task := map }

/-- The function `process_folder_contents_data`, on the decoded records of
the batch. -/
def process_folder_contents_data (heap : Heap_Garbage) (s : State) (data : List Folder_Task) :
    Option State :=
  let data_size := data.length
  let s1 : State := { s with id_to_sorted_folder_task := [] }
  let s2 : State :=
    if s1.folder_tasks.length < data_size then
      { s1 with
        sorted_folder_tasks := REALLOC s1.sorted_folder_tasks data_size heap.sorted_task
        flattened_data := REALLOC s1.flattened_data data_size heap.flattened_task }
    else s1
  let s3 : State := { s2 with folder_tasks := [], top_level_tasks := [] }
  match data.foldlM process_folder_contents_data_object s3 with
  | none => none
  | some s4 =>
    match associate_parent_tasks_with_sub_tasks heap s4.current_folder.id s4 with
    | none => none
    | some s5 => some { s5 with has_been_sorted_after_loading := false }

/-! ## External collaborators -/

/-- When a comparator is a consistent ordering of the elements of `l`, as the C
standard requires of the comparator handed to `qsort`: the results for
`(x, y)` and `(y, x)` have opposite signs, and the ordering is transitive. -/
def Consistent_On (cmp : Nat → Nat → Int) (l : List Nat) : Prop :=
  (∀ x ∈ l, ∀ y ∈ l, (cmp x y < 0 ↔ 0 < cmp y x) ∧ (cmp x y = 0 ↔ cmp y x = 0)) ∧
  (∀ x ∈ l, ∀ y ∈ l, ∀ z ∈ l, cmp x y ≤ 0 → cmp y z ≤ 0 → cmp x z ≤ 0)

/-- What the C standard promises of the libc `qsort`, which is not part of the
repository: it rearranges the array, and it leaves the array in ascending order
of the comparator when the comparator is a consistent ordering of the array's
elements. -/
def Qsort_Contract (sort : (Nat → Nat → Int) → List Nat → List Nat) : Prop :=
  (∀ cmp l, (sort cmp l).Perm l) ∧
  (∀ cmp l, Consistent_On cmp l → (sort cmp l).Pairwise (fun x y => cmp x y ≤ 0))

/-- The registries and library routines this file calls but does not define. -/
structure Env where
  find_custom_status_by_id : Custom_Status_Id → Option Custom_Status
  find_user_by_id : User_Id → Option User
  find_custom_field_by_id : Custom_Field_Id → Option Custom_Field
  string_atoi : Str → Int
  qsort : (Nat → Nat → Int) → List Nat → List Nat

/-! ## Comparators -/

/-- The function `full_user_name_to_temporary_string` of `users.h`. -/
def full_user_name_to_temporary_string (user : User) : Str :=
  user.first_name ++ [32] ++ user.last_name

/-- The lookup loop of `compare_tasks_custom_fields`: the value of the first
entry with the given field id. -/
def find_sort_custom_field_value (sort_custom_field_id : Custom_Field_Id) :
    List Custom_Field_Value → Option Str
  | [] => none
  | entry :: rest =>
    if entry.field_id = sort_custom_field_id then some entry.value
    else find_sort_custom_field_value sort_custom_field_id rest

/-- The function `compare_tasks_custom_fields`. -/
def compare_tasks_custom_fields (string_atoi : Str → Int) (sort_custom_field_id : Custom_Field_Id)
    (a b : Folder_Task) (custom_field_type : Custom_Field_Type) : Int :=
  match find_sort_custom_field_value sort_custom_field_id a.custom_field_values with
  | none => 1
  | some a_value =>
    match find_sort_custom_field_value sort_custom_field_id b.custom_field_values with
    | none => -1
    | some b_value =>
      match custom_field_type with
      | Custom_Field_Type.Numeric => to_int (string_atoi a_value - string_atoi b_value)
      | Custom_Field_Type.DropDown => strncmp a_value b_value (MIN a_value.length b_value.length)
      | Custom_Field_Type.Text => strncmp a_value b_value (MIN a_value.length b_value.length)
      | Custom_Field_Type.Other => 0

/-- The function `compare_folder_tasks_based_on_title`. -/
def compare_folder_tasks_based_on_title (sort_direction : Int) (as bs : Sorted_Folder_Task) : Int :=
  let a := as.source_task
  let b := bs.source_task
  let result := strncmp a.title b.title (MIN a.title.length b.title.length) * sort_direction
  if result = 0 then to_int (as.source_task.id - bs.source_task.id)
  else result

/-- The function `compare_folder_tasks_based_on_assignees`. -/
def compare_folder_tasks_based_on_assignees (sort_direction : Int) (as bs : Sorted_Folder_Task) :
    Int :=
  match as.cached_first_assignee with
  | none => 1
  | some a_assignee =>
    match bs.cached_first_assignee with
    | none => -1
    | some b_assignee =>
      let a_name := full_user_name_to_temporary_string a_assignee
      let b_name := full_user_name_to_temporary_string b_assignee
      let result := strncmp a_name b_name (MIN a_name.length b_name.length) * sort_direction
      if result = 0 then to_int (as.source_task.id - bs.source_task.id)
      else result

/-- The function `compare_folder_tasks_based_on_status`; `none` is the
dereference of a null `cached_status`. -/
def compare_folder_tasks_based_on_status (sort_direction : Int) (as bs : Sorted_Folder_Task) :
    Option Int :=
  match as.cached_status, bs.cached_status with
  | some a_status, some b_status =>
    let result := to_int (a_status.natural_index - b_status.natural_index)
    let result := if result = 0 then to_int ((a_status.id - b_status.id) * sort_direction)
      else result
    if result = 0 then some (to_int (as.source_task.id - bs.source_task.id))
    else some result
  | _, _ => none

/-- The function `compare_folder_tasks_based_on_custom_field`; `none` is the
dereference of a null `sort_custom_field`. -/
def compare_folder_tasks_based_on_custom_field (string_atoi : Str → Int) (sort_direction : Int)
    (sort_custom_field_id : Custom_Field_Id) (sort_custom_field : Option Custom_Field)
    (as bs : Sorted_Folder_Task) : Option Int :=
  match sort_custom_field with
  | none => none
  | some field =>
    let result := to_int (compare_tasks_custom_fields string_atoi sort_custom_field_id
      as.source_task bs.source_task field.type * sort_direction)
    if result = 0 then some (to_int (as.source_task.id - bs.source_task.id))
    else some result

/-- The function `get_comparator_by_current_sort_type`; `none` is the failed
assertion on an invalid sort field. -/
def get_comparator_by_current_sort_type (env : Env) (s : State) :
    Option (Sorted_Folder_Task → Sorted_Folder_Task → Option Int) :=
  match s.sort_field with
  | Task_List_Sort_Field.Title =>
    some (fun as bs => some (compare_folder_tasks_based_on_title s.sort_direction as bs))
  | Task_List_Sort_Field.Assignee =>
    some (fun as bs => some (compare_folder_tasks_based_on_assignees s.sort_direction as bs))
  | Task_List_Sort_Field.Status =>
    some (compare_folder_tasks_based_on_status s.sort_direction)
  | Task_List_Sort_Field.Custom_Field =>
    some (compare_folder_tasks_based_on_custom_field env.string_atoi s.sort_direction
      s.sort_custom_field_id s.sort_custom_field)
  | Task_List_Sort_Field.None => none

/-- A comparator applied to two elements of an array of task pointers: both
pointers are dereferenced first. -/
def compare_pointers (cmp : Sorted_Folder_Task → Sorted_Folder_Task → Option Int)
    (tasks : List Sorted_Folder_Task) (i j : Nat) : Option Int :=
  match tasks[i]?, tasks[j]? with
  | some a, some b => cmp a b
  | _, _ => none

/-- A call of `qsort` with a comparator that can fault.  An array of fewer than
two elements is left alone without a comparison.  Otherwise every element takes
part in some comparison, so the call faults when the comparator faults on some
pair of elements (for the comparators of this file a fault depends on one
operand or on none); if not, the array is rearranged by the library routine. -/
def qsort (impl : (Nat → Nat → Int) → List Nat → List Nat) (cmp : Nat → Nat → Option Int)
    (base : List Nat) : Option (List Nat) :=
  if base.length < 2 then some base
  else if base.all (fun x => base.all (fun y => (cmp x y).isSome)) then
    some (impl (fun x y => (cmp x y).getD 0) base)
  else none

/-! ## Tree flattener -/

/-- The statement `flattened_task->num_visible_sub_tasks += count`. -/
def add_visible_sub_tasks (data : List Flattened_Folder_Task) (flattened_task count : Nat) :
    Option (List Flattened_Folder_Task) :=
  match data[flattened_task]? with
  | none => none
  | some row =>
    some (data.set flattened_task
      { row with num_visible_sub_tasks := row.num_visible_sub_tasks + count })

/-- The loop over `task->sub_tasks[sub_task_index]` in
`rebuild_flattened_task_tree_hierarchically`, over the slab positions still to
visit; `visit` is the recursive call. -/
def visit_sub_tasks
    (visit : Nat → List Flattened_Folder_Task × Nat → Option (Nat × (List Flattened_Folder_Task × Nat)))
    (slab : List Nat) (flattened_task : Nat) :
    List Nat → List Flattened_Folder_Task × Nat → Option (List Flattened_Folder_Task × Nat)
  | [], buffer => some buffer
  | position :: rest, buffer =>
    match slab[position]? with
    | none => none
    | some sub_task =>
      match visit sub_task buffer with
      | none => none
      | some (count, (data, current_task)) =>
        match add_visible_sub_tasks data flattened_task count with
        | none => none
        | some data => visit_sub_tasks visit slab flattened_task rest (data, current_task)

/-- The function `rebuild_flattened_task_tree_hierarchically`.  The buffer is
the allocated row block with the write cursor `*current_task`; the first
argument bounds the recursion depth.  `none` is a fault (null status, a write
past the block, a read past the slab) or an exhausted depth bound. -/
def rebuild_flattened_task_tree_hierarchically (s : State) :
    Nat → Nat → Bool → Nat → List Flattened_Folder_Task × Nat →
      Option (Nat × (List Flattened_Folder_Task × Nat))
  | 0, _, _, _, _ => none
  | fuel + 1, task, is_parent_expanded, level, buffer =>
    match s.sorted_folder_tasks[task]? with
    | none => none
    | some t =>
      let filtered_out : Option Bool :=
        if s.show_only_active_tasks then
          match t.cached_status with
          | none => none
          | some status => some (decide (status.group ≠ Status_Group.Active))
        else some false
      match filtered_out with
      | none => none
      | some true => some (0, buffer)
      | some false =>
        if is_parent_expanded then
          if buffer.2 < buffer.1.length then
            let flattened_task := buffer.2
            let data := buffer.1.set flattened_task
              { sorted_task := task
                nesting_level := level
                num_visible_sub_tasks := 0
                needs_sub_task_sort := true }
            match visit_sub_tasks
                (fun sub_task buffer =>
                  rebuild_flattened_task_tree_hierarchically s fuel sub_task t.is_expanded
                    (level + 1) buffer)
                s.sub_tasks flattened_task
                ((List.range t.num_sub_tasks).map (fun index => t.sub_tasks + index))
                (data, flattened_task + 1) with
            | none => none
            | some buffer => some (1, buffer)
          else none
        else some (1, buffer)

/-- The function `rebuild_flattened_task_tree`. -/
def rebuild_flattened_task_tree (fuel : Nat) (s : State) : Option State :=
  match s.top_level_tasks.foldlM
      (fun buffer task =>
        match rebuild_flattened_task_tree_hierarchically s fuel task true 0 buffer with
        | none => none
        | some (_, buffer) => some buffer)
      (s.flattened_data, 0) with
  | none => none
  | some (data, current_task) =>
    some { s with flattened_data := data, flattened_length := current_task }

/-! ## Sort engine -/

/-- The function `sort_top_level_tasks_and_rebuild_flattened_tree`. -/
def sort_top_level_tasks_and_rebuild_flattened_tree (env : Env) (fuel : Nat) (s : State) :
    Option State :=
  match get_comparator_by_current_sort_type env s with
  | none => none
  | some cmp =>
    match qsort env.qsort (compare_pointers cmp s.sorted_folder_tasks) s.top_level_tasks with
    | none => none
    | some top_level_tasks =>
      rebuild_flattened_task_tree fuel { s with top_level_tasks := top_level_tasks }

/-- The loop body of `update_cached_data_for_sorted_tasks`. -/
def update_cached_data_of_task (env : Env) (tasks : List Sorted_Folder_Task) (index : Nat) :
    Option (List Sorted_Folder_Task) :=
  match tasks[index]? with
  | none => none
  | some sorted_folder_task =>
    let source := sorted_folder_task.source_task
    some (tasks.set index
      { sorted_folder_task with
        cached_status := env.find_custom_status_by_id source.custom_status_id
        cached_first_assignee :=
          match source.assignees with
          | [] => none
          | first :: _ => env.find_user_by_id first })

/-- The function `update_cached_data_for_sorted_tasks`. -/
def update_cached_data_for_sorted_tasks (env : Env) (s : State) : Option State :=
  match (List.range s.folder_tasks.length).foldlM (update_cached_data_of_task env)
      s.sorted_folder_tasks with
  | none => none
  | some tasks => some { s with sorted_folder_tasks := tasks }

/-- The function `sort_by_field`; `none` is a fault, among them the failed
assertion `sort_by != Task_List_Sort_Field_Custom_Field`. -/
def sort_by_field (env : Env) (fuel : Nat) (sort_by : Task_List_Sort_Field) (s : State) :
    Option State :=
  if sort_by = Task_List_Sort_Field.Custom_Field then none
  else
    let s1 : State :=
      if s.sort_field = sort_by then { s with sort_direction := to_char (s.sort_direction * -1) }
      else { s with sort_direction := Sort_Direction_Normal }
    match update_cached_data_for_sorted_tasks env s1 with
    | none => none
    | some s2 =>
      sort_top_level_tasks_and_rebuild_flattened_tree env fuel { s2 with sort_field := sort_by }

/-- The function `sort_by_custom_field`. -/
def sort_by_custom_field (env : Env) (fuel : Nat) (field_id : Custom_Field_Id) (s : State) :
    Option State :=
  let s1 : State :=
    if s.sort_field = Task_List_Sort_Field.Custom_Field ∧ field_id = s.sort_custom_field_id then
      { s with sort_direction := to_char (s.sort_direction * -1) }
    else { s with sort_direction := Sort_Direction_Normal }
  match update_cached_data_for_sorted_tasks env s1 with
  | none => none
  | some s2 =>
    sort_top_level_tasks_and_rebuild_flattened_tree env fuel
      { s2 with
        sort_field := Task_List_Sort_Field.Custom_Field
        sort_custom_field_id := field_id
        sort_custom_field := env.find_custom_field_by_id field_id }

/-! ## Auxiliary definitions of the statements -/

/-- The fields of a decorated task that the relation builder never writes. -/
def Sorted_Folder_Task.frame (t : Sorted_Folder_Task) :
    Task_Id × Folder_Task × Option Custom_Status × Option User × Bool :=
  (t.id, t.source_task, t.cached_status, t.cached_first_assignee, t.is_expanded)

/-- The parent task id list of the task at `i` (empty outside the block). -/
def parent_task_ids_at (tasks : List Sorted_Folder_Task) (i : Nat) : List Task_Id :=
  match tasks[i]? with
  | some t => t.source_task.parent_task_ids
  | none => []

/-- The child counter of the task at `i` (zero outside the block). -/
def num_sub_tasks_at (tasks : List Sorted_Folder_Task) (i : Nat) : Nat :=
  match tasks[i]? with
  | some t => t.num_sub_tasks
  | none => 0

/-- The slab offset of the task at `i` (zero outside the block). -/
def sub_tasks_at (tasks : List Sorted_Folder_Task) (i : Nat) : Nat :=
  match tasks[i]? with
  | some t => t.sub_tasks
  | none => 0

/-- Sum of the child counters of the first `k` tasks of the block. -/
def num_sub_tasks_before (tasks : List Sorted_Folder_Task) (k : Nat) : Nat :=
  ((tasks.take k).map (fun t => t.num_sub_tasks)).sum

/-- The tasks (indices, in list order) of the pairs whose parent id resolves to `p`. -/
def children_resolving_to (map : Id_Hash_Map) (p : Nat) (F : List (Nat × Task_Id)) : List Nat :=
  (F.filter (fun e => decide (id_hash_map_get map e.2 = some p))).map (fun e => e.1)

/-- The number of pairs whose parent id resolves to `p`. -/
def count_resolving_to (map : Id_Hash_Map) (p : Nat) (F : List (Nat × Task_Id)) : Nat :=
  F.countP (fun e => decide (id_hash_map_get map e.2 = some p))

/-- The parent folder id list of the task at `i` (empty outside the block). -/
def parent_folder_ids_at (tasks : List Sorted_Folder_Task) (i : Nat) : List Folder_Id :=
  match tasks[i]? with
  | some t => t.source_task.parent_folder_ids
  | none => []

/-- The slot of the decorated task array after `process_folder_contents_data_object`
wrote the record `record` into it. -/
def ingested_slot (slot : Sorted_Folder_Task) (record : Folder_Task) : Sorted_Folder_Task :=
  { slot with
    num_sub_tasks := 0
    source_task := record
    is_expanded := false
    id := record.id }

/-- The index built by ingesting `data` from slot `k` on. -/
def index_of_batch (k : Nat) (data : List Folder_Task) : Id_Hash_Map :=
  (data.enumFrom k).map (fun p => (p.2.id, p.1))

/-- The `(task, parent task id)` pairs of a batch, in task store order and,
within a task, in the order of its parent task id list. -/
def parent_task_id_pairs (data : List Folder_Task) : List (Nat × Task_Id) :=
  data.enum.flatMap (fun p => p.2.parent_task_ids.map (fun x => (p.1, x)))

/-- The state right after the ingestion loop of `process_folder_contents_data`
ran over the batch `data`. -/
structure Ingested (s : State) (data : List Folder_Task) : Prop where
  folder_tasks : s.folder_tasks = data
  capacity : data.length ≤ s.sorted_folder_tasks.length
  slots : ∀ i (h : i < data.length),
    ∃ slot, s.sorted_folder_tasks[i]? = some (ingested_slot slot data[i])
  index : ∀ (id : Task_Id) (p : Nat),
    id_hash_map_get s.id_to_sorted_folder_task id = some p ↔
      (data[p]?).map (fun r => r.id) = some id

/-- The allocated blocks cover the live length (the invariant that
`process_folder_contents_data` relies on when it decides whether to reallocate). -/
def Blocks_Allocated (s : State) : Prop :=
  s.folder_tasks.length ≤ s.sorted_folder_tasks.length ∧
  s.folder_tasks.length ≤ s.flattened_data.length

instance (s : State) : Decidable (Blocks_Allocated s) := by
  unfold Blocks_Allocated; infer_instance

/-- The tasks (indices, in task store order) that name `id` in their parent
task id list, one entry per occurrence. -/
def tasks_naming (data : List Folder_Task) (id : Task_Id) : List Nat :=
  ((parent_task_id_pairs data).filter (fun e => decide (e.2 = id))).map (fun e => e.1)

/-- The top level list the spec describes: each task, in task store order,
once per occurrence of the active container in its folder list. -/
def top_level_of_batch (top_parent_id : Folder_Id) (data : List Folder_Task) : List Nat :=
  data.enum.flatMap (fun p => List.replicate (p.2.parent_folder_ids.count top_parent_id) p.1)

/-- What `process_folder_contents_data` leaves behind for the batch `data`
when started in the state `old`. -/
structure Relations_Built (heap : Heap_Garbage) (old : State) (data : List Folder_Task)
    (s : State) : Prop where
  state_eq : s = { old with
    folder_tasks := data
    id_to_sorted_folder_task := index_of_batch 0 data
    top_level_tasks := top_level_of_batch old.current_folder.id data
    flattened_data :=
      if old.folder_tasks.length < data.length then
        REALLOC old.flattened_data data.length heap.flattened_task
      else old.flattened_data
    has_been_sorted_after_loading := false
    sorted_folder_tasks := s.sorted_folder_tasks
    sub_tasks := s.sub_tasks }
  capacity : data.length ≤ s.sorted_folder_tasks.length
  index : ∀ (id : Task_Id) (p : Nat),
    id_hash_map_get s.id_to_sorted_folder_task id = some p ↔
      (data[p]?).map (fun r => r.id) = some id
  tasks : ∀ i (h : i < data.length), ∃ t, s.sorted_folder_tasks[i]? = some t ∧
    t.source_task = data[i] ∧ t.id = data[i].id ∧ t.is_expanded = false
  num : ∀ p, p < data.length → num_sub_tasks_at s.sorted_folder_tasks p
    = count_resolving_to s.id_to_sorted_folder_task p (parent_task_id_pairs data)
  off : ∀ p, p < data.length → num_sub_tasks_at s.sorted_folder_tasks p ≠ 0 →
    sub_tasks_at s.sorted_folder_tasks p = num_sub_tasks_before s.sorted_folder_tasks p
  slab_length : s.sub_tasks.length = num_sub_tasks_before s.sorted_folder_tasks data.length
  slab_count : s.sub_tasks.length = (parent_task_id_pairs data).countP
    (fun e => (id_hash_map_get s.id_to_sorted_folder_task e.2).isSome)
  children : ∀ p, p < data.length →
    (s.sub_tasks.drop (num_sub_tasks_before s.sorted_folder_tasks p)).take
        (num_sub_tasks_at s.sorted_folder_tasks p)
      = children_resolving_to s.id_to_sorted_folder_task p (parent_task_id_pairs data)

/-- The direction is one of the two named constants. -/
def Valid_Sort_Direction (s : State) : Prop :=
  s.sort_direction = Sort_Direction_Normal ∨ s.sort_direction = Sort_Direction_Reverse

instance (s : State) : Decidable (Valid_Sort_Direction s) := by
  unfold Valid_Sort_Direction; infer_instance

/-- The decorated task after `update_cached_data_for_sorted_tasks` refreshed it. -/
def refresh_cached_data (env : Env) (t : Sorted_Folder_Task) : Sorted_Folder_Task :=
  { t with
    cached_status := env.find_custom_status_by_id t.source_task.custom_status_id
    cached_first_assignee :=
      match t.source_task.assignees with
      | [] => none
      | first :: _ => env.find_user_by_id first }

/-- Whether every adjacent pair `x, y` of the array satisfies `cmp(x, y) <= 0`
(a faulting comparison counts as not ordered). -/
def adjacent_ordered (cmp : Nat → Nat → Option Int) : List Nat → Bool
  | x :: y :: rest =>
    (match cmp x y with
      | some result => decide (result ≤ 0)
      | none => false) && adjacent_ordered cmp (y :: rest)
  | _ => true

/-- Whether the top level list is ordered by the comparator of the current
sort field and direction. -/
def top_level_ordered (env : Env) (s : State) : Bool :=
  match get_comparator_by_current_sort_type env s with
  | none => false
  | some cmp => adjacent_ordered (compare_pointers cmp s.sorted_folder_tasks) s.top_level_tasks

/-! ## Sample inputs -/

/-- Insertion of one element into an ordered list. -/
def ordered_insert (cmp : Nat → Nat → Int) (x : Nat) : List Nat → List Nat
  | [] => [x]
  | y :: ys => if cmp x y ≤ 0 then x :: y :: ys else y :: ordered_insert cmp x ys

/-- Insertion sort, one admissible behaviour of `qsort`. -/
def insertion_sort (cmp : Nat → Nat → Int) : List Nat → List Nat
  | [] => []
  | x :: xs => ordered_insert cmp x (insertion_sort cmp xs)

/-- A sample environment: every status id resolves to an active status, user 1
is known, custom field 7 is a numeric field. -/
def sample_env : Env where
  find_custom_status_by_id := fun id =>
    some { id := id, group := Status_Group.Active, name := [], color := 0, natural_index := 0 }
  find_user_by_id := fun id =>
    if id = 1 then some { id := 1, first_name := [65], last_name := [66] } else none
  find_custom_field_by_id := fun id =>
    if id = 7 then some { id := 7, type := Custom_Field_Type.Numeric, title := [] } else none
  string_atoi := fun _ => 0
  qsort := insertion_sort

/-- A sample allocator content: zeroed cells. -/
def sample_heap : Heap_Garbage where
  sorted_task := fun _ => default
  flattened_task := fun _ => default
  sub_task := fun _ => 0

/-- A sample record with the given id, folder list and parent task list. -/
def sample_task (id : Task_Id) (folders : List Folder_Id) (parents : List Task_Id) : Folder_Task where
  id := id
  custom_status_id := 0
  title := []
  custom_field_values := []
  parent_folder_ids := folders
  parent_task_ids := parents
  assignees := []

/-- A sample batch: task 11 lists folder 5 twice and names the unknown task 99;
task 12 names task 11 twice; task 13 names itself. -/
def sample_batch : List Folder_Task :=
  [sample_task 10 [5] [], sample_task 11 [5, 5] [10, 99], sample_task 12 [] [10, 11, 11],
    sample_task 13 [7] [12, 13]]

/-- The initial module state with folder 5, which has the custom column 7, as the
active container. -/
def sample_state : State :=
  { initial_state with current_folder := { id := 5, name := [], custom_columns := [7] } }

/-- The sample batch, ingested. -/
def sample_loaded : State :=
  (process_folder_contents_data sample_heap sample_state sample_batch).getD sample_state

/-- The ingested sample batch after the first sort by title. -/
def sample_by_title : State :=
  (sort_by_field sample_env 3 Task_List_Sort_Field.Title sample_loaded).getD sample_loaded

/-- The ingested sample batch after a sort by custom field 7. -/
def sample_by_custom_field : State :=
  (sort_by_custom_field sample_env 3 7 sample_by_title).getD sample_loaded

/-- Two tasks of the active folder 5, neither with an assignee. -/
def unassigned_batch : List Folder_Task :=
  [sample_task 20 [5] [], sample_task 21 [5] []]

/-- The two unassigned tasks, ingested. -/
def unassigned_loaded : State :=
  (process_folder_contents_data sample_heap sample_state unassigned_batch).getD sample_state

/-- A decorated task with the given id and title, no status and no assignee. -/
def titled_task (id : Task_Id) (title : Str) : Sorted_Folder_Task where
  id := id
  source_task :=
    { id := id, custom_status_id := 0, title := title, custom_field_values := [],
      parent_folder_ids := [], parent_task_ids := [], assignees := [] }
  cached_status := none
  cached_first_assignee := none
  sub_tasks := 0
  num_sub_tasks := 0
  is_expanded := false

/-- A decorated task with the given id whose only custom field value is `value`
for the field `field_id`. -/
def valued_task (id : Task_Id) (field_id : Custom_Field_Id) (value : Str) : Sorted_Folder_Task :=
  { titled_task id [] with
    source_task :=
      { (titled_task id []).source_task with
        custom_field_values := [{ field_id := field_id, value := value }] } }

/-- A sample numeric custom field with id 7. -/
def sample_numeric_field : Custom_Field where
  id := 7
  type := Custom_Field_Type.Numeric
  title := []

/-- A sample parser: the value of a string of decimal digits (no sign). -/
def sample_atoi (value : Str) : Int :=
  value.foldl (fun acc byte => acc * 10 + ((byte : Int) - 48)) 0

/-- A sample status with the given id and natural index, in the Active group. -/
def sample_status (id : Custom_Status_Id) (natural_index : Int) : Custom_Status where
  id := id
  group := Status_Group.Active
  name := []
  color := 0
  natural_index := natural_index

/-- A decorated task with the given id and cached status. -/
def status_task (id : Task_Id) (status : Custom_Status) : Sorted_Folder_Task :=
  { titled_task id [] with cached_status := some status }

/-- The value of `result` in `compare_folder_tasks_based_on_title` before the
test `result == 0`. -/
def title_result_before_tie_break (sort_direction : Int) (as bs : Sorted_Folder_Task) : Int :=
  strncmp as.source_task.title bs.source_task.title
    (MIN as.source_task.title.length bs.source_task.title.length) * sort_direction

/-- The value `compare_folder_tasks_based_on_assignees` has computed before it
reaches the test `result == 0`: one of the early results 1 and -1 for a missing
assignee, or the scaled name comparison. -/
def assignees_result_before_tie_break (sort_direction : Int) (as bs : Sorted_Folder_Task) : Int :=
  match as.cached_first_assignee with
  | none => 1
  | some a_assignee =>
    match bs.cached_first_assignee with
    | none => -1
    | some b_assignee =>
      strncmp (full_user_name_to_temporary_string a_assignee)
        (full_user_name_to_temporary_string b_assignee)
        (MIN (full_user_name_to_temporary_string a_assignee).length
          (full_user_name_to_temporary_string b_assignee).length) * sort_direction

/-- The value of `result` in `compare_folder_tasks_based_on_status` before the
last test `!result`. -/
def status_result_before_tie_break (sort_direction : Int) (a_status b_status : Custom_Status) :
    Int :=
  if to_int (a_status.natural_index - b_status.natural_index) = 0 then
    to_int ((a_status.id - b_status.id) * sort_direction)
  else to_int (a_status.natural_index - b_status.natural_index)

/-- The value of `result` in `compare_folder_tasks_based_on_custom_field`
before the test `!result`. -/
def custom_field_result_before_tie_break (string_atoi : Str → Int) (sort_direction : Int)
    (sort_custom_field_id : Custom_Field_Id) (field : Custom_Field)
    (as bs : Sorted_Folder_Task) : Int :=
  to_int (compare_tasks_custom_fields string_atoi sort_custom_field_id as.source_task
    bs.source_task field.type * sort_direction)

/-- A state with one task whose status is in the Completed group; the task is
expanded and its children range names the task itself twice. -/
def filtered_state : State :=
  { initial_state with
    folder_tasks := [(titled_task 1 []).source_task]
    sorted_folder_tasks :=
      [{ status_task 1 { sample_status 5 3 with group := Status_Group.Completed } with
          num_sub_tasks := 2
          is_expanded := true }]
    sub_tasks := [0, 0]
    flattened_data := [default]
    top_level_tasks := [0] }

/-- The two unassigned tasks after a sort by assignee. -/
def unassigned_by_assignee : State :=
  (sort_by_field sample_env 3 Task_List_Sort_Field.Assignee unassigned_loaded).getD sample_loaded

/-- A sample parser with a sign: an optional minus sign (byte 45), then decimal
digits. -/
def sample_signed_atoi (value : Str) : Int :=
  match value with
  | 45 :: digits => - sample_atoi digits
  | _ => sample_atoi value

/-- The outcome of the first test of `rebuild_flattened_task_tree_hierarchically`
on a task: `some true` when the task is filtered out, `none` when the test
dereferences a null status. -/
def filtered_out (s : State) (t : Sorted_Folder_Task) : Option Bool :=
  if s.show_only_active_tasks then
    match t.cached_status with
    | none => none
    | some status => some (decide (status.group ≠ Status_Group.Active))
  else some false

/-- The rows a loop over sub tasks emits and the sum of the values the calls
return; `visit` is the call on one sub task, a `none` entry a read outside the
array of sub tasks. -/
def rows_of_sub_tasks (visit : Nat → Option (Nat × List Flattened_Folder_Task)) :
    List (Option Nat) → Option (Nat × List Flattened_Folder_Task)
  | [] => some (0, [])
  | none :: _ => none
  | some sub_task :: rest =>
    match visit sub_task with
    | none => none
    | some (count, rows) =>
      match rows_of_sub_tasks visit rest with
      | none => none
      | some (count', rows') => some (count + count', rows ++ rows')

/-- The value `rebuild_flattened_task_tree_hierarchically` returns and the rows
it emits, in the order written, with the final value of `num_visible_sub_tasks`
in each. -/
def rows_of (s : State) : Nat → Nat → Bool → Nat → Option (Nat × List Flattened_Folder_Task)
  | 0, _, _, _ => none
  | fuel + 1, task, is_parent_expanded, level =>
    match s.sorted_folder_tasks[task]? with
    | none => none
    | some t =>
      match filtered_out s t with
      | none => none
      | some true => some (0, [])
      | some false =>
        if is_parent_expanded then
          match rows_of_sub_tasks
              (fun sub_task => rows_of s fuel sub_task t.is_expanded (level + 1))
              ((List.range t.num_sub_tasks).map
                (fun index => s.sub_tasks[t.sub_tasks + index]?)) with
          | none => none
          | some (count, rows) =>
            some (1, { sorted_task := task, nesting_level := level,
                       num_visible_sub_tasks := count, needs_sub_task_sort := true } :: rows)
        else some (1, [])

/-- The rows a full rebuild emits. -/
def tree_rows (s : State) (fuel : Nat) : Option (List Flattened_Folder_Task) :=
  match rows_of_sub_tasks (fun task => rows_of s fuel task true 0)
      (s.top_level_tasks.map some) with
  | none => none
  | some (_, rows) => some rows

/-- The row block after `rows` were written from the cursor `current_task` on. -/
def write_rows : List Flattened_Folder_Task → Nat → List Flattened_Folder_Task →
    List Flattened_Folder_Task
  | data, _, [] => data
  | data, current_task, row :: rows => write_rows (data.set current_task row) (current_task + 1) rows

/-- The live rows of the flattened array. -/
def flattened_rows (s : State) : List Flattened_Folder_Task :=
  s.flattened_data.take s.flattened_length

/-- The press of the expand arrow of a row of the task `sorted_task`
(`sorted_task->is_expanded = !sorted_task->is_expanded` and the queued
rebuild). -/
def toggle_is_expanded (s : State) (sorted_task : Nat) : Option State :=
  match s.sorted_folder_tasks[sorted_task]? with
  | none => none
  | some t =>
    some { s with
      sorted_folder_tasks := s.sorted_folder_tasks.set sorted_task
        { t with is_expanded := !t.is_expanded }
      queue_flattened_tree_rebuild := true }

/-- The queued rebuild at the end of the frame in `draw_task_list`. -/
def rebuild_if_queued (fuel : Nat) (s : State) : Option State :=
  if s.queue_flattened_tree_rebuild then
    rebuild_flattened_task_tree fuel { s with queue_flattened_tree_rebuild := false }
  else some s

/-- Whether the task exists and passes the first test of
`rebuild_flattened_task_tree_hierarchically`. -/
def is_visible (s : State) (task : Nat) : Bool :=
  match s.sorted_folder_tasks[task]? with
  | none => false
  | some t => decide (filtered_out s t = some false)

/-- The direct sub tasks of a task that pass the filter, one entry per slot of
its children range. -/
def visible_sub_tasks (s : State) (t : Sorted_Folder_Task) : List Nat :=
  ((List.range t.num_sub_tasks).filterMap
    (fun index => s.sub_tasks[t.sub_tasks + index]?)).filter (is_visible s)

/-- The number of rows that follow row `i` before the next row whose nesting
level is not greater than that of row `i`. -/
def subtree_row_count (rows : List Flattened_Folder_Task) (i : Nat) : Nat :=
  match rows[i]? with
  | none => 0
  | some row =>
    ((rows.drop (i + 1)).takeWhile
      (fun r => decide (row.nesting_level < r.nesting_level))).length

/-- A chain: task 10 lies in the active folder 5, task 11 names task 10 as its
parent, task 12 names task 11. -/
def chain_batch : List Folder_Task :=
  [sample_task 10 [5] [], sample_task 11 [] [10], sample_task 12 [] [11]]

/-- The chain, ingested and sorted by title for the first time: every task is
collapsed. -/
def chain_loaded : State :=
  ((process_folder_contents_data sample_heap sample_state chain_batch).bind
    (sort_by_field sample_env 4 Task_List_Sort_Field.Title)).getD sample_state

/-- The state after the expand arrow of `sorted_task` was pressed and the
queued rebuild ran. -/
def press_and_rebuild (s : State) (sorted_task : Nat) : State :=
  ((toggle_is_expanded s sorted_task).bind (rebuild_if_queued 4)).getD s

/-- The chain with the tasks 10 and 11 expanded. -/
def chain_expanded : State :=
  press_and_rebuild (press_and_rebuild chain_loaded 0) 1

/-- The chain with the tasks 10 and 11 expanded after one more full rebuild. -/
def chain_rebuilt : State :=
  (rebuild_flattened_task_tree 4 chain_expanded).getD sample_state

/-- The rows of the chain with the tasks 10 and 11 expanded. -/
def chain_rows : List Flattened_Folder_Task :=
  [{ sorted_task := 0, nesting_level := 0, num_visible_sub_tasks := 1,
     needs_sub_task_sort := true },
   { sorted_task := 1, nesting_level := 1, num_visible_sub_tasks := 1,
     needs_sub_task_sort := true },
   { sorted_task := 2, nesting_level := 2, num_visible_sub_tasks := 0,
     needs_sub_task_sort := true }]

/-- The relations of a batch of three tasks whose first task is the only top
level task and has the other two, in store order, as its sub tasks; `expanded`
is the expand state of the first task. -/
structure Family_Shape (s : State) (data : List Folder_Task) (expanded : Bool) : Prop where
  top : s.top_level_tasks = [0]
  first : s.sub_tasks[0]? = some 1
  second : s.sub_tasks[1]? = some 2
  room : 3 ≤ s.flattened_data.length
  source : ∀ (i : Nat), i < 3 →
    ∃ t : Sorted_Folder_Task, s.sorted_folder_tasks[i]? = some t ∧ some t.source_task = data[i]?
  parent : ∀ (t : Sorted_Folder_Task), s.sorted_folder_tasks[0]? = some t →
    t.num_sub_tasks = 2 ∧ t.sub_tasks = 0 ∧ t.is_expanded = expanded
  child : ∀ (i : Nat) (t : Sorted_Folder_Task), i = 1 ∨ i = 2 →
    s.sorted_folder_tasks[i]? = some t → t.num_sub_tasks = 0

/-- Every task of the first `n` slots passes the first test of the flattener. -/
def All_Pass (s : State) (n : Nat) : Prop :=
  ∀ (i : Nat) (t : Sorted_Folder_Task), i < n → s.sorted_folder_tasks[i]? = some t →
    filtered_out s t = some false

/-- The loop of `try_find_custom_field_value_in_task` from `index` on, over the
entries not yet looked at. -/
def find_custom_field_value_from (field_id : Custom_Field_Id) :
    List Custom_Field_Value → Nat → Option Nat
  | [], _ => none
  | value :: rest, index =>
    if value.field_id = field_id then some index
    else find_custom_field_value_from field_id rest (index + 1)

/-- The function `try_find_custom_field_value_in_task`; the entry returned is
given by its index in the value list of the task, `none` is the null
pointer. -/
def try_find_custom_field_value_in_task (task : Folder_Task) (field : Option Custom_Field) :
    Option Nat :=
  match field with
  | none => none
  | some field => find_custom_field_value_from field.id task.custom_field_values 0

/-- The children list of a decorated task: the cells of its range of the array
of sub tasks, in order (`none` for a cell outside the array). -/
def sub_tasks_of (s : State) (t : Sorted_Folder_Task) : List (Option Nat) :=
  (List.range t.num_sub_tasks).map (fun index => s.sub_tasks[t.sub_tasks + index]?)

/-- An environment whose status registry knows the status id 0 only. -/
def orphan_env : Env :=
  { sample_env with
    find_custom_status_by_id := fun id =>
      if id = 0 then
        some { id := 0, group := Status_Group.Active, name := [], color := 0, natural_index := 0 }
      else none }

/-- Two tasks of the active folder 5; the status id of the second one is
unknown to `orphan_env`. -/
def orphan_batch : List Folder_Task :=
  [sample_task 30 [5] [], { sample_task 31 [5] [] with custom_status_id := 1 }]

/-- The macro `MAX`. -/
def MAX (a b : Nat) : Nat := if a > b then a else b

/-- The conversion `(u32)` of a float that holds a whole number (wrap to 32
bits). -/
def to_u32 (x : Int) : Nat := (x % 4294967296).toNat

/-- The index `first_visible_row` of `draw_task_list`; the floats are
modelled as rationals. -/
def first_visible_row (scroll_y row_height : ℚ) : Nat :=
  MAX 0 (to_u32 (Int.floor (scroll_y / row_height)))

/-- The bound `last_visible_row` of `draw_task_list`. -/
def last_visible_row (length : Nat) (scroll_y content_height row_height : ℚ) : Nat :=
  MIN length (to_u32 (Int.ceil ((scroll_y + content_height) / row_height)))

/-- The backward walk of `draw_task_list` from `first_visible_row` to the row
of a top level task; `none` is a read outside the live rows. -/
def first_top_level_task_row (rows : List Flattened_Folder_Task) : Nat → Option Nat
  | 0 => some 0
  | row + 1 =>
    match rows[row + 1]? with
    | none => none
    | some flattened_task =>
      if flattened_task.nesting_level ≠ 0 then first_top_level_task_row rows row
      else some (row + 1)

/-- Two tasks of the active folder 5 and a third task that names both of them
as its parent tasks. -/
def shared_child_batch : List Folder_Task :=
  [sample_task 40 [5] [], sample_task 41 [5] [], sample_task 42 [] [40, 41]]

/-- The batch with the shared child, ingested and sorted by title for the
first time. -/
def shared_child_loaded : State :=
  ((process_folder_contents_data sample_heap sample_state shared_child_batch).bind
    (sort_by_field sample_env 4 Task_List_Sort_Field.Title)).getD sample_state

/-- The batch with the shared child after task 40 was expanded and the rows
rebuilt, and task 41 was expanded (rebuild queued). -/
def shared_child_expanded : State :=
  (toggle_is_expanded (press_and_rebuild shared_child_loaded 0) 1).getD sample_state

/-- The rows of the shared child batch with both parents expanded. -/
def shared_child_rows : List Flattened_Folder_Task :=
  [{ sorted_task := 0, nesting_level := 0, num_visible_sub_tasks := 1,
     needs_sub_task_sort := true },
   { sorted_task := 2, nesting_level := 1, num_visible_sub_tasks := 0,
     needs_sub_task_sort := true },
   { sorted_task := 1, nesting_level := 0, num_visible_sub_tasks := 1,
     needs_sub_task_sort := true },
   { sorted_task := 2, nesting_level := 1, num_visible_sub_tasks := 0,
     needs_sub_task_sort := true }]

/-- One task of the active folder 5 that names itself as its parent task. -/
def self_parent_batch : List Folder_Task :=
  [sample_task 50 [5] [50]]

/-- The self parent batch, ingested and sorted by title for the first time. -/
def self_parent_loaded : State :=
  ((process_folder_contents_data sample_heap sample_state self_parent_batch).bind
    (sort_by_field sample_env 4 Task_List_Sort_Field.Title)).getD sample_state

/-- The self parent batch after its task was expanded (rebuild queued). -/
def self_parent_expanded : State :=
  (toggle_is_expanded self_parent_loaded 0).getD sample_state

/-- The decorated task 50 of the self parent batch once it is expanded. -/
def self_parent_root : Sorted_Folder_Task where
  id := 50
  source_task := sample_task 50 [5] [50]
  cached_status := sample_env.find_custom_status_by_id 0
  cached_first_assignee := none
  sub_tasks := 0
  num_sub_tasks := 1
  is_expanded := true

/-- Whether every cell of the children range of every live task holds a live
task of smaller rank: the parent task relation has no cycle. -/
def ranked_by (rank : Nat → Nat) (s : State) : Bool :=
  (List.range s.folder_tasks.length).all (fun task =>
    match s.sorted_folder_tasks[task]? with
    | none => false
    | some t =>
      (List.range t.num_sub_tasks).all (fun index =>
        match s.sub_tasks[t.sub_tasks + index]? with
        | none => false
        | some sub_task =>
          decide (sub_task < s.folder_tasks.length) && decide (rank sub_task < rank task)))

/-- Whether, with the filter on, every live task has a cached status. -/
def statuses_resolved (s : State) : Bool :=
  !s.show_only_active_tasks ||
    (List.range s.folder_tasks.length).all (fun task =>
      match s.sorted_folder_tasks[task]? with
      | none => false
      | some t => t.cached_status.isSome)

/-- Whether the top level list holds live tasks of rank below `bound`. -/
def top_level_below (rank : Nat → Nat) (bound : Nat) (s : State) : Bool :=
  s.top_level_tasks.all (fun task =>
    decide (task < s.folder_tasks.length) && decide (rank task < bound))

/-- The function `rebuild_flattened_task_subtree`; the row `starting_at` is
given by its index in the row block. -/
def rebuild_flattened_task_subtree (fuel : Nat) (s : State) (starting_at : Nat) :
    Option State :=
  match s.flattened_data[starting_at]? with
  | none => none
  | some row =>
    match rebuild_flattened_task_tree_hierarchically s fuel row.sorted_task true
        row.nesting_level (s.flattened_data, starting_at) with
    | none => none
    | some (_, (data, _)) => some { s with flattened_data := data }

/-- Every row of `rows` starts the rows that a call on its task at its nesting
level emits: the row itself, then deeper rows only, up to a row that is not
deeper or to the end. -/
def Rows_Segmented (s : State) (fuel : Nat) (rows : List Flattened_Folder_Task) : Prop :=
  ∀ (i : Nat) (row : Flattened_Folder_Task), rows[i]? = some row →
    ∃ (count : Nat) (rest : List Flattened_Folder_Task),
      rows_of s fuel row.sorted_task true row.nesting_level = some (count, row :: rest) ∧
      (∀ r ∈ rest, row.nesting_level < r.nesting_level) ∧
      rows.drop i = row :: rest ++ rows.drop (i + (rest.length + 1)) ∧
      ∀ (next : Flattened_Folder_Task), (rows.drop (i + (rest.length + 1))).head? = some next →
        next.nesting_level ≤ row.nesting_level

/-- The function `map_columns_to_custom_fields`: the custom field of every
custom column of the folder (`none` for an id unknown to the registry). -/
def map_columns_to_custom_fields (env : Env) (s : State) : List (Option Custom_Field) :=
  s.current_folder.custom_columns.map env.find_custom_field_by_id

/-- The function `draw_assignees_cell_contents`: the texts it draws. -/
def draw_assignees_cell_contents (env : Env) (task : Folder_Task) : List Str :=
  (List.range task.assignees.length).filterMap (fun assignee_index =>
    match task.assignees[assignee_index]? with
    | none => none
    | some user_id =>
      match env.find_user_by_id user_id with
      | none => none
      | some user =>
        some (user.first_name ++ [32] ++ user.last_name ++
          (if assignee_index < task.assignees.length - 1 then [44, 32] else [])))

/-- The function `draw_table_cell_for_task`: the texts the cell draws (the
buttons of column 0 are left out); `none` is a read outside the task block, the
column map or the value list. -/
def draw_table_cell_for_task (env : Env) (s : State)
    (column_to_custom_field : List (Option Custom_Field)) (column : Nat)
    (flattened_task : Flattened_Folder_Task) : Option (List Str) :=
  match s.sorted_folder_tasks[flattened_task.sorted_task]? with
  | none => none
  | some sorted_task =>
    let task := sorted_task.source_task
    match column with
    | 0 => some [task.title]
    | 1 =>
      match sorted_task.cached_status with
      | some status => some [status.name]
      | none => some []
    | 2 => some (draw_assignees_cell_contents env task)
    | _ =>
      if column > custom_columns_start_index then
        match column_to_custom_field[column - custom_columns_start_index]? with
        | none => none
        | some custom_field =>
          match try_find_custom_field_value_in_task task custom_field with
          | none => some []
          | some index =>
            match task.custom_field_values[index]? with
            | none => none
            | some field_value => some [field_value.value]
      else some []

/-- The function `get_column_title`; `none` is a read outside the column map
or the dereference of a null custom field.  The titles of the three fixed
columns are the bytes of "Title", "Status" and "Assignees". -/
def get_column_title (column_to_custom_field : List (Option Custom_Field)) (column : Nat) :
    Option Str :=
  match column with
  | 0 => some [84, 105, 116, 108, 101]
  | 1 => some [83, 116, 97, 116, 117, 115]
  | 2 => some [65, 115, 115, 105, 103, 110, 101, 101, 115]
  | _ =>
    match column_to_custom_field[column - custom_columns_start_index]? with
    | none => none
    | some none => none
    | some (some custom_field) => some custom_field.title

/-- A state with folder 5, whose custom columns are the fields 7 and 7, and one
task that has the value "5" for field 7. -/
def valued_state : State :=
  { initial_state with
    current_folder := { id := 5, name := [], custom_columns := [7, 7] }
    folder_tasks := [(valued_task 1 7 [53]).source_task]
    sorted_folder_tasks := [valued_task 1 7 [53]] }

/-! ## Insertion sort keeps the promise of `qsort` -/

theorem ordered_insert_perm (cmp : Nat → Nat → Int) (x : Nat) :
    ∀ l, (ordered_insert cmp x l).Perm (x :: l) := by
  intro l
  induction l with
  | nil => exact List.Perm.refl _
  | cons y ys ih =>
    unfold ordered_insert
    by_cases h : cmp x y ≤ 0
    · rw [if_pos h]
    · rw [if_neg h]
      exact (List.Perm.cons y ih).trans (List.Perm.swap x y ys)

theorem insertion_sort_perm (cmp : Nat → Nat → Int) :
    ∀ l, (insertion_sort cmp l).Perm l := by
  intro l
  induction l with
  | nil => exact List.Perm.refl _
  | cons x xs ih =>
    unfold insertion_sort
    exact (ordered_insert_perm cmp x _).trans (List.Perm.cons x ih)

theorem ordered_insert_pairwise (cmp : Nat → Nat → Int) (x : Nat) :
    ∀ l, Consistent_On cmp (x :: l) → l.Pairwise (fun a b => cmp a b ≤ 0) →
      (ordered_insert cmp x l).Pairwise (fun a b => cmp a b ≤ 0) := by
  intro l
  induction l with
  | nil => intro _ _; simp [ordered_insert]
  | cons y ys ih =>
    intro hc hp
    have hx : x ∈ x :: y :: ys := List.mem_cons_self _ _
    have hy : y ∈ x :: y :: ys := List.mem_cons_of_mem _ (List.mem_cons_self _ _)
    have hys : ∀ z ∈ ys, z ∈ x :: y :: ys :=
      fun z hz => List.mem_cons_of_mem _ (List.mem_cons_of_mem _ hz)
    rw [List.pairwise_cons] at hp
    unfold ordered_insert
    by_cases h : cmp x y ≤ 0
    · rw [if_pos h, List.pairwise_cons]
      refine ⟨?_, List.pairwise_cons.2 hp⟩
      intro z hz
      rcases List.mem_cons.1 hz with hzy | hzs
      · rw [hzy]; exact h
      · exact hc.2 x hx y hy z (hys z hzs) h (hp.1 z hzs)
    · rw [if_neg h, List.pairwise_cons]
      constructor
      · intro z hz
        rcases List.mem_cons.1 ((ordered_insert_perm cmp x ys).mem_iff.1 hz) with hzx | hzs
        · rw [hzx]
          have h1 : 0 < cmp x y := by omega
          have := ((hc.1 y hy x hx).1).2 h1
          omega
        · exact hp.1 z hzs
      · apply ih _ hp.2
        refine ⟨fun a ha b hb => hc.1 a ?_ b ?_, fun a ha b hb c hc' => hc.2 a ?_ b ?_ c ?_⟩ <;>
          first
          | (rcases List.mem_cons.1 ha with h' | h'
             · rw [h']; exact hx
             · exact hys _ h')
          | (rcases List.mem_cons.1 hb with h' | h'
             · rw [h']; exact hx
             · exact hys _ h')
          | (rcases List.mem_cons.1 hc' with h' | h'
             · rw [h']; exact hx
             · exact hys _ h')

theorem Consistent_On.of_subset {cmp : Nat → Nat → Int} {l l' : List Nat}
    (h : Consistent_On cmp l) (hsub : ∀ x ∈ l', x ∈ l) : Consistent_On cmp l' :=
  ⟨fun x hx y hy => h.1 x (hsub x hx) y (hsub y hy),
    fun x hx y hy z hz => h.2 x (hsub x hx) y (hsub y hy) z (hsub z hz)⟩

theorem insertion_sort_pairwise (cmp : Nat → Nat → Int) :
    ∀ l, Consistent_On cmp l → (insertion_sort cmp l).Pairwise (fun a b => cmp a b ≤ 0) := by
  intro l
  induction l with
  | nil => intro _; simp [insertion_sort]
  | cons x xs ih =>
    intro hc
    unfold insertion_sort
    apply ordered_insert_pairwise
    · apply hc.of_subset
      intro z hz
      rcases List.mem_cons.1 hz with h | h
      · rw [h]; exact List.mem_cons_self _ _
      · exact List.mem_cons_of_mem _ ((insertion_sort_perm cmp xs).mem_iff.1 h)
    · exact ih (hc.of_subset (fun z hz => List.mem_cons_of_mem _ hz))

/-- Insertion sort keeps the promise of `qsort`. -/
theorem insertion_sort_contract : Qsort_Contract insertion_sort :=
  ⟨insertion_sort_perm, insertion_sort_pairwise⟩

/-! ## The passes of the relation builder -/

theorem map_frame_getElem? {T T' : List Sorted_Folder_Task}
    (h : T'.map Sorted_Folder_Task.frame = T.map Sorted_Folder_Task.frame) (i : Nat) :
    (T'[i]?).map Sorted_Folder_Task.frame = (T[i]?).map Sorted_Folder_Task.frame := by
  have := congrArg (fun l => l[i]?) h
  simpa [List.getElem?_map] using this

theorem map_frame_length {T T' : List Sorted_Folder_Task}
    (h : T'.map Sorted_Folder_Task.frame = T.map Sorted_Folder_Task.frame) :
    T'.length = T.length := by
  have := congrArg List.length h
  simpa using this

theorem map_frame_set {T : List Sorted_Folder_Task} {p : Nat} {t t' : Sorted_Folder_Task}
    (hp : T[p]? = some t) (ht : t'.frame = t.frame) :
    (T.set p t').map Sorted_Folder_Task.frame = T.map Sorted_Folder_Task.frame := by
  apply List.ext_getElem?
  intro i
  simp only [List.getElem?_map, List.getElem?_set]
  by_cases hpi : p = i
  · subst hpi
    have hlt : p < T.length := by
      rcases Nat.lt_or_ge p T.length with h | h
      · exact h
      · rw [List.getElem?_eq_none h] at hp; cases hp
    simp [hlt, hp, ht]
  · simp [hpi]

theorem parent_task_ids_at_congr {T T' : List Sorted_Folder_Task}
    (h : T'.map Sorted_Folder_Task.frame = T.map Sorted_Folder_Task.frame) (i : Nat) :
    parent_task_ids_at T' i = parent_task_ids_at T i := by
  have hi := map_frame_getElem? h i
  unfold parent_task_ids_at
  cases h1 : T'[i]? with
  | none =>
    cases h2 : T[i]? with
    | none => rfl
    | some t => rw [h1, h2] at hi; cases hi
  | some t' =>
    cases h2 : T[i]? with
    | none => rw [h1, h2] at hi; cases hi
    | some t =>
      rw [h1, h2] at hi
      simp only [Option.map_some', Option.some.injEq, Sorted_Folder_Task.frame, Prod.mk.injEq] at hi
      simp [hi.2.1]

theorem foldlM_frame {β γ : Type} (body : List Sorted_Folder_Task × β → γ → Option (List Sorted_Folder_Task × β))
    (hbody : ∀ acc x acc', body acc x = some acc' →
      acc'.1.map Sorted_Folder_Task.frame = acc.1.map Sorted_Folder_Task.frame) :
    ∀ (l : List γ) (acc acc' : List Sorted_Folder_Task × β), l.foldlM body acc = some acc' →
      acc'.1.map Sorted_Folder_Task.frame = acc.1.map Sorted_Folder_Task.frame := by
  intro l
  induction l with
  | nil =>
    intro acc acc' h
    simp only [List.foldlM_nil] at h
    cases h
    rfl
  | cons x xs ih =>
    intro acc acc' h
    rw [List.foldlM_cons] at h
    cases hb : body acc x with
    | none => rw [hb] at h; cases h
    | some mid =>
      rw [hb] at h
      exact (ih mid acc' h).trans (hbody acc x mid hb)

theorem foldlM_map_pair {σ : Type} (f : Nat → σ → Task_Id → Option σ) (i : Nat) :
    ∀ (ids : List Task_Id) (acc : σ),
      ids.foldlM (f i) acc = (ids.map (fun x => (i, x))).foldlM (fun a (e : Nat × Task_Id) => f e.1 a e.2) acc := by
  intro ids
  induction ids with
  | nil => intro acc; rfl
  | cons x xs ih =>
    intro acc
    simp only [List.map_cons, List.foldlM_cons]
    cases h : f i acc x with
    | none => rfl
    | some mid => simpa using ih mid

/-- Hoisting of the nested loop: it is one pass over the `(task, parent id)`
pairs of the initial block. -/
theorem for_each_parent_task_id_loop {β : Type}
    (body : Nat → List Sorted_Folder_Task × β → Task_Id → Option (List Sorted_Folder_Task × β))
    (T0 : List Sorted_Folder_Task)
    (hbody : ∀ i acc x acc', body i acc x = some acc' →
      acc'.1.map Sorted_Folder_Task.frame = acc.1.map Sorted_Folder_Task.frame) :
    ∀ (L : List Nat) (acc : List Sorted_Folder_Task × β),
      acc.1.map Sorted_Folder_Task.frame = T0.map Sorted_Folder_Task.frame →
      (∀ i ∈ L, i < T0.length) →
      L.foldlM
        (fun acc task_index =>
          match acc.1[task_index]? with
          | none => none
          | some folder_task =>
            folder_task.source_task.parent_task_ids.foldlM (body task_index) acc) acc
      = (L.flatMap (fun i => (parent_task_ids_at T0 i).map (fun x => (i, x)))).foldlM
          (fun a (e : Nat × Task_Id) => body e.1 a e.2) acc := by
  intro L
  induction L with
  | nil => intro acc _ _; rfl
  | cons i L ih =>
    intro acc hacc hL
    have hi : i < acc.1.length := by
      rw [map_frame_length hacc]; exact hL i (List.mem_cons_self _ _)
    have hids : parent_task_ids_at acc.1 i = parent_task_ids_at T0 i :=
      parent_task_ids_at_congr hacc i
    rw [List.foldlM_cons, List.flatMap_cons, List.foldlM_append]
    have hget : acc.1[i]? = some acc.1[i] := List.getElem?_eq_getElem hi
    have hids' : acc.1[i].source_task.parent_task_ids = parent_task_ids_at T0 i := by
      rw [← hids]; unfold parent_task_ids_at; rw [hget]
    rw [hget]
    simp only []
    rw [hids', ← foldlM_map_pair]
    cases hin : (parent_task_ids_at T0 i).foldlM (body i) acc with
    | none => rfl
    | some mid =>
      have hmid := foldlM_frame (body i) (hbody i) _ _ _ hin
      exact ih mid (hmid.trans hacc) (fun j hj => hL j (List.mem_cons_of_mem _ hj))

theorem getElem?_some_of_lt {α : Type} {l : List α} {i : Nat} (h : i < l.length) :
    ∃ x, l[i]? = some x := ⟨l[i], List.getElem?_eq_getElem h⟩

theorem lt_of_getElem?_some {α : Type} {l : List α} {i : Nat} {x : α} (h : l[i]? = some x) :
    i < l.length := by
  rcases Nat.lt_or_ge i l.length with h1 | h1
  · exact h1
  · rw [List.getElem?_eq_none h1] at h; cases h

theorem num_sub_tasks_at_set {T : List Sorted_Folder_Task} {p : Nat} {t t' : Sorted_Folder_Task}
    (hp : T[p]? = some t) (i : Nat) :
    num_sub_tasks_at (T.set p t') i = if p = i then t'.num_sub_tasks else num_sub_tasks_at T i := by
  have hlt := lt_of_getElem?_some hp
  unfold num_sub_tasks_at
  rw [List.getElem?_set]
  by_cases hpi : p = i
  · subst hpi
    simp [hlt]
  · simp [hpi]

theorem sub_tasks_at_set {T : List Sorted_Folder_Task} {p : Nat} {t t' : Sorted_Folder_Task}
    (hp : T[p]? = some t) (i : Nat) :
    sub_tasks_at (T.set p t') i = if p = i then t'.sub_tasks else sub_tasks_at T i := by
  have hlt := lt_of_getElem?_some hp
  unfold sub_tasks_at
  rw [List.getElem?_set]
  by_cases hpi : p = i
  · subst hpi
    simp [hlt]
  · simp [hpi]

theorem count_sub_task_frame (map : Id_Hash_Map) (acc : List Sorted_Folder_Task × Nat)
    (x : Task_Id) (acc' : List Sorted_Folder_Task × Nat) (h : count_sub_task map acc x = some acc') :
    acc'.1.map Sorted_Folder_Task.frame = acc.1.map Sorted_Folder_Task.frame := by
  unfold count_sub_task at h
  cases hg : id_hash_map_get map x with
  | none => rw [hg] at h; cases h; rfl
  | some p =>
    rw [hg] at h
    simp only [] at h
    cases hp : acc.1[p]? with
    | none => rw [hp] at h; cases h
    | some parent =>
      rw [hp] at h
      cases h
      exact map_frame_set hp rfl

/-- Step 1 as one pass over the `(task, parent id)` pairs: no fault when every
resolved index lies in the block; each resolved pair adds one to its parent's
counter and to the total. -/
theorem count_pass_spec (map : Id_Hash_Map) :
    ∀ (F : List (Nat × Task_Id)) (acc : List Sorted_Folder_Task × Nat),
      (∀ e ∈ F, ∀ p, id_hash_map_get map e.2 = some p → p < acc.1.length) →
      ∃ T', F.foldlM (fun a (e : Nat × Task_Id) => count_sub_task map a e.2) acc
          = some (T', acc.2 + F.countP (fun e => (id_hash_map_get map e.2).isSome)) ∧
        T'.map Sorted_Folder_Task.frame = acc.1.map Sorted_Folder_Task.frame ∧
        ∀ i, num_sub_tasks_at T' i
          = num_sub_tasks_at acc.1 i + F.countP (fun e => decide (id_hash_map_get map e.2 = some i)) := by
  intro F
  induction F with
  | nil =>
    intro acc _
    exact ⟨acc.1, by simp, rfl, by simp⟩
  | cons e F ih =>
    intro acc hres
    rw [List.foldlM_cons]
    cases hg : id_hash_map_get map e.2 with
    | none =>
      have hstep : count_sub_task map acc e.2 = some acc := by
        unfold count_sub_task; rw [hg]
      rw [hstep]
      obtain ⟨T', h1, h2, h3⟩ := ih acc (fun e' he' => hres e' (List.mem_cons_of_mem _ he'))
      refine ⟨T', ?_, h2, ?_⟩
      · simp only [Option.bind_eq_bind, Option.some_bind, h1, List.countP_cons, hg,
          Option.isSome_none, Bool.false_eq_true, if_false, Nat.add_zero]
      · intro i
        rw [h3 i]
        simp [List.countP_cons, hg]
    | some p =>
      have hp : p < acc.1.length := hres e (List.mem_cons_self _ _) p hg
      obtain ⟨parent, hparent⟩ := getElem?_some_of_lt hp
      have hstep : count_sub_task map acc e.2
          = some (acc.1.set p { parent with num_sub_tasks := parent.num_sub_tasks + 1 }, acc.2 + 1) := by
        unfold count_sub_task; rw [hg]; simp only []; rw [hparent]
      rw [hstep]
      obtain ⟨T', h1, h2, h3⟩ := ih (acc.1.set p { parent with num_sub_tasks := parent.num_sub_tasks + 1 }, acc.2 + 1)
        (fun e' he' q hq => by
          simp only [List.length_set]
          exact hres e' (List.mem_cons_of_mem _ he') q hq)
      refine ⟨T', ?_, ?_, ?_⟩
      · simp only [Option.bind_eq_bind, Option.some_bind, h1, List.countP_cons, hg,
          Option.isSome_some, if_true]
        congr 2
        omega
      · exact h2.trans (map_frame_set hparent rfl)
      · intro i
        rw [h3 i, num_sub_tasks_at_set hparent]
        by_cases hpi : p = i
        · subst hpi
          have : num_sub_tasks_at acc.1 p = parent.num_sub_tasks := by
            unfold num_sub_tasks_at; rw [hparent]
          simp [List.countP_cons, hg, this]
          omega
        · have hne : ¬ (some p = some i) := by simpa using hpi
          simp [List.countP_cons, hg, hpi]

theorem num_sub_tasks_before_succ (T : List Sorted_Folder_Task) (k : Nat) :
    num_sub_tasks_before T (k + 1) = num_sub_tasks_before T k + num_sub_tasks_at T k := by
  unfold num_sub_tasks_before num_sub_tasks_at
  rw [List.take_succ]
  cases h : T[k]? with
  | none => simp
  | some t => simp

theorem assign_sub_task_range_frame (acc : List Sorted_Folder_Task × Nat) (i : Nat)
    (acc' : List Sorted_Folder_Task × Nat) (h : assign_sub_task_range acc i = some acc') :
    acc'.1.map Sorted_Folder_Task.frame = acc.1.map Sorted_Folder_Task.frame := by
  unfold assign_sub_task_range at h
  cases hp : acc.1[i]? with
  | none => rw [hp] at h; cases h
  | some t =>
    rw [hp] at h
    simp only [] at h
    by_cases hz : t.num_sub_tasks ≠ 0
    · rw [if_pos hz] at h; cases h
      exact map_frame_set hp rfl
    · rw [if_neg hz] at h; cases h; rfl

/-- Step 2: the ranges are handed out in task store order, each starting where
the counters of the earlier tasks end, and every counter is reset. -/
theorem assign_pass_spec (T : List Sorted_Folder_Task) :
    ∀ k, k ≤ T.length →
      ∃ T', (List.range k).foldlM assign_sub_task_range (T, 0)
          = some (T', num_sub_tasks_before T k) ∧
        T'.map Sorted_Folder_Task.frame = T.map Sorted_Folder_Task.frame ∧
        (∀ i, num_sub_tasks_at T' i = if i < k then 0 else num_sub_tasks_at T i) ∧
        (∀ i, sub_tasks_at T' i
          = if i < k ∧ num_sub_tasks_at T i ≠ 0 then num_sub_tasks_before T i
            else sub_tasks_at T i) := by
  intro k
  induction k with
  | zero =>
    intro _
    refine ⟨T, ?_, rfl, ?_, ?_⟩
    · simp [num_sub_tasks_before]
    · intro i; simp
    · intro i; simp
  | succ k ih =>
    intro hk
    obtain ⟨Tk, h1, h2, h3, h4⟩ := ih (by omega)
    rw [List.range_succ, List.foldlM_append, h1]
    have hlen : Tk.length = T.length := map_frame_length h2
    obtain ⟨t, ht⟩ := getElem?_some_of_lt (show k < Tk.length by omega)
    have htnum : t.num_sub_tasks = num_sub_tasks_at T k := by
      have := h3 k
      simp only [Nat.lt_irrefl, if_false] at this
      rw [← this]; unfold num_sub_tasks_at; rw [ht]
    by_cases hz : t.num_sub_tasks ≠ 0
    · refine ⟨Tk.set k { t with sub_tasks := num_sub_tasks_before T k, num_sub_tasks := 0 },
        ?_, ?_, ?_, ?_⟩
      · simp only [Option.bind_eq_bind, Option.some_bind, List.foldlM_cons, List.foldlM_nil]
        unfold assign_sub_task_range
        simp only [ht, if_pos hz]
        rw [num_sub_tasks_before_succ, htnum]
        rfl
      · exact (@map_frame_set Tk k t
          { t with sub_tasks := num_sub_tasks_before T k, num_sub_tasks := 0 } ht rfl).trans h2
      · intro i
        rw [num_sub_tasks_at_set ht, h3 i]
        by_cases hki : k = i
        · subst hki; simp
        · have : (i < k + 1) = (i < k) := by
            apply propext; omega
          simp [hki, this]
      · intro i
        rw [sub_tasks_at_set ht, h4 i]
        by_cases hki : k = i
        · subst hki
          have : num_sub_tasks_at T k ≠ 0 := by rw [← htnum]; exact hz
          simp [this]
        · have : (i < k + 1) = (i < k) := by
            apply propext; omega
          simp [hki, this]
    · refine ⟨Tk, ?_, h2, ?_, ?_⟩
      · simp only [Option.bind_eq_bind, Option.some_bind, List.foldlM_cons, List.foldlM_nil]
        unfold assign_sub_task_range
        simp only [ht, if_neg hz]
        rw [num_sub_tasks_before_succ, ← htnum]
        have : t.num_sub_tasks = 0 := by omega
        simp [this]
      · intro i
        rw [h3 i]
        by_cases hki : i = k
        · subst hki
          have : t.num_sub_tasks = 0 := by omega
          simp [← htnum, this]
        · have : (i < k + 1) = (i < k) := by
            apply propext; omega
          simp [this]
      · intro i
        rw [h4 i]
        by_cases hki : i = k
        · subst hki
          have : num_sub_tasks_at T i = 0 := by rw [← htnum]; omega
          simp [this]
        · have : (i < k + 1) = (i < k) := by
            apply propext; omega
          simp [this]

theorem drop_take_set_outside {α : Type} (S : List α) (pos a d : Nat) (c : α)
    (h : pos < a ∨ a + d ≤ pos) :
    ((S.set pos c).drop a).take d = (S.drop a).take d := by
  apply List.ext_getElem?
  intro i
  simp only [List.getElem?_take, List.getElem?_drop, List.getElem?_set]
  by_cases hi : i < d
  · have : ¬ (pos = a + i) := by omega
    simp [hi, this]
  · simp [hi]

theorem drop_take_set_end {α : Type} (S : List α) (a d : Nat) (c : α)
    (h : a + d < S.length) :
    ((S.set (a + d) c).drop a).take (d + 1) = (S.drop a).take d ++ [c] := by
  apply List.ext_getElem?
  intro i
  have hlen : ((S.drop a).take d).length = d := by
    simp only [List.length_take, List.length_drop]; omega
  simp only [List.getElem?_take, List.getElem?_drop, List.getElem?_set, List.getElem?_append, hlen]
  by_cases hi : i < d
  · have : ¬ (a + d = a + i) := by omega
    have h2 : i < d + 1 := by omega
    simp [hi, this, h2]
  · by_cases hid : i = d
    · subst hid
      simp [h]
    · have h2 : ¬ (i < d + 1) := by omega
      have h3 : i - d ≠ 0 := by omega
      simp [hi, h2]
      omega

theorem count_resolving_to_append (map : Id_Hash_Map) (p : Nat) (F G : List (Nat × Task_Id)) :
    count_resolving_to map p (F ++ G) = count_resolving_to map p F + count_resolving_to map p G := by
  simp [count_resolving_to, List.countP_append]

theorem count_resolving_to_cons (map : Id_Hash_Map) (p : Nat) (e : Nat × Task_Id)
    (F : List (Nat × Task_Id)) :
    count_resolving_to map p (e :: F)
      = count_resolving_to map p F + (if id_hash_map_get map e.2 = some p then 1 else 0) := by
  simp [count_resolving_to, List.countP_cons]

theorem children_resolving_to_append (map : Id_Hash_Map) (p : Nat) (F G : List (Nat × Task_Id)) :
    children_resolving_to map p (F ++ G)
      = children_resolving_to map p F ++ children_resolving_to map p G := by
  simp [children_resolving_to, List.filter_append]

theorem children_resolving_to_single (map : Id_Hash_Map) (p : Nat) (e : Nat × Task_Id) :
    children_resolving_to map p [e]
      = if id_hash_map_get map e.2 = some p then [e.1] else [] := by
  by_cases h : id_hash_map_get map e.2 = some p
  · simp [children_resolving_to, List.filter_cons, h]
  · simp [children_resolving_to, List.filter_cons, h]

theorem fill_sub_task_frame (map : Id_Hash_Map) (i : Nat) (acc : List Sorted_Folder_Task × List Nat)
    (x : Task_Id) (acc' : List Sorted_Folder_Task × List Nat)
    (h : fill_sub_task map i acc x = some acc') :
    acc'.1.map Sorted_Folder_Task.frame = acc.1.map Sorted_Folder_Task.frame := by
  unfold fill_sub_task at h
  cases hg : id_hash_map_get map x with
  | none => rw [hg] at h; cases h; rfl
  | some p =>
    rw [hg] at h
    simp only [] at h
    cases hp : acc.1[p]? with
    | none => rw [hp] at h; cases h
    | some parent =>
      rw [hp] at h
      simp only [] at h
      by_cases hb : parent.sub_tasks + parent.num_sub_tasks < acc.2.length
      · rw [if_pos hb] at h; cases h
        exact map_frame_set hp rfl
      · rw [if_neg hb] at h; cases h

/-- Step 3 as one pass over the `(task, parent id)` pairs.  `pairs_done` are the
pairs already handled, `F` the pairs still to handle; `off` and `cnt` are the
start and the size of each task's range. -/
theorem fill_pass_spec (map : Id_Hash_Map) (n : Nat) (off cnt : Nat → Nat)
    (hdisj : ∀ p q, p < q → q < n → off p + cnt p ≤ off q) :
    ∀ (F pairs_done : List (Nat × Task_Id)) (acc : List Sorted_Folder_Task × List Nat),
      (∀ e ∈ F, ∀ p, id_hash_map_get map e.2 = some p → p < n) →
      n ≤ acc.1.length →
      (∀ p, p < n → off p + cnt p ≤ acc.2.length) →
      (∀ p, p < n → count_resolving_to map p pairs_done + count_resolving_to map p F = cnt p) →
      (∀ p, p < n → cnt p ≠ 0 → sub_tasks_at acc.1 p = off p) →
      (∀ p, p < n → num_sub_tasks_at acc.1 p = count_resolving_to map p pairs_done) →
      (∀ p, p < n → (acc.2.drop (off p)).take (count_resolving_to map p pairs_done)
        = children_resolving_to map p pairs_done) →
      ∃ T' S', F.foldlM (fun a (e : Nat × Task_Id) => fill_sub_task map e.1 a e.2) acc
          = some (T', S') ∧
        T'.map Sorted_Folder_Task.frame = acc.1.map Sorted_Folder_Task.frame ∧
        S'.length = acc.2.length ∧
        (∀ i, sub_tasks_at T' i = sub_tasks_at acc.1 i) ∧
        (∀ p, p < n → num_sub_tasks_at T' p = cnt p) ∧
        (∀ p, n ≤ p → num_sub_tasks_at T' p = num_sub_tasks_at acc.1 p) ∧
        (∀ p, p < n → (S'.drop (off p)).take (cnt p)
          = children_resolving_to map p (pairs_done ++ F)) := by
  intro F
  induction F with
  | nil =>
    intro pairs_done acc _ _ _ hcnt _ hnum hch
    refine ⟨acc.1, acc.2, rfl, rfl, rfl, fun _ => rfl, ?_, fun _ _ => rfl, ?_⟩
    · intro p hp
      rw [hnum p hp, ← hcnt p hp]
      simp [count_resolving_to]
    · intro p hp
      have := hcnt p hp
      simp only [count_resolving_to, List.countP_nil, Nat.add_zero] at this
      rw [List.append_nil, ← hch p hp, ← this]
      rfl
  | cons e F ih =>
    intro pairs_done acc hres hn hbound hcnt hoff hnum hch
    rw [List.foldlM_cons]
    have hres' : ∀ e' ∈ F, ∀ p, id_hash_map_get map e'.2 = some p → p < n :=
      fun e' he' => hres e' (List.mem_cons_of_mem _ he')
    have hassoc : pairs_done ++ e :: F = (pairs_done ++ [e]) ++ F := by simp
    cases hg : id_hash_map_get map e.2 with
    | none =>
      have hstep : fill_sub_task map e.1 acc e.2 = some acc := by
        unfold fill_sub_task; rw [hg]
      rw [hstep, hassoc]
      have hc : ∀ p, count_resolving_to map p (pairs_done ++ [e])
          = count_resolving_to map p pairs_done := by
        intro p
        rw [count_resolving_to_append, count_resolving_to_cons]
        simp [hg, count_resolving_to]
      have hk : ∀ p, children_resolving_to map p (pairs_done ++ [e])
          = children_resolving_to map p pairs_done := by
        intro p
        rw [children_resolving_to_append, children_resolving_to_single]
        simp [hg]
      refine ih (pairs_done ++ [e]) acc hres' hn hbound ?_ hoff ?_ ?_
      · intro p hp
        rw [hc p, ← hcnt p hp, count_resolving_to_cons]
        simp [hg]
      · intro p hp; rw [hc p]; exact hnum p hp
      · intro p hp; rw [hc p, hk p]; exact hch p hp
    | some p =>
      have hp : p < n := hres e (List.mem_cons_self _ _) p hg
      obtain ⟨parent, hparent⟩ := getElem?_some_of_lt (show p < acc.1.length by omega)
      have hcp := hcnt p hp
      rw [count_resolving_to_cons] at hcp
      simp only [hg, if_true] at hcp
      have hcnt_ne : cnt p ≠ 0 := by omega
      have hpo : parent.sub_tasks = off p := by
        rw [← hoff p hp hcnt_ne]; unfold sub_tasks_at; rw [hparent]
      have hpn : parent.num_sub_tasks = count_resolving_to map p pairs_done := by
        rw [← hnum p hp]; unfold num_sub_tasks_at; rw [hparent]
      have hpos : parent.sub_tasks + parent.num_sub_tasks < acc.2.length := by
        have := hbound p hp
        omega
      have hstep : fill_sub_task map e.1 acc e.2
          = some (acc.1.set p { parent with num_sub_tasks := parent.num_sub_tasks + 1 },
              acc.2.set (parent.sub_tasks + parent.num_sub_tasks) e.1) := by
        unfold fill_sub_task; rw [hg]; simp only []; rw [hparent]; simp only []
        rw [if_pos hpos]
      rw [hstep, hassoc]
      have hc : ∀ q, count_resolving_to map q (pairs_done ++ [e])
          = count_resolving_to map q pairs_done + (if p = q then 1 else 0) := by
        intro q
        rw [count_resolving_to_append, count_resolving_to_cons]
        simp [hg, count_resolving_to]
      have hk : ∀ q, children_resolving_to map q (pairs_done ++ [e])
          = children_resolving_to map q pairs_done ++ (if p = q then [e.1] else []) := by
        intro q
        rw [children_resolving_to_append, children_resolving_to_single]
        simp [hg]
      obtain ⟨T', S', h1, h2, h3, h4, h5, h6, h7⟩ := ih (pairs_done ++ [e])
        (acc.1.set p { parent with num_sub_tasks := parent.num_sub_tasks + 1 },
          acc.2.set (parent.sub_tasks + parent.num_sub_tasks) e.1) hres'
        (by simpa using hn)
        (by simpa using hbound)
        (by
          intro q hq
          rw [hc q, ← hcnt q hq, count_resolving_to_cons]
          simp only [hg, Option.some.injEq]
          omega)
        (by
          intro q hq hq0
          rw [sub_tasks_at_set hparent]
          by_cases hpq : p = q
          · subst hpq; simpa using hpo
          · simpa [hpq] using hoff q hq hq0)
        (by
          intro q hq
          rw [num_sub_tasks_at_set hparent, hc q]
          by_cases hpq : p = q
          · subst hpq; simp [hpn]
          · simpa [hpq] using hnum q hq)
        (by
          intro q hq
          rw [hc q, hk q]
          by_cases hpq : p = q
          · subst hpq
            simp only [if_true]
            rw [hpo, hpn, drop_take_set_end _ _ _ _ (by rw [← hpo, ← hpn]; exact hpos), hch p hp]
          · simp only [if_neg hpq, Nat.add_zero, List.append_nil]
            rw [drop_take_set_outside, hch q hq]
            have hcq := hcnt q hq
            have hcp' := hcnt p hp
            rcases Nat.lt_or_gt_of_ne hpq with hlt | hgt
            · left
              have := hdisj p q hlt hq
              omega
            · right
              have := hdisj q p hgt hp
              omega)
      refine ⟨T', S', h1, ?_, ?_, ?_, h5, ?_, h7⟩
      · exact h2.trans (map_frame_set hparent rfl)
      · simpa using h3
      · intro i
        rw [h4 i, sub_tasks_at_set hparent]
        by_cases hpi : p = i
        · subst hpi; simp [sub_tasks_at, hparent]
        · simp [hpi]
      · intro q hq
        rw [h6 q hq, num_sub_tasks_at_set hparent]
        have : p ≠ q := by omega
        simp [this]

theorem append_top_level_occurrences_eq (top_parent_id : Folder_Id) (i : Nat) :
    ∀ (ids : List Folder_Id) (acc : List Nat),
      append_top_level_occurrences top_parent_id i ids acc
        = acc ++ List.replicate (ids.count top_parent_id) i := by
  intro ids
  induction ids with
  | nil => intro acc; simp [append_top_level_occurrences]
  | cons x xs ih =>
    intro acc
    unfold append_top_level_occurrences at ih ⊢
    rw [List.foldl_cons, ih]
    by_cases hx : x = top_parent_id
    · subst hx
      simp [List.replicate_succ]
    · have : (x == top_parent_id) = false := by simpa using hx
      simp [hx, List.count_cons, this]

/-- Step 0 appends, for each task of the pass in order, one entry per
occurrence of the active container in the task's folder list. -/
theorem populate_pass_spec (top_parent_id : Folder_Id) (T : List Sorted_Folder_Task) :
    ∀ (L : List Nat) (acc : List Nat), (∀ i ∈ L, i < T.length) →
      L.foldlM
        (fun top task_index =>
          match T[task_index]? with
          | none => none
          | some folder_task =>
            some (append_top_level_occurrences top_parent_id task_index
              folder_task.source_task.parent_folder_ids top)) acc
      = some (acc ++ L.flatMap (fun i =>
          List.replicate ((parent_folder_ids_at T i).count top_parent_id) i)) := by
  intro L
  induction L with
  | nil => intro acc _; simp
  | cons i L ih =>
    intro acc hL
    have hi : i < T.length := hL i (List.mem_cons_self _ _)
    have hget : T[i]? = some T[i] := List.getElem?_eq_getElem hi
    rw [List.foldlM_cons, hget]
    simp only [Option.bind_eq_bind, Option.some_bind]
    rw [ih _ (fun j hj => hL j (List.mem_cons_of_mem _ hj)), append_top_level_occurrences_eq]
    simp [parent_folder_ids_at, hget]

theorem id_hash_map_get_eq_none (map : Id_Hash_Map) (id : Task_Id)
    (h : id ∉ map.map Prod.fst) : id_hash_map_get map id = none := by
  induction map with
  | nil => rfl
  | cons kv rest ih =>
    obtain ⟨key, value⟩ := kv
    simp only [List.map_cons, List.mem_cons, not_or] at h
    unfold id_hash_map_get
    rw [if_neg (fun hk => h.1 hk.symm)]
    exact ih h.2

theorem id_hash_map_get_append (m1 m2 : Id_Hash_Map) (id : Task_Id) :
    id_hash_map_get (m1 ++ m2) id
      = match id_hash_map_get m1 id with
        | some v => some v
        | none => id_hash_map_get m2 id := by
  induction m1 with
  | nil => simp [id_hash_map_get]
  | cons kv rest ih =>
    obtain ⟨key, value⟩ := kv
    simp only [List.cons_append, id_hash_map_get]
    by_cases hk : key = id
    · simp [hk]
    · simp [hk, ih]

theorem index_of_batch_keys (k : Nat) (data : List Folder_Task) :
    (index_of_batch k data).map Prod.fst = data.map (fun r => r.id) := by
  induction data generalizing k with
  | nil => rfl
  | cons r rs ih =>
    simp only [index_of_batch, List.enumFrom_cons, List.map_cons, List.cons.injEq, true_and]
    exact ih (k + 1)

/-- With pairwise distinct ids, an id resolves to the slot of the one record that carries it. -/
theorem id_hash_map_get_index_of_batch (data : List Folder_Task) :
    ∀ (k : Nat), (data.map (fun r => r.id)).Nodup → ∀ (id : Task_Id) (p : Nat),
      id_hash_map_get (index_of_batch k data) id = some p ↔
        k ≤ p ∧ (data[p - k]?).map (fun r => r.id) = some id := by
  induction data with
  | nil => intro k _ id p; simp [index_of_batch, id_hash_map_get]
  | cons r rs ih =>
    intro k hnd id p
    simp only [List.map_cons, List.nodup_cons] at hnd
    have hcons : index_of_batch k (r :: rs) = (r.id, k) :: index_of_batch (k + 1) rs := by
      simp [index_of_batch, List.enumFrom_cons]
    rw [hcons]
    unfold id_hash_map_get
    by_cases hr : r.id = id
    · rw [if_pos hr]
      constructor
      · intro h
        cases h
        simp [hr]
      · rintro ⟨hkp, hget⟩
        rcases Nat.eq_or_lt_of_le hkp with heq | hlt
        · rw [heq]
        · exfalso
          obtain ⟨j, hj⟩ : ∃ j, p - k = j + 1 := ⟨p - k - 1, by omega⟩
          rw [hj, List.getElem?_cons_succ] at hget
          apply hnd.1
          rw [hr]
          cases hrs : rs[j]? with
          | none => rw [hrs] at hget; cases hget
          | some r' =>
            rw [hrs] at hget
            simp only [Option.map_some', Option.some.injEq] at hget
            rw [← hget]
            exact List.mem_map_of_mem _ (List.getElem?_mem hrs)
    · rw [if_neg hr, ih (k + 1) hnd.2 id p]
      constructor
      · rintro ⟨hkp, hget⟩
        refine ⟨by omega, ?_⟩
        obtain ⟨j, hj⟩ : ∃ j, p - k = j + 1 := ⟨p - k - 1, by omega⟩
        rw [hj, List.getElem?_cons_succ]
        have : p - (k + 1) = j := by omega
        rw [← this]; exact hget
      · rintro ⟨hkp, hget⟩
        rcases Nat.eq_or_lt_of_le hkp with heq | hlt
        · exfalso
          rw [← heq] at hget
          simp at hget
          exact hr hget
        · refine ⟨by omega, ?_⟩
          obtain ⟨j, hj⟩ : ∃ j, p - k = j + 1 := ⟨p - k - 1, by omega⟩
          rw [hj, List.getElem?_cons_succ] at hget
          have : p - (k + 1) = j := by omega
          rw [this]; exact hget

/-- The ingestion loop: with room in the block and pairwise distinct ids it
does not fault, appends the records, fills one slot per record and registers
each id under its slot. -/
theorem ingest_loop_spec :
    ∀ (data : List Folder_Task) (s : State),
      s.folder_tasks.length + data.length ≤ s.sorted_folder_tasks.length →
      (s.id_to_sorted_folder_task.map Prod.fst ++ data.map (fun r => r.id)).Nodup →
      ∃ B', data.foldlM process_folder_contents_data_object s
          = some { s with
              folder_tasks := s.folder_tasks ++ data
              sorted_folder_tasks := B'
              id_to_sorted_folder_task :=
                s.id_to_sorted_folder_task ++ index_of_batch s.folder_tasks.length data } ∧
        B'.length = s.sorted_folder_tasks.length ∧
        ∀ i, B'[i]? =
          match (if s.folder_tasks.length ≤ i then data[i - s.folder_tasks.length]? else none) with
          | some r => (s.sorted_folder_tasks[i]?).map (fun slot => ingested_slot slot r)
          | none => s.sorted_folder_tasks[i]? := by
  intro data
  induction data with
  | nil =>
    intro s _ _
    refine ⟨s.sorted_folder_tasks, ?_, rfl, ?_⟩
    · simp [index_of_batch]
    · intro i
      by_cases h : s.folder_tasks.length ≤ i <;> simp [h]
  | cons r rs ih =>
    intro s hcap hnd
    simp only [List.length_cons] at hcap
    obtain ⟨slot, hslot⟩ := getElem?_some_of_lt
      (show s.folder_tasks.length < s.sorted_folder_tasks.length by omega)
    have hfresh : id_hash_map_get s.id_to_sorted_folder_task r.id = none := by
      apply id_hash_map_get_eq_none
      intro hmem
      rw [List.nodup_append] at hnd
      exact hnd.2.2 hmem (by simp)
    have hstep : process_folder_contents_data_object s r
        = some { s with
            folder_tasks := s.folder_tasks ++ [r]
            sorted_folder_tasks :=
              s.sorted_folder_tasks.set s.folder_tasks.length (ingested_slot slot r)
            id_to_sorted_folder_task :=
              s.id_to_sorted_folder_task ++ [(r.id, s.folder_tasks.length)] } := by
      unfold process_folder_contents_data_object id_hash_map_put
      simp only [hslot, hfresh]
      rfl
    rw [List.foldlM_cons, hstep]
    simp only [Option.bind_eq_bind, Option.some_bind]
    obtain ⟨B', h1, h2, h3⟩ := ih
      { s with
        folder_tasks := s.folder_tasks ++ [r]
        sorted_folder_tasks :=
          s.sorted_folder_tasks.set s.folder_tasks.length (ingested_slot slot r)
        id_to_sorted_folder_task :=
          s.id_to_sorted_folder_task ++ [(r.id, s.folder_tasks.length)] }
      (by simp only [List.length_append, List.length_set, List.length_singleton]; omega)
      (by simpa using hnd)
    refine ⟨B', ?_, ?_, ?_⟩
    · rw [h1]
      simp [index_of_batch, List.enumFrom_cons]
    · simpa using h2
    · intro i
      rw [h3 i]
      simp only [List.length_append, List.length_singleton, List.getElem?_set]
      by_cases hi : s.folder_tasks.length + 1 ≤ i
      · have h1' : s.folder_tasks.length ≤ i := by omega
        have h2' : ¬ (s.folder_tasks.length = i) := by omega
        obtain ⟨j, hj⟩ : ∃ j, i - s.folder_tasks.length = j + 1 :=
          ⟨i - s.folder_tasks.length - 1, by omega⟩
        have h3' : i - (s.folder_tasks.length + 1) = j := by omega
        simp only [hi, h1', h2', if_true, if_false, hj, h3', List.getElem?_cons_succ]
      · by_cases hik : s.folder_tasks.length = i
        · subst hik
          have hlt : s.folder_tasks.length < s.sorted_folder_tasks.length := by omega
          simp [hlt, hslot]
        · have h1' : ¬ (s.folder_tasks.length ≤ i) := by omega
          simp [hi, h1', hik]

theorem flatMap_range'_enumFrom {α β : Type} (f : Nat → α → List β) :
    ∀ (data : List α) (k : Nat) (g : Nat → List β),
      (∀ i (h : i < data.length), g (k + i) = f (k + i) data[i]) →
      (List.range' k data.length).flatMap g = (data.enumFrom k).flatMap (fun p => f p.1 p.2) := by
  intro data
  induction data with
  | nil => intro k g _; rfl
  | cons x xs ih =>
    intro k g hg
    simp only [List.length_cons, List.range'_succ, List.flatMap_cons, List.enumFrom_cons]
    have h0 := hg 0 (by simp)
    simp only [Nat.add_zero, List.getElem_cons_zero] at h0
    rw [h0, ih (k + 1) g]
    intro i hi
    have := hg (i + 1) (by simpa using hi)
    simp only [List.getElem_cons_succ] at this
    have e : k + 1 + i = k + (i + 1) := by omega
    rw [e]; exact this

theorem flatMap_range_enum {α β : Type} (f : Nat → α → List β) (data : List α)
    (g : Nat → List β) (hg : ∀ i (h : i < data.length), g i = f i data[i]) :
    (List.range data.length).flatMap g = data.enum.flatMap (fun p => f p.1 p.2) := by
  rw [List.range_eq_range', List.enum]
  apply flatMap_range'_enumFrom
  intro i hi
  simpa using hg i hi

theorem num_sub_tasks_before_mono (T : List Sorted_Folder_Task) :
    ∀ (k d : Nat), num_sub_tasks_before T k ≤ num_sub_tasks_before T (k + d) := by
  intro k d
  induction d with
  | zero => exact Nat.le_refl _
  | succ d ih =>
    have := num_sub_tasks_before_succ T (k + d)
    have e : k + (d + 1) = k + d + 1 := by omega
    rw [e]; omega

theorem num_sub_tasks_before_le (T : List Sorted_Folder_Task) {k k' : Nat} (h : k ≤ k') :
    num_sub_tasks_before T k ≤ num_sub_tasks_before T k' := by
  have := num_sub_tasks_before_mono T k (k' - k)
  have e : k + (k' - k) = k' := by omega
  rwa [e] at this

theorem num_sub_tasks_before_congr (A B : List Sorted_Folder_Task) :
    ∀ k, (∀ i, i < k → num_sub_tasks_at A i = num_sub_tasks_at B i) →
      num_sub_tasks_before A k = num_sub_tasks_before B k := by
  intro k
  induction k with
  | zero => intro _; simp [num_sub_tasks_before]
  | succ k ih =>
    intro h
    rw [num_sub_tasks_before_succ, num_sub_tasks_before_succ,
      ih (fun i hi => h i (by omega)), h k (by omega)]

/-- The resolving pairs split by the slot they resolve to. -/
theorem num_sub_tasks_before_eq_count (map : Id_Hash_Map) (T : List Sorted_Folder_Task)
    (F : List (Nat × Task_Id)) (n : Nat)
    (hres : ∀ e ∈ F, ∀ p, id_hash_map_get map e.2 = some p → p < n)
    (hnum : ∀ p, p < n → num_sub_tasks_at T p = count_resolving_to map p F) :
    num_sub_tasks_before T n = F.countP (fun e => (id_hash_map_get map e.2).isSome) := by
  have key : ∀ (G : List (Nat × Task_Id)) (k : Nat)
      (A : List Sorted_Folder_Task),
        (∀ p, p < k → num_sub_tasks_at A p = count_resolving_to map p G) →
        num_sub_tasks_before A k
          = G.countP (fun e => match id_hash_map_get map e.2 with
              | some p => decide (p < k)
              | none => false) := by
    intro G k A hA
    induction k with
    | zero =>
      simp only [num_sub_tasks_before, List.take_zero, List.map_nil, List.sum_nil]
      symm
      rw [List.countP_eq_zero]
      intro e _
      cases id_hash_map_get map e.2 <;> simp
    | succ k ih =>
      rw [num_sub_tasks_before_succ, ih (fun p hp => hA p (by omega)), hA k (by omega)]
      unfold count_resolving_to
      clear ih hA
      induction G with
      | nil => simp
      | cons e G ihG =>
        simp only [List.countP_cons]
        cases hg : id_hash_map_get map e.2 with
        | none => simpa using ihG
        | some q =>
          simp only [Option.some.injEq, decide_eq_true_eq]
          by_cases h1 : q < k
          · have h2 : q ≠ k := by omega
            have h3 : q < k + 1 := by omega
            simp only [h1, h2, h3, if_true, if_false]
            omega
          · by_cases h2 : q = k
            · subst h2
              have h3 : q < q + 1 := by omega
              simp only [h1, h3, if_true, if_false]
              omega
            · have h3 : ¬ (q < k + 1) := by omega
              simp only [h1, h2, h3, if_false]
              omega
  rw [key F n T hnum]
  apply List.countP_congr
  intro e he
  cases hg : id_hash_map_get map e.2 with
  | none => simp
  | some p => simp [hres e he p hg]

theorem REALLOC_length {α : Type} (old : List α) (n : Nat) (fresh : Nat → α) :
    (REALLOC old n fresh).length = n := by
  simp [REALLOC]

theorem Ingested.resolved_lt {s : State} {data : List Folder_Task} (h : Ingested s data)
    {id : Task_Id} {p : Nat} (hp : id_hash_map_get s.id_to_sorted_folder_task id = some p) :
    p < data.length := by
  have := (h.index id p).1 hp
  cases hd : data[p]? with
  | none => rw [hd] at this; cases this
  | some r => exact lt_of_getElem?_some hd

theorem Ingested.pairs_eq {s : State} {data : List Folder_Task} (h : Ingested s data) :
    (List.range data.length).flatMap
        (fun i => (parent_task_ids_at s.sorted_folder_tasks i).map (fun x => (i, x)))
      = parent_task_id_pairs data := by
  unfold parent_task_id_pairs
  apply flatMap_range_enum (fun i (r : Folder_Task) => r.parent_task_ids.map (fun x => (i, x)))
  intro i hi
  obtain ⟨slot, hslot⟩ := h.slots i hi
  simp [parent_task_ids_at, hslot, ingested_slot]

theorem Ingested.top_eq {s : State} {data : List Folder_Task} (h : Ingested s data)
    (top_parent_id : Folder_Id) :
    (List.range data.length).flatMap
        (fun i => List.replicate
          ((parent_folder_ids_at s.sorted_folder_tasks i).count top_parent_id) i)
      = data.enum.flatMap
          (fun p => List.replicate (p.2.parent_folder_ids.count top_parent_id) p.1) := by
  apply flatMap_range_enum
    (fun i (r : Folder_Task) => List.replicate (r.parent_folder_ids.count top_parent_id) i)
  intro i hi
  obtain ⟨slot, hslot⟩ := h.slots i hi
  simp [parent_folder_ids_at, hslot, ingested_slot]

/-- The relation builder on a freshly ingested batch: it does not fault, and
the top level list, the counters, the ranges and the slab are as stated. -/
theorem associate_spec (heap : Heap_Garbage) (top_parent_id : Folder_Id) (s : State)
    (data : List Folder_Task) (h : Ingested s data) :
    ∃ T' S', associate_parent_tasks_with_sub_tasks heap top_parent_id s
        = some { s with
            top_level_tasks := s.top_level_tasks ++ data.enum.flatMap
              (fun p => List.replicate (p.2.parent_folder_ids.count top_parent_id) p.1)
            sorted_folder_tasks := T'
            sub_tasks := S' } ∧
      T'.map Sorted_Folder_Task.frame = s.sorted_folder_tasks.map Sorted_Folder_Task.frame ∧
      (∀ p, p < data.length → num_sub_tasks_at T' p
        = count_resolving_to s.id_to_sorted_folder_task p (parent_task_id_pairs data)) ∧
      (∀ p, p < data.length → num_sub_tasks_at T' p ≠ 0 →
        sub_tasks_at T' p = num_sub_tasks_before T' p) ∧
      S'.length = num_sub_tasks_before T' data.length ∧
      S'.length = (parent_task_id_pairs data).countP
        (fun e => (id_hash_map_get s.id_to_sorted_folder_task e.2).isSome) ∧
      (∀ p, p < data.length →
        (S'.drop (num_sub_tasks_before T' p)).take (num_sub_tasks_at T' p)
          = children_resolving_to s.id_to_sorted_folder_task p (parent_task_id_pairs data)) := by
  have hn : s.folder_tasks.length = data.length := by rw [h.folder_tasks]
  have hrange : ∀ i ∈ List.range data.length, i < s.sorted_folder_tasks.length := by
    intro i hi
    have := List.mem_range.1 hi
    have := h.capacity
    omega
  have hresF : ∀ e ∈ parent_task_id_pairs data, ∀ p,
      id_hash_map_get s.id_to_sorted_folder_task e.2 = some p → p < data.length :=
    fun e _ p hp => h.resolved_lt hp
  -- step 0
  have h0 : populate_top_level_tasks top_parent_id data.length s.sorted_folder_tasks
        s.top_level_tasks
      = some (s.top_level_tasks ++ data.enum.flatMap
          (fun p => List.replicate (p.2.parent_folder_ids.count top_parent_id) p.1)) := by
    unfold populate_top_level_tasks
    rw [populate_pass_spec top_parent_id s.sorted_folder_tasks _ _ hrange, h.top_eq]
  -- step 1
  obtain ⟨T1, h1, hf1, hnum1⟩ := count_pass_spec s.id_to_sorted_folder_task
    (parent_task_id_pairs data) (s.sorted_folder_tasks, 0)
    (fun e he p hp => by
      have := hresF e he p hp
      have := h.capacity
      simp only; omega)
  have hzero : ∀ p, p < data.length → num_sub_tasks_at s.sorted_folder_tasks p = 0 := by
    intro p hp
    obtain ⟨slot, hslot⟩ := h.slots p hp
    simp [num_sub_tasks_at, hslot, ingested_slot]
  have hnum1' : ∀ p, p < data.length → num_sub_tasks_at T1 p
      = count_resolving_to s.id_to_sorted_folder_task p (parent_task_id_pairs data) := by
    intro p hp
    rw [hnum1 p, hzero p hp, Nat.zero_add]
    rfl
  have htotal := num_sub_tasks_before_eq_count s.id_to_sorted_folder_task T1
    (parent_task_id_pairs data) data.length hresF hnum1'
  have hc1 : count_sub_tasks s.id_to_sorted_folder_task data.length s.sorted_folder_tasks
      = some (T1, num_sub_tasks_before T1 data.length) := by
    unfold count_sub_tasks for_each_parent_task_id
    rw [for_each_parent_task_id_loop (fun _ => count_sub_task s.id_to_sorted_folder_task)
      s.sorted_folder_tasks (fun _ => count_sub_task_frame _) _ _ rfl hrange, h.pairs_eq, h1,
      htotal]
    simp
  -- step 2
  have hlen1 : T1.length = s.sorted_folder_tasks.length := map_frame_length hf1
  obtain ⟨T2, h2, hf2, hnum2, hoff2⟩ := assign_pass_spec T1 data.length
    (by have := h.capacity; omega)
  have hlen2 : T2.length = T1.length := map_frame_length hf2
  -- step 3
  have hrange2 : ∀ i ∈ List.range data.length, i < T2.length := by
    intro i hi
    have := hrange i hi
    omega
  have hpairs2 : (List.range data.length).flatMap
        (fun i => (parent_task_ids_at T2 i).map (fun x => (i, x)))
      = parent_task_id_pairs data := by
    rw [← h.pairs_eq]
    congr 1
    funext i
    rw [parent_task_ids_at_congr (hf2.trans hf1)]
  obtain ⟨T3, S3, h3, hf3, hlen3, hoff3, hnum3, _, hch3⟩ :=
    fill_pass_spec s.id_to_sorted_folder_task data.length
      (fun p => num_sub_tasks_before T1 p)
      (fun p => count_resolving_to s.id_to_sorted_folder_task p (parent_task_id_pairs data))
      (by
        intro p q hpq hq
        have := num_sub_tasks_before_le T1 (show p + 1 ≤ q by omega)
        rw [num_sub_tasks_before_succ, hnum1' p (by omega)] at this
        exact this)
      (parent_task_id_pairs data) []
      (T2, REALLOC s.sub_tasks (num_sub_tasks_before T1 data.length) heap.sub_task)
      hresF
      (by have := h.capacity; simp only; omega)
      (by
        intro p hp
        simp only [REALLOC_length]
        have := num_sub_tasks_before_le T1 (show p + 1 ≤ data.length by omega)
        rw [num_sub_tasks_before_succ, hnum1' p hp] at this
        exact this)
      (by intro p _; simp [count_resolving_to])
      (by
        intro p hp hne
        simp only
        rw [hoff2 p, if_pos ⟨hp, by rw [hnum1' p hp]; exact hne⟩])
      (by
        intro p hp
        simp only
        rw [hnum2 p, if_pos hp]
        simp [count_resolving_to])
      (by intro p _; simp [count_resolving_to, children_resolving_to])
  have hc3 : fill_sub_tasks s.id_to_sorted_folder_task data.length T2
        (REALLOC s.sub_tasks (num_sub_tasks_before T1 data.length) heap.sub_task)
      = some (T3, S3) := by
    unfold fill_sub_tasks for_each_parent_task_id
    rw [for_each_parent_task_id_loop (fill_sub_task s.id_to_sorted_folder_task)
      T2 (fun i => fill_sub_task_frame _ i) _ _ rfl hrange2, hpairs2, h3]
  have hbefore : ∀ k, k ≤ data.length → num_sub_tasks_before T3 k = num_sub_tasks_before T1 k := by
    intro k hk
    apply num_sub_tasks_before_congr
    intro i hi
    rw [hnum3 i (by omega), hnum1' i (by omega)]
  refine ⟨T3, S3, ?_, ?_, hnum3, ?_, ?_, ?_, ?_⟩
  · unfold associate_parent_tasks_with_sub_tasks
    simp only [hn, h0, hc1]
    unfold assign_sub_task_ranges
    simp only [h2, hc3]
  · exact hf3.trans (hf2.trans hf1)
  · intro p hp hne
    rw [hoff3 p]
    simp only
    rw [hoff2 p, if_pos ⟨hp, by rw [hnum1' p hp, ← hnum3 p hp]; exact hne⟩, hbefore p (by omega)]
  · rw [hlen3]
    simp only [REALLOC_length]
    rw [hbefore _ (Nat.le_refl _)]
  · rw [hlen3]
    simp only [REALLOC_length]
    exact htotal
  · intro p hp
    rw [hbefore p (by omega), hnum3 p hp]
    simpa using hch3 p hp

/-- Ingestion of a batch with pairwise distinct ids runs to completion and
builds the relations. -/
theorem process_folder_contents_data_spec (heap : Heap_Garbage) (old : State)
    (data : List Folder_Task) (hblocks : Blocks_Allocated old)
    (hids : (data.map (fun r => r.id)).Nodup) :
    ∃ s, process_folder_contents_data heap old data = some s ∧
      Relations_Built heap old data s := by
  -- the state the ingestion loop starts from
  obtain ⟨B, F, hB, hBlen, hF⟩ : ∃ (B : List Sorted_Folder_Task) (F : List Flattened_Folder_Task),
      (if old.folder_tasks.length < data.length then
          { old with
            id_to_sorted_folder_task := []
            sorted_folder_tasks := REALLOC old.sorted_folder_tasks data.length heap.sorted_task
            flattened_data := REALLOC old.flattened_data data.length heap.flattened_task }
        else { old with id_to_sorted_folder_task := [] } : State)
        = { old with id_to_sorted_folder_task := [], sorted_folder_tasks := B, flattened_data := F }
      ∧ data.length ≤ B.length
      ∧ F = (if old.folder_tasks.length < data.length then
          REALLOC old.flattened_data data.length heap.flattened_task else old.flattened_data) := by
    by_cases hlt : old.folder_tasks.length < data.length
    · exact ⟨_, _, by rw [if_pos hlt], by simp [REALLOC_length], by rw [if_pos hlt]⟩
    · refine ⟨old.sorted_folder_tasks, old.flattened_data, by rw [if_neg hlt], ?_, by rw [if_neg hlt]⟩
      have := hblocks.1
      omega
  obtain ⟨B', h1, h2, h3⟩ := ingest_loop_spec data
    { old with
      id_to_sorted_folder_task := [], sorted_folder_tasks := B, flattened_data := F
      folder_tasks := [], top_level_tasks := [] }
    (by simpa using hBlen) (by simpa using hids)
  simp only [List.length_nil, List.nil_append, Nat.zero_le, if_true, Nat.sub_zero] at h1 h2 h3
  have hing : Ingested
      { old with
        id_to_sorted_folder_task := index_of_batch 0 data, sorted_folder_tasks := B'
        flattened_data := F, folder_tasks := data, top_level_tasks := [] } data := by
    refine ⟨rfl, by simp only; omega, ?_, ?_⟩
    · intro i hi
      obtain ⟨slot, hslot⟩ := getElem?_some_of_lt (show i < B.length by omega)
      refine ⟨slot, ?_⟩
      simp only
      rw [h3 i, List.getElem?_eq_getElem hi, hslot]
      rfl
    · intro id p
      simp only
      rw [id_hash_map_get_index_of_batch data 0 hids id p]
      simp
  obtain ⟨T', S', ha, hframe, hnum, hoff, hlen, hcount, hch⟩ :=
    associate_spec heap old.current_folder.id _ data hing
  refine ⟨{ old with
      id_to_sorted_folder_task := index_of_batch 0 data, sorted_folder_tasks := T'
      flattened_data := F, folder_tasks := data
      top_level_tasks := top_level_of_batch old.current_folder.id data
      sub_tasks := S', has_been_sorted_after_loading := false }, ?_, ?_⟩
  · unfold process_folder_contents_data
    simp only [hB, h1, ha]
    simp [top_level_of_batch]
  · refine ⟨?_, ?_, hing.index, ?_, hnum, hoff, hlen, hcount, hch⟩
    · simp only [hF]
    · simp only
      rw [map_frame_length hframe]
      exact hing.capacity
    · intro i hi
      obtain ⟨slot, hslot⟩ := hing.slots i hi
      have hfi := map_frame_getElem? hframe i
      simp only at hfi hslot ⊢
      rw [hslot] at hfi
      cases ht : T'[i]? with
      | none => rw [ht] at hfi; cases hfi
      | some t =>
        rw [ht] at hfi
        simp only [Option.map_some', Option.some.injEq, Sorted_Folder_Task.frame, ingested_slot,
          Prod.mk.injEq] at hfi
        exact ⟨t, rfl, hfi.2.1, hfi.1, hfi.2.2.2.2⟩

/-! ## What a sort state change touches -/

theorem qsort_perm (impl : (Nat → Nat → Int) → List Nat → List Nat) (himpl : Qsort_Contract impl)
    (cmp : Nat → Nat → Option Int) (base l : List Nat)
    (h : qsort impl cmp base = some l) : l.Perm base := by
  unfold qsort at h
  by_cases h1 : base.length < 2
  · rw [if_pos h1] at h; cases h; exact List.Perm.refl _
  · rw [if_neg h1] at h
    by_cases h2 : (base.all (fun x => base.all (fun y => (cmp x y).isSome))) = true
    · rw [if_pos h2] at h; cases h; exact himpl.1 _ _
    · rw [if_neg h2] at h; cases h

theorem update_cached_data_for_sorted_tasks_frame (env : Env) (s s' : State)
    (h : update_cached_data_for_sorted_tasks env s = some s') :
    s' = { s with sorted_folder_tasks := s'.sorted_folder_tasks } ∧
    (List.range s.folder_tasks.length).foldlM (update_cached_data_of_task env)
      s.sorted_folder_tasks = some s'.sorted_folder_tasks := by
  unfold update_cached_data_for_sorted_tasks at h
  cases hl : (List.range s.folder_tasks.length).foldlM (update_cached_data_of_task env)
      s.sorted_folder_tasks with
  | none => rw [hl] at h; cases h
  | some tasks => rw [hl] at h; cases h; exact ⟨rfl, rfl⟩

theorem rebuild_flattened_task_tree_frame (fuel : Nat) (s s' : State)
    (h : rebuild_flattened_task_tree fuel s = some s') :
    s' = { s with flattened_data := s'.flattened_data, flattened_length := s'.flattened_length } := by
  unfold rebuild_flattened_task_tree at h
  split at h
  · cases h
  · cases h; rfl

theorem sort_top_level_tasks_frame (env : Env) (fuel : Nat) (s s' : State)
    (h : sort_top_level_tasks_and_rebuild_flattened_tree env fuel s = some s') :
    s' = { s with
        top_level_tasks := s'.top_level_tasks
        flattened_data := s'.flattened_data
        flattened_length := s'.flattened_length } ∧
      (Qsort_Contract env.qsort → s'.top_level_tasks.Perm s.top_level_tasks) := by
  unfold sort_top_level_tasks_and_rebuild_flattened_tree at h
  cases hc : get_comparator_by_current_sort_type env s with
  | none => rw [hc] at h; cases h
  | some cmp =>
    rw [hc] at h
    simp only [] at h
    cases hq : qsort env.qsort (compare_pointers cmp s.sorted_folder_tasks) s.top_level_tasks with
    | none => rw [hq] at h; cases h
    | some top =>
      rw [hq] at h
      simp only [] at h
      have hf := rebuild_flattened_task_tree_frame fuel _ s' h
      have htop : s'.top_level_tasks = top := by rw [hf]
      constructor
      · rw [hf]
      · intro himpl; rw [htop]; exact qsort_perm _ himpl _ _ _ hq

/-- What `sort_by_field` changes when it returns: the direction, the field, and
the derived structures; the top level list is rearranged. -/
theorem sort_by_field_frame (env : Env) (fuel : Nat) (sort_by : Task_List_Sort_Field)
    (s s' : State) (h : sort_by_field env fuel sort_by s = some s') :
    sort_by ≠ Task_List_Sort_Field.Custom_Field ∧
    s' = { s with
        sort_direction :=
          if s.sort_field = sort_by then to_char (s.sort_direction * -1)
          else Sort_Direction_Normal
        sort_field := sort_by
        sorted_folder_tasks := s'.sorted_folder_tasks
        top_level_tasks := s'.top_level_tasks
        flattened_data := s'.flattened_data
        flattened_length := s'.flattened_length } ∧
    (Qsort_Contract env.qsort → s'.top_level_tasks.Perm s.top_level_tasks) ∧
    (List.range s.folder_tasks.length).foldlM (update_cached_data_of_task env)
      s.sorted_folder_tasks = some s'.sorted_folder_tasks := by
  unfold sort_by_field at h
  by_cases hcf : sort_by = Task_List_Sort_Field.Custom_Field
  · rw [if_pos hcf] at h; cases h
  · rw [if_neg hcf] at h
    simp only [] at h
    refine ⟨hcf, ?_⟩
    split at h
    · cases h
    · rename_i s2 hu
      obtain ⟨h2, hloop⟩ := update_cached_data_for_sorted_tasks_frame env _ s2 hu
      obtain ⟨h3, h4⟩ := sort_top_level_tasks_frame env fuel _ s' h
      have hsorted : s'.sorted_folder_tasks = s2.sorted_folder_tasks := by rw [h3]
      refine ⟨?_, ?_, ?_⟩
      · rw [h3, h2]
        by_cases hsf : s.sort_field = sort_by
        · simp only [if_pos hsf]
        · simp only [if_neg hsf]
      · intro himpl
        refine (h4 himpl).trans ?_
        rw [h2]
        by_cases hsf : s.sort_field = sort_by
        · simp only [if_pos hsf]; exact List.Perm.refl _
        · simp only [if_neg hsf]; exact List.Perm.refl _
      · rw [hsorted, ← hloop]
        by_cases hsf : s.sort_field = sort_by
        · simp only [if_pos hsf]
        · simp only [if_neg hsf]

/-- What `sort_by_custom_field` changes when it returns. -/
theorem sort_by_custom_field_frame (env : Env) (fuel : Nat) (field_id : Custom_Field_Id)
    (s s' : State) (h : sort_by_custom_field env fuel field_id s = some s') :
    s' = { s with
        sort_direction :=
          if s.sort_field = Task_List_Sort_Field.Custom_Field ∧ field_id = s.sort_custom_field_id
          then to_char (s.sort_direction * -1)
          else Sort_Direction_Normal
        sort_field := Task_List_Sort_Field.Custom_Field
        sort_custom_field_id := field_id
        sort_custom_field := env.find_custom_field_by_id field_id
        sorted_folder_tasks := s'.sorted_folder_tasks
        top_level_tasks := s'.top_level_tasks
        flattened_data := s'.flattened_data
        flattened_length := s'.flattened_length } ∧
    (Qsort_Contract env.qsort → s'.top_level_tasks.Perm s.top_level_tasks) := by
  unfold sort_by_custom_field at h
  simp only [] at h
  split at h
  · cases h
  · rename_i s2 hu
    obtain ⟨h2, -⟩ := update_cached_data_for_sorted_tasks_frame env _ s2 hu
    obtain ⟨h3, h4⟩ := sort_top_level_tasks_frame env fuel _ s' h
    constructor
    · rw [h3, h2]
      by_cases hsf : s.sort_field = Task_List_Sort_Field.Custom_Field ∧
          field_id = s.sort_custom_field_id
      · simp only [if_pos hsf]
      · simp only [if_neg hsf]
    · intro himpl
      refine (h4 himpl).trans ?_
      rw [h2]
      by_cases hsf : s.sort_field = Task_List_Sort_Field.Custom_Field ∧
          field_id = s.sort_custom_field_id
      · simp only [if_pos hsf]; exact List.Perm.refl _
      · simp only [if_neg hsf]; exact List.Perm.refl _

theorem to_char_neg_of_valid (d : Int)
    (h : d = Sort_Direction_Normal ∨ d = Sort_Direction_Reverse) :
    to_char (d * -1) = -d ∧
      (-d = Sort_Direction_Normal ∨ -d = Sort_Direction_Reverse) := by
  rcases h with h | h <;> subst h <;> decide

/-- The loop of `update_cached_data_for_sorted_tasks`, when it returns, has
refreshed the first `n` slots and left the others alone. -/
theorem update_cached_data_loop (env : Env) (tasks : List Sorted_Folder_Task) :
    ∀ (n : Nat) (T' : List Sorted_Folder_Task),
      (List.range n).foldlM (update_cached_data_of_task env) tasks = some T' →
      T'.length = tasks.length ∧ n ≤ tasks.length ∧
      ∀ i, T'[i]? = (tasks[i]?).map (fun t => if i < n then refresh_cached_data env t else t) := by
  intro n
  induction n with
  | zero =>
    intro T' h
    simp only [List.range_zero, List.foldlM_nil] at h
    cases h
    refine ⟨rfl, Nat.zero_le _, ?_⟩
    intro i
    cases tasks[i]? <;> simp
  | succ n ih =>
    intro T' h
    rw [List.range_succ, List.foldlM_append] at h
    cases hn : (List.range n).foldlM (update_cached_data_of_task env) tasks with
    | none => rw [hn] at h; cases h
    | some Tn =>
      rw [hn] at h
      simp only [Option.bind_eq_bind, Option.some_bind, List.foldlM_cons, List.foldlM_nil] at h
      obtain ⟨hlen, hle, hget⟩ := ih Tn hn
      unfold update_cached_data_of_task at h
      cases ht : Tn[n]? with
      | none => rw [ht] at h; cases h
      | some t =>
        rw [ht] at h
        simp only [Option.bind_some, Option.some_bind] at h
        have hlt : n < Tn.length := lt_of_getElem?_some ht
        have hT' : T' = Tn.set n (refresh_cached_data env t) := by
          cases h; rfl
        have htn : tasks[n]? = some t := by
          have := hget n
          rw [ht] at this
          cases h0 : tasks[n]? with
          | none => rw [h0] at this; cases this
          | some t0 =>
            rw [h0] at this
            simp only [Option.map_some', Nat.lt_irrefl, if_false, Option.some.injEq] at this
            rw [this]
        refine ⟨by rw [hT', List.length_set, hlen], by omega, ?_⟩
        intro i
        rw [hT', List.getElem?_set]
        by_cases hni : n = i
        · subst hni
          simp [hlt, htn]
        · rw [if_neg hni, hget i]
          have : (i < n + 1) = (i < n) := by
            apply propext; omega
          simp only [this]

/-! ## Completion of the first sort after a load -/

/-- The loop of `update_cached_data_for_sorted_tasks` returns when the block
covers the live length. -/
theorem update_cached_data_loop_some (env : Env) (tasks : List Sorted_Folder_Task) :
    ∀ (n : Nat), n ≤ tasks.length →
      ∃ T', (List.range n).foldlM (update_cached_data_of_task env) tasks = some T' := by
  intro n
  induction n with
  | zero => intro _; exact ⟨tasks, rfl⟩
  | succ n ih =>
    intro hn
    obtain ⟨Tn, hTn⟩ := ih (by omega)
    obtain ⟨hlen, -, -⟩ := update_cached_data_loop env tasks n Tn hTn
    obtain ⟨t, ht⟩ := getElem?_some_of_lt (show n < Tn.length by omega)
    refine ⟨Tn.set n (refresh_cached_data env t), ?_⟩
    rw [List.range_succ, List.foldlM_append, hTn]
    simp only [Option.bind_eq_bind, Option.some_bind, List.foldlM_cons, List.foldlM_nil]
    unfold update_cached_data_of_task
    rw [ht]
    rfl

/-- After ingestion the allocated blocks cover the new batch. -/
theorem Relations_Built.blocks_allocated {heap : Heap_Garbage} {old s : State}
    {data : List Folder_Task} (hb : Relations_Built heap old data s)
    (hblocks : Blocks_Allocated old) : Blocks_Allocated s := by
  have hft : s.folder_tasks = data := by rw [hb.state_eq]
  have hfd : s.flattened_data =
      (if old.folder_tasks.length < data.length then
        REALLOC old.flattened_data data.length heap.flattened_task
      else old.flattened_data) := by rw [hb.state_eq]
  refine ⟨by rw [hft]; exact hb.capacity, ?_⟩
  rw [hft, hfd]
  by_cases hlt : old.folder_tasks.length < data.length
  · rw [if_pos hlt, REALLOC_length]
  · rw [if_neg hlt]
    have := hblocks.2
    omega

theorem count_top_level_enumFrom (top_parent_id : Folder_Id) :
    ∀ (data : List Folder_Task) (k i : Nat),
      ((data.enumFrom k).flatMap
          (fun p => List.replicate (p.2.parent_folder_ids.count top_parent_id) p.1)).count i
        = if k ≤ i then
            (match data[i - k]? with
              | some r => r.parent_folder_ids.count top_parent_id
              | none => 0)
          else 0 := by
  intro data
  induction data with
  | nil => intro k i; simp
  | cons r rs ih =>
    intro k i
    rw [List.enumFrom_cons, List.flatMap_cons, List.count_append, ih (k + 1) i,
      List.count_replicate]
    by_cases hki : k = i
    · subst hki
      simp
    · have hb : (k == i) = false := by simpa using hki
      by_cases hle : k ≤ i
      · have h1 : k + 1 ≤ i := by omega
        obtain ⟨j, hj⟩ : ∃ j, i - k = j + 1 := ⟨i - k - 1, by omega⟩
        have h2 : i - (k + 1) = j := by omega
        simp [hb, hle, h1, hj, h2]
      · have h1 : ¬ (k + 1 ≤ i) := by omega
        simp [hb, hle, h1]

theorem num_sub_tasks_before_cover (T : List Sorted_Folder_Task) (k : Nat) :
    ∀ n, k < num_sub_tasks_before T n →
      ∃ i, i < n ∧ num_sub_tasks_before T i ≤ k ∧ k < num_sub_tasks_before T (i + 1) := by
  intro n
  induction n with
  | zero => intro h; simp [num_sub_tasks_before] at h
  | succ n ih =>
    intro h
    by_cases hk : k < num_sub_tasks_before T n
    · obtain ⟨i, hi, h1, h2⟩ := ih hk
      exact ⟨i, by omega, h1, h2⟩
    · exact ⟨n, by omega, by omega, h⟩

/-- C1: for every ingested batch, after `associate_parent_tasks_with_sub_tasks`
the sum over all tasks of `num_sub_tasks` equals the number of (task, parent
task id) pairs whose parent id resolves in the id index, each task counting
exactly the pairs that resolve to it; a pair whose parent id does not resolve
is counted for no task, and the build runs to completion whether or not such
pairs exist.  An id resolves exactly when a record of the batch carries it. -/
theorem associate_sum_num_sub_tasks (heap : Heap_Garbage) (old : State)
    (data : List Folder_Task) (hblocks : Blocks_Allocated old)
    (hids : (data.map (fun r => r.id)).Nodup) :
    ∃ s, process_folder_contents_data heap old data = some s ∧
      ((s.sorted_folder_tasks.take data.length).map (fun t => t.num_sub_tasks)).sum
        = ((parent_task_id_pairs data).filter
            (fun e => (id_hash_map_get s.id_to_sorted_folder_task e.2).isSome)).length ∧
      (∀ p, p < data.length →
        num_sub_tasks_at s.sorted_folder_tasks p
          = ((parent_task_id_pairs data).filter
              (fun e => decide (id_hash_map_get s.id_to_sorted_folder_task e.2 = some p))).length) ∧
      (∀ id, (id_hash_map_get s.id_to_sorted_folder_task id).isSome = true ↔
        id ∈ data.map (fun r => r.id)) := by
  obtain ⟨s, hs, hb⟩ := process_folder_contents_data_spec heap old data hblocks hids
  refine ⟨s, hs, ?_, ?_, ?_⟩
  · have h1 := hb.slab_length
    have h2 := hb.slab_count
    rw [← List.countP_eq_length_filter]
    unfold num_sub_tasks_before at h1
    omega
  · intro p hp
    rw [hb.num p hp, ← List.countP_eq_length_filter]
    rfl
  · intro id
    rw [Option.isSome_iff_exists, List.mem_iff_getElem?]
    constructor
    · rintro ⟨p, hp⟩
      refine ⟨p, ?_⟩
      have := (hb.index id p).1 hp
      simpa [List.getElem?_map] using this
    · rintro ⟨p, hp⟩
      refine ⟨p, (hb.index id p).2 ?_⟩
      simpa [List.getElem?_map] using hp

/-- C1, at the sample batch (task 11 names the unknown id 99). -/
theorem associate_sum_num_sub_tasks_witness :
    (Blocks_Allocated sample_state ∧ (sample_batch.map (fun r => r.id)).Nodup) ∧
    ∃ s, process_folder_contents_data sample_heap sample_state sample_batch = some s ∧
      ((s.sorted_folder_tasks.take sample_batch.length).map (fun t => t.num_sub_tasks)).sum
        = ((parent_task_id_pairs sample_batch).filter
            (fun e => (id_hash_map_get s.id_to_sorted_folder_task e.2).isSome)).length ∧
      (∀ p, p < sample_batch.length →
        num_sub_tasks_at s.sorted_folder_tasks p
          = ((parent_task_id_pairs sample_batch).filter
              (fun e => decide (id_hash_map_get s.id_to_sorted_folder_task e.2 = some p))).length) ∧
      (∀ id, (id_hash_map_get s.id_to_sorted_folder_task id).isSome = true ↔
        id ∈ sample_batch.map (fun r => r.id)) :=
  ⟨⟨by decide, by decide⟩,
    associate_sum_num_sub_tasks sample_heap sample_state sample_batch (by decide) (by decide)⟩

/-- C2: for every batch and active container id, starting from an empty top
level list, `associate_parent_tasks_with_sub_tasks` produces the top level list
that holds, in task store order, each task once per occurrence of the active
container id in its folder list: the number of entries of a task equals the
number of occurrences (two for a task listing the container twice, none for a
task not listing it). -/
theorem associate_top_level_tasks (heap : Heap_Garbage) (old : State)
    (data : List Folder_Task) (hblocks : Blocks_Allocated old)
    (hids : (data.map (fun r => r.id)).Nodup) :
    ∃ s, process_folder_contents_data heap old data = some s ∧
      s.top_level_tasks = top_level_of_batch old.current_folder.id data ∧
      (∀ i (h : i < data.length),
        s.top_level_tasks.count i = data[i].parent_folder_ids.count old.current_folder.id) ∧
      List.Pairwise (fun i j => i ≤ j) s.top_level_tasks := by
  obtain ⟨s, hs, hb⟩ := process_folder_contents_data_spec heap old data hblocks hids
  have htop : s.top_level_tasks = top_level_of_batch old.current_folder.id data := by
    rw [hb.state_eq]
  refine ⟨s, hs, htop, ?_, ?_⟩
  · intro i hi
    rw [htop, top_level_of_batch, List.enum, count_top_level_enumFrom]
    simp [List.getElem?_eq_getElem hi]
  · rw [htop, top_level_of_batch, List.enum]
    have key : ∀ (l : List Folder_Task) (k : Nat),
        List.Pairwise (fun i j => i ≤ j)
          ((l.enumFrom k).flatMap
            (fun p => List.replicate (p.2.parent_folder_ids.count old.current_folder.id) p.1)) ∧
        ∀ x ∈ (l.enumFrom k).flatMap
            (fun p => List.replicate (p.2.parent_folder_ids.count old.current_folder.id) p.1),
          k ≤ x := by
      intro l
      induction l with
      | nil => intro k; simp
      | cons r rs ih =>
        intro k
        obtain ⟨ih1, ih2⟩ := ih (k + 1)
        rw [List.enumFrom_cons, List.flatMap_cons]
        constructor
        · rw [List.pairwise_append]
          refine ⟨?_, ih1, ?_⟩
          · rw [List.pairwise_replicate]
            right; exact Nat.le_refl _
          · intro a ha b hb
            have := ih2 b hb
            have := (List.mem_replicate.1 ha).2
            omega
        · intro x hx
          rcases List.mem_append.1 hx with h | h
          · have := (List.mem_replicate.1 h).2
            omega
          · have := ih2 x h
            omega
    exact (key data 0).1

/-- C2, at the sample batch (task 11 lists the active folder twice). -/
theorem associate_top_level_tasks_witness :
    (Blocks_Allocated sample_state ∧ (sample_batch.map (fun r => r.id)).Nodup) ∧
    ∃ s, process_folder_contents_data sample_heap sample_state sample_batch = some s ∧
      s.top_level_tasks = top_level_of_batch sample_state.current_folder.id sample_batch ∧
      (∀ i (h : i < sample_batch.length),
        s.top_level_tasks.count i
          = sample_batch[i].parent_folder_ids.count sample_state.current_folder.id) ∧
      List.Pairwise (fun i j => i ≤ j) s.top_level_tasks :=
  ⟨⟨by decide, by decide⟩,
    associate_top_level_tasks sample_heap sample_state sample_batch (by decide) (by decide)⟩

theorem children_resolving_to_eq_tasks_naming {heap : Heap_Garbage} {old s : State}
    {data : List Folder_Task} (hb : Relations_Built heap old data s) (p : Nat)
    (hp : p < data.length) :
    children_resolving_to s.id_to_sorted_folder_task p (parent_task_id_pairs data)
      = tasks_naming data data[p].id := by
  unfold children_resolving_to tasks_naming
  congr 1
  apply List.filter_congr
  intro e _
  have := hb.index e.2 p
  rw [List.getElem?_eq_getElem hp] at this
  simp only [Option.map_some', Option.some.injEq] at this
  by_cases h : e.2 = data[p].id
  · have hg := this.2 h.symm
    rw [decide_eq_true hg, decide_eq_true h]
  · have h' : ¬ (id_hash_map_get s.id_to_sorted_folder_task e.2 = some p) :=
      fun hg => h (this.1 hg).symm
    simp [h, h']

/-- C3: for every batch, after `associate_parent_tasks_with_sub_tasks` the
children list of each task P (the `num_sub_tasks` slab cells from `sub_tasks`
on) is exactly the sequence of tasks that name P's id in their parent task id
list, in task store order, one entry per occurrence. -/
theorem associate_children_in_store_order (heap : Heap_Garbage) (old : State)
    (data : List Folder_Task) (hblocks : Blocks_Allocated old)
    (hids : (data.map (fun r => r.id)).Nodup) :
    ∃ s, process_folder_contents_data heap old data = some s ∧
      ∀ p (h : p < data.length), ∃ t, s.sorted_folder_tasks[p]? = some t ∧
        (s.sub_tasks.drop t.sub_tasks).take t.num_sub_tasks = tasks_naming data data[p].id := by
  obtain ⟨s, hs, hb⟩ := process_folder_contents_data_spec heap old data hblocks hids
  refine ⟨s, hs, ?_⟩
  intro p hp
  obtain ⟨t, ht, -, -, -⟩ := hb.tasks p hp
  refine ⟨t, ht, ?_⟩
  have hnum : num_sub_tasks_at s.sorted_folder_tasks p = t.num_sub_tasks := by
    unfold num_sub_tasks_at; rw [ht]
  have hsub : sub_tasks_at s.sorted_folder_tasks p = t.sub_tasks := by
    unfold sub_tasks_at; rw [ht]
  have hch := hb.children p hp
  rw [children_resolving_to_eq_tasks_naming hb p hp, hnum] at hch
  by_cases hz : t.num_sub_tasks = 0
  · rw [hz] at hch ⊢
    rw [← hch]
    simp
  · have hoff := hb.off p hp (by rw [hnum]; exact hz)
    rw [hsub] at hoff
    rw [hoff]
    exact hch

/-- C3, at the sample batch. -/
theorem associate_children_in_store_order_witness :
    (Blocks_Allocated sample_state ∧ (sample_batch.map (fun r => r.id)).Nodup) ∧
    ∃ s, process_folder_contents_data sample_heap sample_state sample_batch = some s ∧
      ∀ p (h : p < sample_batch.length), ∃ t, s.sorted_folder_tasks[p]? = some t ∧
        (s.sub_tasks.drop t.sub_tasks).take t.num_sub_tasks
          = tasks_naming sample_batch sample_batch[p].id :=
  ⟨⟨by decide, by decide⟩,
    associate_children_in_store_order sample_heap sample_state sample_batch
      (by decide) (by decide)⟩

/-- C4: for every batch, after `associate_parent_tasks_with_sub_tasks` the
children ranges of the tasks with at least one child are laid out in task
store order (each range starts where the counters of the earlier tasks end),
lie inside the slab, are pairwise disjoint, and together cover the slab
exactly: the slab has as many cells as there are resolved pairs, and every
cell belongs to the range of some task. -/
theorem associate_ranges_partition_slab (heap : Heap_Garbage) (old : State)
    (data : List Folder_Task) (hblocks : Blocks_Allocated old)
    (hids : (data.map (fun r => r.id)).Nodup) :
    ∃ s, process_folder_contents_data heap old data = some s ∧
      (∀ i, i < data.length → num_sub_tasks_at s.sorted_folder_tasks i ≠ 0 →
        sub_tasks_at s.sorted_folder_tasks i
          = ((s.sorted_folder_tasks.take i).map (fun t => t.num_sub_tasks)).sum) ∧
      (∀ i, i < data.length → num_sub_tasks_at s.sorted_folder_tasks i ≠ 0 →
        sub_tasks_at s.sorted_folder_tasks i + num_sub_tasks_at s.sorted_folder_tasks i
          ≤ s.sub_tasks.length) ∧
      (∀ i j, i < j → j < data.length →
        num_sub_tasks_at s.sorted_folder_tasks i ≠ 0 →
        num_sub_tasks_at s.sorted_folder_tasks j ≠ 0 →
        sub_tasks_at s.sorted_folder_tasks i + num_sub_tasks_at s.sorted_folder_tasks i
          ≤ sub_tasks_at s.sorted_folder_tasks j) ∧
      s.sub_tasks.length = ((parent_task_id_pairs data).filter
        (fun e => (id_hash_map_get s.id_to_sorted_folder_task e.2).isSome)).length ∧
      (∀ k, k < s.sub_tasks.length → ∃ i, i < data.length ∧
        num_sub_tasks_at s.sorted_folder_tasks i ≠ 0 ∧
        sub_tasks_at s.sorted_folder_tasks i ≤ k ∧
        k < sub_tasks_at s.sorted_folder_tasks i + num_sub_tasks_at s.sorted_folder_tasks i) := by
  obtain ⟨s, hs, hb⟩ := process_folder_contents_data_spec heap old data hblocks hids
  have hend : ∀ i, i < data.length →
      num_sub_tasks_before s.sorted_folder_tasks i + num_sub_tasks_at s.sorted_folder_tasks i
        ≤ num_sub_tasks_before s.sorted_folder_tasks data.length := by
    intro i hi
    rw [← num_sub_tasks_before_succ]
    exact num_sub_tasks_before_le _ (by omega)
  refine ⟨s, hs, ?_, ?_, ?_, ?_, ?_⟩
  · intro i hi hne
    exact hb.off i hi hne
  · intro i hi hne
    rw [hb.off i hi hne, hb.slab_length]
    exact hend i hi
  · intro i j hij hj hi0 hj0
    rw [hb.off i (by omega) hi0, hb.off j hj hj0, ← num_sub_tasks_before_succ]
    exact num_sub_tasks_before_le _ (by omega)
  · rw [hb.slab_count, List.countP_eq_length_filter]
  · intro k hk
    rw [hb.slab_length] at hk
    obtain ⟨i, hi, h1, h2⟩ := num_sub_tasks_before_cover s.sorted_folder_tasks k data.length hk
    rw [num_sub_tasks_before_succ] at h2
    have hne : num_sub_tasks_at s.sorted_folder_tasks i ≠ 0 := by omega
    refine ⟨i, hi, hne, ?_, ?_⟩
    · rw [hb.off i hi hne]; exact h1
    · rw [hb.off i hi hne]; exact h2

/-- C4, at the sample batch. -/
theorem associate_ranges_partition_slab_witness :
    (Blocks_Allocated sample_state ∧ (sample_batch.map (fun r => r.id)).Nodup) ∧
    ∃ s, process_folder_contents_data sample_heap sample_state sample_batch = some s ∧
      (∀ i, i < sample_batch.length → num_sub_tasks_at s.sorted_folder_tasks i ≠ 0 →
        sub_tasks_at s.sorted_folder_tasks i
          = ((s.sorted_folder_tasks.take i).map (fun t => t.num_sub_tasks)).sum) ∧
      (∀ i, i < sample_batch.length → num_sub_tasks_at s.sorted_folder_tasks i ≠ 0 →
        sub_tasks_at s.sorted_folder_tasks i + num_sub_tasks_at s.sorted_folder_tasks i
          ≤ s.sub_tasks.length) ∧
      (∀ i j, i < j → j < sample_batch.length →
        num_sub_tasks_at s.sorted_folder_tasks i ≠ 0 →
        num_sub_tasks_at s.sorted_folder_tasks j ≠ 0 →
        sub_tasks_at s.sorted_folder_tasks i + num_sub_tasks_at s.sorted_folder_tasks i
          ≤ sub_tasks_at s.sorted_folder_tasks j) ∧
      s.sub_tasks.length = ((parent_task_id_pairs sample_batch).filter
        (fun e => (id_hash_map_get s.id_to_sorted_folder_task e.2).isSome)).length ∧
      (∀ k, k < s.sub_tasks.length → ∃ i, i < sample_batch.length ∧
        num_sub_tasks_at s.sorted_folder_tasks i ≠ 0 ∧
        sub_tasks_at s.sorted_folder_tasks i ≤ k ∧
        k < sub_tasks_at s.sorted_folder_tasks i + num_sub_tasks_at s.sorted_folder_tasks i) :=
  ⟨⟨by decide, by decide⟩,
    associate_ranges_partition_slab sample_heap sample_state sample_batch
      (by decide) (by decide)⟩

/-! ## The claims on the sort engine -/

/-- C6, as stated, fails: after a sort by custom field 7, selecting Title
leaves the stored custom field id at 7, the id of a custom column of the
folder; it is not reset to its initial value. -/
theorem sort_by_field_clears_custom_field_id_counterexample :
    sample_by_custom_field.sort_field = Task_List_Sort_Field.Custom_Field ∧
    sample_by_custom_field.sort_custom_field_id = 7 ∧
    ∃ s', sort_by_field sample_env 3 Task_List_Sort_Field.Title sample_by_custom_field = some s' ∧
      s'.sort_custom_field_id ≠ initial_state.sort_custom_field_id ∧
      ¬ (∀ c ∈ s'.current_folder.custom_columns, c ≠ s'.sort_custom_field_id) := by
  refine ⟨by decide, by decide,
    (sort_by_field sample_env 3 Task_List_Sort_Field.Title sample_by_custom_field).getD
      sample_loaded, by decide, by decide, by decide⟩

/-- C6, amended: selecting a non-custom field leaves the stored custom field id
and the resolved custom field unchanged (the id is not cleared); the sort field
becomes the selected field, and a later `sort_by_custom_field` starts in
ascending direction whatever id it is given, because its toggle test also
requires the current field to be `Custom_Field`. -/
theorem sort_by_field_keeps_custom_field_id (env : Env) (fuel : Nat)
    (f : Task_List_Sort_Field) (s s' : State)
    (hs : s.sort_field = Task_List_Sort_Field.Custom_Field)
    (h : sort_by_field env fuel f s = some s') :
    s'.sort_custom_field_id = s.sort_custom_field_id ∧
    s'.sort_custom_field = s.sort_custom_field ∧
    s'.sort_field = f ∧ f ≠ Task_List_Sort_Field.Custom_Field ∧
    s'.sort_direction = Sort_Direction_Normal ∧
    (∀ (env2 : Env) (fuel2 : Nat) (c : Custom_Field_Id) (s'' : State),
      sort_by_custom_field env2 fuel2 c s' = some s'' →
      s''.sort_direction = Sort_Direction_Normal) := by
  obtain ⟨hcf, hs', -, -⟩ := sort_by_field_frame env fuel f s s' h
  have hfield : s'.sort_field = f := by rw [hs']
  have hne : ¬ (s.sort_field = f) := by rw [hs]; exact fun e => hcf e.symm
  refine ⟨by rw [hs'], by rw [hs'], hfield, hcf, ?_, ?_⟩
  · rw [hs']
    simp only [if_neg hne]
  · intro env2 fuel2 c s'' h2
    obtain ⟨hs'', -⟩ := sort_by_custom_field_frame env2 fuel2 c s' s'' h2
    have hno : ¬ (s'.sort_field = Task_List_Sort_Field.Custom_Field ∧
        c = s'.sort_custom_field_id) := by
      rw [hfield]; exact fun e => hcf e.1
    rw [hs'']
    simp only [if_neg hno]

/-- C6 amended, at the sample state sorted by custom field 7. -/
theorem sort_by_field_keeps_custom_field_id_witness :
    (sample_by_custom_field.sort_field = Task_List_Sort_Field.Custom_Field ∧
      sort_by_field sample_env 3 Task_List_Sort_Field.Title sample_by_custom_field
        = some ((sort_by_field sample_env 3 Task_List_Sort_Field.Title
            sample_by_custom_field).getD sample_loaded)) ∧
    (((sort_by_field sample_env 3 Task_List_Sort_Field.Title
          sample_by_custom_field).getD sample_loaded).sort_custom_field_id
        = sample_by_custom_field.sort_custom_field_id ∧
      ((sort_by_field sample_env 3 Task_List_Sort_Field.Title
          sample_by_custom_field).getD sample_loaded).sort_custom_field
        = sample_by_custom_field.sort_custom_field ∧
      ((sort_by_field sample_env 3 Task_List_Sort_Field.Title
          sample_by_custom_field).getD sample_loaded).sort_field
        = Task_List_Sort_Field.Title ∧
      Task_List_Sort_Field.Title ≠ Task_List_Sort_Field.Custom_Field ∧
      ((sort_by_field sample_env 3 Task_List_Sort_Field.Title
          sample_by_custom_field).getD sample_loaded).sort_direction = Sort_Direction_Normal ∧
      (∀ (env2 : Env) (fuel2 : Nat) (c : Custom_Field_Id) (s'' : State),
        sort_by_custom_field env2 fuel2 c
            ((sort_by_field sample_env 3 Task_List_Sort_Field.Title
              sample_by_custom_field).getD sample_loaded) = some s'' →
        s''.sort_direction = Sort_Direction_Normal)) :=
  ⟨⟨by decide, by decide⟩,
    sort_by_field_keeps_custom_field_id sample_env 3 Task_List_Sort_Field.Title
      sample_by_custom_field _ (by decide) (by decide)⟩

/-- C7: for every sort state and custom field id `c`, a call
`sort_by_custom_field(c)` that returns leaves the state with field
`Custom_Field` and custom field id `c`, and with the direction negated exactly
when the previous field was `Custom_Field` with the same id `c`; in every other
case (a non-custom field, or a different id) the direction becomes ascending. -/
theorem sort_by_custom_field_toggles_direction (env : Env) (fuel : Nat) (c : Custom_Field_Id)
    (s s' : State) (hdir : Valid_Sort_Direction s)
    (h : sort_by_custom_field env fuel c s = some s') :
    s'.sort_field = Task_List_Sort_Field.Custom_Field ∧
    s'.sort_custom_field_id = c ∧
    (s.sort_field = Task_List_Sort_Field.Custom_Field ∧ s.sort_custom_field_id = c →
      s'.sort_direction = - s.sort_direction) ∧
    (¬ (s.sort_field = Task_List_Sort_Field.Custom_Field ∧ s.sort_custom_field_id = c) →
      s'.sort_direction = Sort_Direction_Normal) ∧
    Valid_Sort_Direction s' := by
  obtain ⟨hs', -⟩ := sort_by_custom_field_frame env fuel c s s' h
  have hd : s'.sort_direction
      = (if s.sort_field = Task_List_Sort_Field.Custom_Field ∧ c = s.sort_custom_field_id
          then to_char (s.sort_direction * -1) else Sort_Direction_Normal) := by
    rw [hs']
  refine ⟨by rw [hs'], by rw [hs'], ?_, ?_, ?_⟩
  · rintro ⟨h1, h2⟩
    rw [hd, if_pos ⟨h1, h2.symm⟩]
    exact (to_char_neg_of_valid _ hdir).1
  · intro hno
    rw [hd, if_neg (fun e => hno ⟨e.1, e.2.symm⟩)]
  · unfold Valid_Sort_Direction
    rw [hd]
    by_cases hsf : s.sort_field = Task_List_Sort_Field.Custom_Field ∧ c = s.sort_custom_field_id
    · rw [if_pos hsf, (to_char_neg_of_valid _ hdir).1]
      exact (to_char_neg_of_valid _ hdir).2
    · rw [if_neg hsf]; exact Or.inl rfl

/-- C7, at the sample state sorted by title: the first sort by custom field 7. -/
theorem sort_by_custom_field_toggles_direction_witness :
    (Valid_Sort_Direction sample_by_title ∧
      sort_by_custom_field sample_env 3 7 sample_by_title = some sample_by_custom_field) ∧
    (sample_by_custom_field.sort_field = Task_List_Sort_Field.Custom_Field ∧
      sample_by_custom_field.sort_custom_field_id = 7 ∧
      (sample_by_title.sort_field = Task_List_Sort_Field.Custom_Field ∧
          sample_by_title.sort_custom_field_id = 7 →
        sample_by_custom_field.sort_direction = - sample_by_title.sort_direction) ∧
      (¬ (sample_by_title.sort_field = Task_List_Sort_Field.Custom_Field ∧
          sample_by_title.sort_custom_field_id = 7) →
        sample_by_custom_field.sort_direction = Sort_Direction_Normal) ∧
      Valid_Sort_Direction sample_by_custom_field) :=
  ⟨⟨by decide, by decide⟩,
    sort_by_custom_field_toggles_direction sample_env 3 7 sample_by_title
      sample_by_custom_field (by decide) (by decide)⟩

theorem MIN_succ (n m : Nat) : MIN (n + 1) (m + 1) = MIN n m + 1 := by
  unfold MIN
  by_cases h : n < m
  · have h' : n + 1 < m + 1 := by omega
    rw [if_pos h, if_pos h']
  · have h' : ¬ (n + 1 < m + 1) := by omega
    rw [if_neg h, if_neg h']

theorem strncmp_zero_left (b : Str) (n : Nat) : strncmp [] b (MIN 0 n) = 0 := by
  have : MIN 0 n = 0 := by
    unfold MIN
    by_cases h : 0 < n
    · rw [if_pos h]
    · rw [if_neg h]; omega
  rw [this]
  cases b <;> simp [strncmp]

theorem strncmp_zero_right (a : Str) (n : Nat) : strncmp a [] (MIN n 0) = 0 := by
  have : MIN n 0 = 0 := by
    unfold MIN
    rw [if_neg (Nat.not_lt_zero n)]
  rw [this]
  cases a <;> simp [strncmp]

/-- Over the overlapping length `strncmp` finds no difference between a string
and an extension of it. -/
theorem strncmp_of_extension : ∀ (a t : Str),
    strncmp a (a ++ t) (MIN a.length (a ++ t).length) = 0 ∧
    strncmp (a ++ t) a (MIN (a ++ t).length a.length) = 0 := by
  intro a
  induction a with
  | nil =>
    intro t
    exact ⟨strncmp_zero_left _ _, strncmp_zero_right _ _⟩
  | cons x xs ih =>
    intro t
    simp only [List.cons_append, List.length_cons, MIN_succ]
    unfold strncmp
    simp only [ne_eq, not_true_eq_false, if_false]
    by_cases hx : x = 0
    · simp [hx]
    · simp only [if_neg hx]
      exact ih t

/-- C9, as stated, fails: the titles "ab" (id 0) and "abc" (id 3000000000) tie
on content under both directions, the first id is the smaller, and the Title
comparator returns 1294967296, which is not negative: the id difference is
returned through a conversion to `int` and wraps.  With the ids 2147483647 and
-1 it returns -2147483648 in both orders. -/
theorem title_comparator_ties_by_id_counterexample :
    (titled_task 0 [97, 98]).source_task.title
      <+: (titled_task 3000000000 [97, 98, 99]).source_task.title ∧
    (titled_task 0 [97, 98]).source_task.id
      < (titled_task 3000000000 [97, 98, 99]).source_task.id ∧
    compare_folder_tasks_based_on_title Sort_Direction_Normal (titled_task 0 [97, 98])
      (titled_task 3000000000 [97, 98, 99]) = 1294967296 ∧
    compare_folder_tasks_based_on_title Sort_Direction_Reverse (titled_task 0 [97, 98])
      (titled_task 3000000000 [97, 98, 99]) = 1294967296 ∧
    ¬ compare_folder_tasks_based_on_title Sort_Direction_Normal (titled_task 0 [97, 98])
      (titled_task 3000000000 [97, 98, 99]) < 0 ∧
    compare_folder_tasks_based_on_title Sort_Direction_Normal (titled_task 2147483647 [97, 98])
      (titled_task (-1) [97, 98, 99]) = -2147483648 ∧
    compare_folder_tasks_based_on_title Sort_Direction_Normal (titled_task (-1) [97, 98, 99])
      (titled_task 2147483647 [97, 98]) = -2147483648 := by
  decide

/-- C9, amended: for every two tasks such that one title is a byte prefix of
the other and the difference of the two ids is representable in `int` (at
least -2^31 and below 2^31), and for either direction, the Title comparator
finds no difference in content and orders the two solely by task id: its
result is the id difference, which is negative exactly when the first task's
id is smaller than the second's. -/
theorem title_comparator_ties_ordered_by_id (sort_direction : Int)
    (as bs : Sorted_Folder_Task)
    (hpre : as.source_task.title <+: bs.source_task.title ∨
      bs.source_task.title <+: as.source_task.title)
    (hfit : -2147483648 ≤ as.source_task.id - bs.source_task.id ∧
      as.source_task.id - bs.source_task.id < 2147483648) :
    strncmp as.source_task.title bs.source_task.title
        (MIN as.source_task.title.length bs.source_task.title.length) * sort_direction = 0 ∧
    compare_folder_tasks_based_on_title sort_direction as bs
      = as.source_task.id - bs.source_task.id ∧
    (compare_folder_tasks_based_on_title sort_direction as bs < 0 ↔
      as.source_task.id < bs.source_task.id) := by
  have hzero : strncmp as.source_task.title bs.source_task.title
      (MIN as.source_task.title.length bs.source_task.title.length) = 0 := by
    rcases hpre with ⟨t, ht⟩ | ⟨t, ht⟩
    · rw [← ht]; exact (strncmp_of_extension _ t).1
    · rw [← ht]; exact (strncmp_of_extension _ t).2
  have hint : to_int (as.source_task.id - bs.source_task.id)
      = as.source_task.id - bs.source_task.id := by
    obtain ⟨h1, h2⟩ := hfit
    unfold to_int
    unfold Task_Id at *
    omega
  have hcmp : compare_folder_tasks_based_on_title sort_direction as bs
      = as.source_task.id - bs.source_task.id := by
    unfold compare_folder_tasks_based_on_title
    simp only [hzero, Int.zero_mul, if_true, hint]
  refine ⟨by rw [hzero, Int.zero_mul], hcmp, ?_⟩
  rw [hcmp]
  unfold Task_Id at *
  omega

/-- C9, at the titles "ab" (task 1) and "abc" (task 2), ascending. -/
theorem title_comparator_ties_ordered_by_id_witness :
    ((titled_task 1 [97, 98]).source_task.title <+: (titled_task 2 [97, 98, 99]).source_task.title ∨
      (titled_task 2 [97, 98, 99]).source_task.title <+: (titled_task 1 [97, 98]).source_task.title) ∧
    (-2147483648 ≤ (titled_task 1 [97, 98]).source_task.id
        - (titled_task 2 [97, 98, 99]).source_task.id ∧
      (titled_task 1 [97, 98]).source_task.id - (titled_task 2 [97, 98, 99]).source_task.id
        < 2147483648) ∧
    (strncmp (titled_task 1 [97, 98]).source_task.title
        (titled_task 2 [97, 98, 99]).source_task.title
        (MIN (titled_task 1 [97, 98]).source_task.title.length
          (titled_task 2 [97, 98, 99]).source_task.title.length) * Sort_Direction_Normal = 0 ∧
      compare_folder_tasks_based_on_title Sort_Direction_Normal (titled_task 1 [97, 98])
          (titled_task 2 [97, 98, 99])
        = (titled_task 1 [97, 98]).source_task.id - (titled_task 2 [97, 98, 99]).source_task.id ∧
      (compare_folder_tasks_based_on_title Sort_Direction_Normal (titled_task 1 [97, 98])
          (titled_task 2 [97, 98, 99]) < 0 ↔
        (titled_task 1 [97, 98]).source_task.id < (titled_task 2 [97, 98, 99]).source_task.id)) :=
  ⟨by decide, by decide,
    title_comparator_ties_ordered_by_id Sort_Direction_Normal (titled_task 1 [97, 98])
      (titled_task 2 [97, 98, 99]) (by decide) (by decide)⟩

/-- C10: for both sort directions (for every value of the direction) and every
two tasks `a`, `b` where `a` has a resolved first assignee and `b` has none, the
Assignee comparator returns a negative value for `(a, b)` and a positive value
for `(b, a)`: the task without an assignee sorts after the other. -/
theorem assignee_comparator_unassigned_last (sort_direction : Int)
    (a b : Sorted_Folder_Task) (user : User)
    (ha : a.cached_first_assignee = some user) (hb : b.cached_first_assignee = none) :
    compare_folder_tasks_based_on_assignees sort_direction a b < 0 ∧
    0 < compare_folder_tasks_based_on_assignees sort_direction b a := by
  unfold compare_folder_tasks_based_on_assignees
  rw [ha, hb]
  simp only []
  exact ⟨by decide, by decide⟩

/-- C10, at a task assigned to a user and an unassigned task, descending. -/
theorem assignee_comparator_unassigned_last_witness :
    ({ titled_task 1 [97] with
        cached_first_assignee := some { id := 1, first_name := [65], last_name := [66] } }
        : Sorted_Folder_Task).cached_first_assignee
      = some { id := 1, first_name := [65], last_name := [66] } ∧
    (titled_task 2 [98]).cached_first_assignee = none ∧
    (compare_folder_tasks_based_on_assignees Sort_Direction_Reverse
        { titled_task 1 [97] with
          cached_first_assignee := some { id := 1, first_name := [65], last_name := [66] } }
        (titled_task 2 [98]) < 0 ∧
      0 < compare_folder_tasks_based_on_assignees Sort_Direction_Reverse (titled_task 2 [98])
        { titled_task 1 [97] with
          cached_first_assignee := some { id := 1, first_name := [65], last_name := [66] } }) :=
  ⟨rfl, rfl,
    assignee_comparator_unassigned_last Sort_Direction_Reverse _ (titled_task 2 [98])
      { id := 1, first_name := [65], last_name := [66] } rfl rfl⟩

/-- C8 fails on the code: in a state whose top level list has at least two
entries, all of tasks without an assignee, `sort_by_field(Assignee)` leaves the
top level list not ordered by the comparator, whatever `qsort` does: the
Assignee comparator answers 1 for the first adjacent pair (and would for the
swapped pair). -/
theorem sort_by_assignee_unassigned_unordered (env : Env) (fuel : Nat) (s s' : State)
    (hq : Qsort_Contract env.qsort)
    (h : sort_by_field env fuel Task_List_Sort_Field.Assignee s = some s')
    (hlen : 2 ≤ s.top_level_tasks.length)
    (hun : ∀ i ∈ s.top_level_tasks, i < s.folder_tasks.length ∧
      ∃ t, s.sorted_folder_tasks[i]? = some t ∧ t.source_task.assignees = []) :
    s'.top_level_tasks.Perm s.top_level_tasks ∧ top_level_ordered env s' = false := by
  obtain ⟨-, hs', hperm', hloop⟩ := sort_by_field_frame env fuel _ s s' h
  have hperm := hperm' hq
  obtain ⟨-, -, hget⟩ := update_cached_data_loop env _ _ _ hloop
  refine ⟨hperm, ?_⟩
  have hfield : s'.sort_field = Task_List_Sort_Field.Assignee := by rw [hs']
  have hnone : ∀ i ∈ s'.top_level_tasks, ∃ a, s'.sorted_folder_tasks[i]? = some a ∧
      a.cached_first_assignee = none := by
    intro i hi
    obtain ⟨hin, t, ht, hta⟩ := hun i (hperm.mem_iff.1 hi)
    refine ⟨refresh_cached_data env t, ?_, ?_⟩
    · rw [hget i, ht]
      simp [hin]
    · simp [refresh_cached_data, hta]
  have hlen' : 2 ≤ s'.top_level_tasks.length := by rw [hperm.length_eq]; exact hlen
  unfold top_level_ordered get_comparator_by_current_sort_type
  rw [hfield]
  simp only []
  cases htop : s'.top_level_tasks with
  | nil => rw [htop] at hlen'; simp at hlen'
  | cons x rest =>
    cases rest with
    | nil => rw [htop] at hlen'; simp at hlen'
    | cons y rest =>
      obtain ⟨a, ha, haa⟩ := hnone x (by rw [htop]; simp)
      obtain ⟨b, hb, -⟩ := hnone y (by rw [htop]; simp)
      unfold adjacent_ordered compare_pointers
      simp [ha, hb, compare_folder_tasks_based_on_assignees, haa]

/-- C8 fails at the two ingested unassigned tasks, with insertion sort as `qsort`. -/
theorem sort_by_assignee_unassigned_unordered_witness :
    (Qsort_Contract sample_env.qsort ∧
      sort_by_field sample_env 3 Task_List_Sort_Field.Assignee unassigned_loaded
        = some ((sort_by_field sample_env 3 Task_List_Sort_Field.Assignee
            unassigned_loaded).getD sample_loaded) ∧
      2 ≤ unassigned_loaded.top_level_tasks.length ∧
      (∀ i ∈ unassigned_loaded.top_level_tasks, i < unassigned_loaded.folder_tasks.length ∧
        ∃ t, unassigned_loaded.sorted_folder_tasks[i]? = some t ∧
          t.source_task.assignees = [])) ∧
    (((sort_by_field sample_env 3 Task_List_Sort_Field.Assignee
          unassigned_loaded).getD sample_loaded).top_level_tasks.Perm
        unassigned_loaded.top_level_tasks ∧
      top_level_ordered sample_env ((sort_by_field sample_env 3 Task_List_Sort_Field.Assignee
        unassigned_loaded).getD sample_loaded) = false) :=
  ⟨⟨insertion_sort_contract, by decide, by decide, by decide⟩,
    sort_by_assignee_unassigned_unordered sample_env 3 unassigned_loaded _
      insertion_sort_contract (by decide) (by decide) (by decide)⟩

/-! ## The claims on the comparators -/

theorem to_int_of_fits (x : Int) (h1 : -2147483648 ≤ x) (h2 : x < 2147483648) : to_int x = x := by
  unfold to_int
  omega

/-- C11 fails on the code: whenever the first operand has no first assignee the
Assignee comparator returns 1 without looking at the second operand, so for
two tasks that both have none it returns 1 for `(a, b)` and 1 for `(b, a)`,
whatever their ids and the direction: no tie, no ordering by id, and not
opposite signs. -/
theorem assignee_comparator_both_unassigned (sort_direction : Int) (a b : Sorted_Folder_Task)
    (ha : a.cached_first_assignee = none) (hb : b.cached_first_assignee = none) :
    compare_folder_tasks_based_on_assignees sort_direction a b = 1 ∧
    compare_folder_tasks_based_on_assignees sort_direction b a = 1 := by
  unfold compare_folder_tasks_based_on_assignees
  rw [ha, hb]
  exact ⟨rfl, rfl⟩

/-- C11 fails at the unassigned tasks 1 and 2, ascending: the result for
`(1, 2)` is 1, not negative. -/
theorem assignee_comparator_both_unassigned_witness :
    ((titled_task 1 [97]).cached_first_assignee = none ∧
      (titled_task 2 [98]).cached_first_assignee = none) ∧
    (compare_folder_tasks_based_on_assignees Sort_Direction_Normal (titled_task 1 [97])
        (titled_task 2 [98]) = 1 ∧
      compare_folder_tasks_based_on_assignees Sort_Direction_Normal (titled_task 2 [98])
        (titled_task 1 [97]) = 1) :=
  ⟨⟨rfl, rfl⟩,
    assignee_comparator_both_unassigned Sort_Direction_Normal (titled_task 1 [97])
      (titled_task 2 [98]) rfl rfl⟩

/-- C12, as stated, fails: for two statuses with the same natural index 3 and
the ids 0 and 2147483648 the Status comparator returns -2147483648 under both
directions, while the sign of the status-id difference times the direction is
+1 under Reverse; and for two tasks with the same status and the ids 0 and
3000000000 it returns 1294967296, while the sign of the task-id difference is
-1.  The differences are returned through conversions to 32 bits and wrap. -/
theorem status_comparator_keys_counterexample :
    compare_folder_tasks_based_on_status Sort_Direction_Normal
      (status_task 1 (sample_status 0 3)) (status_task 2 (sample_status 2147483648 3))
      = some (-2147483648) ∧
    compare_folder_tasks_based_on_status Sort_Direction_Reverse
      (status_task 1 (sample_status 0 3)) (status_task 2 (sample_status 2147483648 3))
      = some (-2147483648) ∧
    Int.sign (-2147483648) ≠
      Int.sign ((sample_status 0 3).id - (sample_status 2147483648 3).id)
        * Sort_Direction_Reverse ∧
    compare_folder_tasks_based_on_status Sort_Direction_Normal
      (status_task 0 (sample_status 5 3)) (status_task 3000000000 (sample_status 5 3))
      = some 1294967296 ∧
    Int.sign 1294967296 ≠
      Int.sign ((status_task 0 (sample_status 5 3)).source_task.id
        - (status_task 3000000000 (sample_status 5 3)).source_task.id) := by
  decide

/-- C12, amended: for every two tasks with resolved statuses, the direction
being Normal (+1) or Reverse (-1), the differences of the natural indices and
of the task ids being representable in 32 bits (at least -2^31 and below 2^31)
and the difference of the status ids lying strictly between -2^31 and 2^31,
the Status comparator returns the difference of the natural indices when they
differ, the same under both directions; otherwise the difference of the status
ids multiplied by the direction when the status ids differ; otherwise the
difference of the task ids; so its sign is the sign of that key. -/
theorem status_comparator_keys (sort_direction : Int) (a b : Sorted_Folder_Task)
    (a_status b_status : Custom_Status)
    (ha : a.cached_status = some a_status) (hb : b.cached_status = some b_status)
    (hdir : sort_direction = Sort_Direction_Normal ∨ sort_direction = Sort_Direction_Reverse)
    (hindex : -2147483648 ≤ a_status.natural_index - b_status.natural_index ∧
      a_status.natural_index - b_status.natural_index < 2147483648)
    (hstatus : -2147483648 < a_status.id - b_status.id ∧ a_status.id - b_status.id < 2147483648)
    (hid : -2147483648 ≤ a.source_task.id - b.source_task.id ∧
      a.source_task.id - b.source_task.id < 2147483648) :
    ∃ result, compare_folder_tasks_based_on_status sort_direction a b = some result ∧
      result =
        (if a_status.natural_index ≠ b_status.natural_index then
          a_status.natural_index - b_status.natural_index
        else if a_status.id ≠ b_status.id then (a_status.id - b_status.id) * sort_direction
        else a.source_task.id - b.source_task.id) ∧
      Int.sign result =
        (if a_status.natural_index ≠ b_status.natural_index then
          Int.sign (a_status.natural_index - b_status.natural_index)
        else if a_status.id ≠ b_status.id then
          Int.sign (a_status.id - b_status.id) * sort_direction
        else Int.sign (a.source_task.id - b.source_task.id)) ∧
      (a_status.natural_index ≠ b_status.natural_index →
        compare_folder_tasks_based_on_status Sort_Direction_Normal a b
          = compare_folder_tasks_based_on_status Sort_Direction_Reverse a b) := by
  have hni := to_int_of_fits _ hindex.1 hindex.2
  have htid : to_int (a.source_task.id - b.source_task.id)
      = a.source_task.id - b.source_task.id := by
    have h1 := hid.1
    have h2 := hid.2
    unfold to_int
    unfold Task_Id at *
    omega
  have hsid : to_int ((a_status.id - b_status.id) * sort_direction)
      = (a_status.id - b_status.id) * sort_direction := by
    have h1 := hstatus.1
    have h2 := hstatus.2
    unfold to_int
    unfold Custom_Status_Id at *
    rcases hdir with h | h <;> subst h <;> simp only [Sort_Direction_Normal, Sort_Direction_Reverse] <;>
      omega
  have hkey : ∀ d : Int, compare_folder_tasks_based_on_status d a b
      = some (if to_int (a_status.natural_index - b_status.natural_index) = 0 then
          (if to_int ((a_status.id - b_status.id) * d) = 0 then
            to_int (a.source_task.id - b.source_task.id)
          else to_int ((a_status.id - b_status.id) * d))
        else to_int (a_status.natural_index - b_status.natural_index)) := by
    intro d
    unfold compare_folder_tasks_based_on_status
    rw [ha, hb]
    simp only []
    split_ifs <;> simp_all
  have hmul : (a_status.id - b_status.id) * sort_direction = 0 ↔ a_status.id = b_status.id := by
    unfold Custom_Status_Id at *
    rcases hdir with h | h <;> subst h <;> simp only [Sort_Direction_Normal, Sort_Direction_Reverse] <;>
      omega
  have hvalue : (if to_int (a_status.natural_index - b_status.natural_index) = 0 then
          (if to_int ((a_status.id - b_status.id) * sort_direction) = 0 then
            to_int (a.source_task.id - b.source_task.id)
          else to_int ((a_status.id - b_status.id) * sort_direction))
        else to_int (a_status.natural_index - b_status.natural_index))
      = (if a_status.natural_index ≠ b_status.natural_index then
          a_status.natural_index - b_status.natural_index
        else if a_status.id ≠ b_status.id then (a_status.id - b_status.id) * sort_direction
        else a.source_task.id - b.source_task.id) := by
    rw [hni, hsid, htid]
    by_cases h1 : a_status.natural_index = b_status.natural_index
    · have h1' : a_status.natural_index - b_status.natural_index = 0 := by omega
      by_cases h2 : a_status.id = b_status.id
      · have h2' := hmul.2 h2
        simp [h1, h2]
      · have h2' : ¬ ((a_status.id - b_status.id) * sort_direction = 0) := fun e => h2 (hmul.1 e)
        simp [h1, h2, h2']
    · have h1' : ¬ (a_status.natural_index - b_status.natural_index = 0) := by omega
      simp [h1, h1']
  refine ⟨_, hkey sort_direction, hvalue, ?_, ?_⟩
  · rw [hvalue]
    by_cases h1 : a_status.natural_index = b_status.natural_index
    · by_cases h2 : a_status.id = b_status.id
      · simp [h1, h2]
      · simp only [h1, h2, ne_eq, not_true_eq_false, not_false_eq_true, if_true, if_false]
        rw [Int.sign_mul]
        rcases hdir with h | h <;> subst h <;> rfl
    · simp [h1]
  · intro hne
    rw [hkey, hkey]
    have h1' : ¬ (to_int (a_status.natural_index - b_status.natural_index) = 0) := by
      rw [hni]; omega
    simp only [if_neg h1']

/-- C12, at two tasks whose statuses share the natural index 3 and have the ids
5 and 9, descending. -/
theorem status_comparator_keys_witness :
    ((status_task 1 (sample_status 5 3)).cached_status = some (sample_status 5 3) ∧
      (status_task 2 (sample_status 9 3)).cached_status = some (sample_status 9 3) ∧
      (Sort_Direction_Reverse = Sort_Direction_Normal ∨
        Sort_Direction_Reverse = Sort_Direction_Reverse) ∧
      (-2147483648 ≤ (sample_status 5 3).natural_index - (sample_status 9 3).natural_index ∧
        (sample_status 5 3).natural_index - (sample_status 9 3).natural_index < 2147483648) ∧
      (-2147483648 < (sample_status 5 3).id - (sample_status 9 3).id ∧
        (sample_status 5 3).id - (sample_status 9 3).id < 2147483648) ∧
      (-2147483648 ≤ (status_task 1 (sample_status 5 3)).source_task.id
          - (status_task 2 (sample_status 9 3)).source_task.id ∧
        (status_task 1 (sample_status 5 3)).source_task.id
          - (status_task 2 (sample_status 9 3)).source_task.id < 2147483648)) ∧
    compare_folder_tasks_based_on_status Sort_Direction_Reverse
      (status_task 1 (sample_status 5 3)) (status_task 2 (sample_status 9 3)) = some 4 := by
  refine ⟨⟨rfl, rfl, by decide, by decide, by decide, by decide⟩, ?_⟩
  obtain ⟨result, h1, h2, -, -⟩ := status_comparator_keys Sort_Direction_Reverse
    (status_task 1 (sample_status 5 3)) (status_task 2 (sample_status 9 3))
    (sample_status 5 3) (sample_status 9 3) rfl rfl (by decide) (by decide) (by decide) (by decide)
  rw [h1, h2]
  decide

/-- C13 fails on the code: with the direction Reverse, for a task `a` that has a
value for the sort custom field and a task `b` that has none, the CustomField
comparator returns +1 for `(a, b)` and -1 for `(b, a)`: the result of
`compare_tasks_custom_fields` for a missing value is multiplied by the
direction like any other, so the task missing the field sorts before the
other.  (Under Normal the results are -1 and +1.) -/
theorem custom_field_comparator_missing_follows_direction (string_atoi : Str → Int)
    (sort_custom_field_id : Custom_Field_Id) (field : Custom_Field)
    (a b : Sorted_Folder_Task) (a_value : Str)
    (ha : find_sort_custom_field_value sort_custom_field_id a.source_task.custom_field_values
      = some a_value)
    (hb : find_sort_custom_field_value sort_custom_field_id b.source_task.custom_field_values
      = none) :
    compare_folder_tasks_based_on_custom_field string_atoi Sort_Direction_Reverse
      sort_custom_field_id (some field) a b = some 1 ∧
    compare_folder_tasks_based_on_custom_field string_atoi Sort_Direction_Reverse
      sort_custom_field_id (some field) b a = some (-1) ∧
    compare_folder_tasks_based_on_custom_field string_atoi Sort_Direction_Normal
      sort_custom_field_id (some field) a b = some (-1) ∧
    compare_folder_tasks_based_on_custom_field string_atoi Sort_Direction_Normal
      sort_custom_field_id (some field) b a = some 1 := by
  have e1 : to_int (-1 * Sort_Direction_Reverse) = 1 := by decide
  have e2 : to_int (1 * Sort_Direction_Reverse) = -1 := by decide
  have e3 : to_int (-1 * Sort_Direction_Normal) = -1 := by decide
  have e4 : to_int (1 * Sort_Direction_Normal) = 1 := by decide
  unfold compare_folder_tasks_based_on_custom_field compare_tasks_custom_fields
  simp only [ha, hb, e1, e2, e3, e4]
  have p1 : ¬ ((1 : Int) = 0) := by decide
  have p2 : ¬ ((-1 : Int) = 0) := by decide
  exact ⟨if_neg p1, if_neg p2, if_neg p2, if_neg p1⟩

/-- C13 fails at task 1 with the value "5" for the numeric field 7 and task 2
without a value, descending. -/
theorem custom_field_comparator_missing_follows_direction_witness :
    (find_sort_custom_field_value 7 (valued_task 1 7 [53]).source_task.custom_field_values
        = some [53] ∧
      find_sort_custom_field_value 7 (titled_task 2 []).source_task.custom_field_values = none) ∧
    (compare_folder_tasks_based_on_custom_field sample_atoi Sort_Direction_Reverse 7
        (some sample_numeric_field) (valued_task 1 7 [53]) (titled_task 2 []) = some 1 ∧
      compare_folder_tasks_based_on_custom_field sample_atoi Sort_Direction_Reverse 7
        (some sample_numeric_field) (titled_task 2 []) (valued_task 1 7 [53]) = some (-1) ∧
      compare_folder_tasks_based_on_custom_field sample_atoi Sort_Direction_Normal 7
        (some sample_numeric_field) (valued_task 1 7 [53]) (titled_task 2 []) = some (-1) ∧
      compare_folder_tasks_based_on_custom_field sample_atoi Sort_Direction_Normal 7
        (some sample_numeric_field) (titled_task 2 []) (valued_task 1 7 [53]) = some 1) :=
  ⟨⟨by decide, by decide⟩,
    custom_field_comparator_missing_follows_direction sample_atoi 7 sample_numeric_field
      (valued_task 1 7 [53]) (titled_task 2 []) [53] (by decide) (by decide)⟩

/-- The lookup of `compare_tasks_custom_fields` stops at the first entry with
the field id. -/
theorem find_sort_custom_field_value_first (sort_custom_field_id : Custom_Field_Id)
    (before after : List Custom_Field_Value) (entry : Custom_Field_Value)
    (hbefore : ∀ e ∈ before, e.field_id ≠ sort_custom_field_id)
    (hentry : entry.field_id = sort_custom_field_id) :
    find_sort_custom_field_value sort_custom_field_id (before ++ entry :: after)
      = some entry.value := by
  induction before with
  | nil =>
    simp only [List.nil_append]
    unfold find_sort_custom_field_value
    rw [if_pos hentry]
  | cons e es ih =>
    simp only [List.cons_append]
    unfold find_sort_custom_field_value
    rw [if_neg (hbefore e (List.mem_cons_self _ _))]
    exact ih (fun x hx => hbefore x (List.mem_cons_of_mem _ hx))

/-- C14, as stated, fails: for the Numeric field 7 and two tasks with the
values "2000000000" and "-2000000000", the CustomField comparator returns
-294967296 under Normal and 294967296 under Reverse, while the direction times
the sign of the difference of the parsed integers is +1 under Normal and -1
under Reverse: the difference of the parsed integers is an `int` and wraps. -/
theorem custom_field_comparator_numeric_counterexample :
    sample_signed_atoi [50, 48, 48, 48, 48, 48, 48, 48, 48, 48] = 2000000000 ∧
    sample_signed_atoi [45, 50, 48, 48, 48, 48, 48, 48, 48, 48, 48] = -2000000000 ∧
    compare_folder_tasks_based_on_custom_field sample_signed_atoi Sort_Direction_Normal 7
      (some sample_numeric_field)
      (valued_task 1 7 [50, 48, 48, 48, 48, 48, 48, 48, 48, 48])
      (valued_task 2 7 [45, 50, 48, 48, 48, 48, 48, 48, 48, 48, 48]) = some (-294967296) ∧
    compare_folder_tasks_based_on_custom_field sample_signed_atoi Sort_Direction_Reverse 7
      (some sample_numeric_field)
      (valued_task 1 7 [50, 48, 48, 48, 48, 48, 48, 48, 48, 48])
      (valued_task 2 7 [45, 50, 48, 48, 48, 48, 48, 48, 48, 48, 48]) = some 294967296 ∧
    Int.sign (-294967296) ≠
      Sort_Direction_Normal * Int.sign
        (sample_signed_atoi [50, 48, 48, 48, 48, 48, 48, 48, 48, 48]
          - sample_signed_atoi [45, 50, 48, 48, 48, 48, 48, 48, 48, 48, 48]) := by
  decide

/-- C14, amended: for every two tasks that both have a value for a Numeric
sort custom field, the direction being Normal (+1) or Reverse (-1), the
difference of the two parsed integers lying strictly between -2^31 and 2^31
and the difference of the task ids being representable in `int` (at least
-2^31 and below 2^31), the CustomField comparator returns the direction times
the difference of the two parsed integers, so its sign is the direction times
the sign of that difference; when the parsed integers are equal it returns the
difference of the task ids; the value used for a task is that of the first
entry of its value list with the field id.  `string_atoi` is declared outside
the sources and is a parameter. -/
theorem custom_field_comparator_numeric (string_atoi : Str → Int) (sort_direction : Int)
    (sort_custom_field_id : Custom_Field_Id) (field : Custom_Field)
    (a b : Sorted_Folder_Task)
    (a_before a_after b_before b_after : List Custom_Field_Value)
    (a_entry b_entry : Custom_Field_Value)
    (htype : field.type = Custom_Field_Type.Numeric)
    (hdir : sort_direction = Sort_Direction_Normal ∨ sort_direction = Sort_Direction_Reverse)
    (ha : a.source_task.custom_field_values = a_before ++ a_entry :: a_after)
    (ha_before : ∀ e ∈ a_before, e.field_id ≠ sort_custom_field_id)
    (ha_entry : a_entry.field_id = sort_custom_field_id)
    (hb : b.source_task.custom_field_values = b_before ++ b_entry :: b_after)
    (hb_before : ∀ e ∈ b_before, e.field_id ≠ sort_custom_field_id)
    (hb_entry : b_entry.field_id = sort_custom_field_id)
    (hvalue : -2147483648 < string_atoi a_entry.value - string_atoi b_entry.value ∧
      string_atoi a_entry.value - string_atoi b_entry.value < 2147483648)
    (hid : -2147483648 ≤ a.source_task.id - b.source_task.id ∧
      a.source_task.id - b.source_task.id < 2147483648) :
    ∃ result, compare_folder_tasks_based_on_custom_field string_atoi sort_direction
        sort_custom_field_id (some field) a b = some result ∧
      (string_atoi a_entry.value ≠ string_atoi b_entry.value →
        result = (string_atoi a_entry.value - string_atoi b_entry.value) * sort_direction ∧
        Int.sign result
          = sort_direction * Int.sign (string_atoi a_entry.value - string_atoi b_entry.value)) ∧
      (string_atoi a_entry.value = string_atoi b_entry.value →
        result = a.source_task.id - b.source_task.id ∧
        Int.sign result = Int.sign (a.source_task.id - b.source_task.id)) := by
  have hfa := find_sort_custom_field_value_first sort_custom_field_id a_before a_after a_entry
    ha_before ha_entry
  have hfb := find_sort_custom_field_value_first sort_custom_field_id b_before b_after b_entry
    hb_before hb_entry
  rw [← ha] at hfa
  rw [← hb] at hfb
  have htid : to_int (a.source_task.id - b.source_task.id)
      = a.source_task.id - b.source_task.id := by
    have h1 := hid.1
    have h2 := hid.2
    unfold to_int
    unfold Task_Id at *
    omega
  have hv1 : to_int (string_atoi a_entry.value - string_atoi b_entry.value)
      = string_atoi a_entry.value - string_atoi b_entry.value :=
    to_int_of_fits _ (by omega) hvalue.2
  have hv2 : to_int ((string_atoi a_entry.value - string_atoi b_entry.value) * sort_direction)
      = (string_atoi a_entry.value - string_atoi b_entry.value) * sort_direction := by
    have h1 := hvalue.1
    have h2 := hvalue.2
    unfold to_int
    rcases hdir with h | h <;> subst h <;>
      simp only [Sort_Direction_Normal, Sort_Direction_Reverse] <;> omega
  have hmul : (string_atoi a_entry.value - string_atoi b_entry.value) * sort_direction = 0 ↔
      string_atoi a_entry.value = string_atoi b_entry.value := by
    rcases hdir with h | h <;> subst h <;>
      simp only [Sort_Direction_Normal, Sort_Direction_Reverse] <;> omega
  have hcmp : compare_folder_tasks_based_on_custom_field string_atoi sort_direction
      sort_custom_field_id (some field) a b
      = some (if (string_atoi a_entry.value - string_atoi b_entry.value) * sort_direction = 0
          then a.source_task.id - b.source_task.id
          else (string_atoi a_entry.value - string_atoi b_entry.value) * sort_direction) := by
    unfold compare_folder_tasks_based_on_custom_field compare_tasks_custom_fields
    simp only [hfa, hfb, htype, hv1, hv2, htid]
    split_ifs <;> rfl
  refine ⟨_, hcmp, ?_, ?_⟩
  · intro hne
    have hne' : ¬ ((string_atoi a_entry.value - string_atoi b_entry.value) * sort_direction = 0) :=
      fun e => hne (hmul.1 e)
    rw [if_neg hne']
    refine ⟨rfl, ?_⟩
    rw [Int.sign_mul, Int.mul_comm]
    rcases hdir with h | h <;> subst h <;> rfl
  · intro heq
    rw [if_pos (hmul.2 heq)]
    exact ⟨rfl, rfl⟩

/-- C14, at task 1 whose value list holds "12" and then "99" for field 7 and
task 2 with "5", descending: the first entry is used and the result is
`(12 - 5) * -1`. -/
theorem custom_field_comparator_numeric_witness :
    (sample_numeric_field.type = Custom_Field_Type.Numeric ∧
      (Sort_Direction_Reverse = Sort_Direction_Normal ∨
        Sort_Direction_Reverse = Sort_Direction_Reverse) ∧
      ({ valued_task 1 7 [49, 50] with
          source_task :=
            { (valued_task 1 7 [49, 50]).source_task with
              custom_field_values :=
                [{ field_id := 3, value := [55] }, { field_id := 7, value := [49, 50] },
                  { field_id := 7, value := [57, 57] }] } } : Sorted_Folder_Task
        ).source_task.custom_field_values
        = [{ field_id := 3, value := [55] }] ++ { field_id := 7, value := [49, 50] }
            :: [{ field_id := 7, value := [57, 57] }] ∧
      (valued_task 2 7 [53]).source_task.custom_field_values
        = [] ++ { field_id := 7, value := [53] } :: []) ∧
    compare_folder_tasks_based_on_custom_field sample_atoi Sort_Direction_Reverse 7
      (some sample_numeric_field)
      { valued_task 1 7 [49, 50] with
        source_task :=
          { (valued_task 1 7 [49, 50]).source_task with
            custom_field_values :=
              [{ field_id := 3, value := [55] }, { field_id := 7, value := [49, 50] },
                { field_id := 7, value := [57, 57] }] } }
      (valued_task 2 7 [53]) = some (-7) := by
  refine ⟨⟨rfl, by decide, rfl, rfl⟩, ?_⟩
  obtain ⟨result, h1, h2, -⟩ := custom_field_comparator_numeric sample_atoi
    Sort_Direction_Reverse 7 sample_numeric_field
    { valued_task 1 7 [49, 50] with
      source_task :=
        { (valued_task 1 7 [49, 50]).source_task with
          custom_field_values :=
            [{ field_id := 3, value := [55] }, { field_id := 7, value := [49, 50] },
              { field_id := 7, value := [57, 57] }] } }
    (valued_task 2 7 [53])
    [{ field_id := 3, value := [55] }] [{ field_id := 7, value := [57, 57] }] [] []
    { field_id := 7, value := [49, 50] } { field_id := 7, value := [53] }
    rfl (by decide) rfl (by decide) rfl rfl (by decide) rfl (by decide) (by decide)
  rw [h1, (h2 (by decide)).1]
  decide

/-- C17: when the active-only filter is on, for every task whose cached status
is not in the Active group, a call of
`rebuild_flattened_task_tree_hierarchically` on that task returns 0 and leaves
the row block and the write cursor as they were, whatever the expand flags, the
statuses and the children of the task and of its descendants are: it returns
with a depth bound of one call, so no child is visited. -/
theorem rebuild_skips_filtered_out_task (s : State) (fuel task : Nat)
    (is_parent_expanded : Bool) (level : Nat) (buffer : List Flattened_Folder_Task × Nat)
    (t : Sorted_Folder_Task) (status : Custom_Status)
    (hshow : s.show_only_active_tasks = true)
    (ht : s.sorted_folder_tasks[task]? = some t)
    (hstatus : t.cached_status = some status)
    (hgroup : status.group ≠ Status_Group.Active) :
    rebuild_flattened_task_tree_hierarchically s (fuel + 1) task is_parent_expanded level buffer
      = some (0, buffer) ∧
    rebuild_flattened_task_tree_hierarchically s 1 task is_parent_expanded level buffer
      = some (0, buffer) := by
  have key : ∀ n, rebuild_flattened_task_tree_hierarchically s (n + 1) task is_parent_expanded
      level buffer = some (0, buffer) := by
    intro n
    unfold rebuild_flattened_task_tree_hierarchically
    rw [ht]
    simp only [hshow, hstatus, if_true]
    rw [decide_eq_true hgroup]
  exact ⟨key fuel, key 0⟩

/-- C17, at a task with a Completed status that is expanded and has itself as
its two children. -/
theorem rebuild_skips_filtered_out_task_witness :
    (filtered_state.show_only_active_tasks = true ∧
      filtered_state.sorted_folder_tasks[0]?
        = some { status_task 1 { sample_status 5 3 with group := Status_Group.Completed } with
            num_sub_tasks := 2
            is_expanded := true } ∧
      ({ status_task 1 { sample_status 5 3 with group := Status_Group.Completed } with
          num_sub_tasks := 2
          is_expanded := true } : Sorted_Folder_Task).cached_status
        = some { sample_status 5 3 with group := Status_Group.Completed } ∧
      ({ sample_status 5 3 with group := Status_Group.Completed } : Custom_Status).group
        ≠ Status_Group.Active) ∧
    (rebuild_flattened_task_tree_hierarchically filtered_state (4 + 1) 0 true 0
        (filtered_state.flattened_data, 0) = some (0, (filtered_state.flattened_data, 0)) ∧
      rebuild_flattened_task_tree_hierarchically filtered_state 1 0 true 0
        (filtered_state.flattened_data, 0) = some (0, (filtered_state.flattened_data, 0))) :=
  ⟨⟨rfl, rfl, rfl, by decide⟩,
    rebuild_skips_filtered_out_task filtered_state 4 0 true 0 (filtered_state.flattened_data, 0)
      _ _ rfl rfl rfl (by decide)⟩

/-- The comparators break ties on the values named `*_result_before_tie_break`. -/
theorem comparators_tie_break (string_atoi : Str → Int) (sort_direction : Int)
    (sort_custom_field_id : Custom_Field_Id) (field : Custom_Field)
    (a b : Sorted_Folder_Task) :
    compare_folder_tasks_based_on_title sort_direction a b
      = (if title_result_before_tie_break sort_direction a b = 0
          then to_int (a.source_task.id - b.source_task.id)
          else title_result_before_tie_break sort_direction a b) ∧
    compare_folder_tasks_based_on_custom_field string_atoi sort_direction sort_custom_field_id
        (some field) a b
      = some (if custom_field_result_before_tie_break string_atoi sort_direction
            sort_custom_field_id field a b = 0
          then to_int (a.source_task.id - b.source_task.id)
          else custom_field_result_before_tie_break string_atoi sort_direction
            sort_custom_field_id field a b) ∧
    (∀ a_status b_status, a.cached_status = some a_status → b.cached_status = some b_status →
      compare_folder_tasks_based_on_status sort_direction a b
        = some (if status_result_before_tie_break sort_direction a_status b_status = 0
            then to_int (a.source_task.id - b.source_task.id)
            else status_result_before_tie_break sort_direction a_status b_status)) ∧
    (a.cached_first_assignee.isSome = true ∧ b.cached_first_assignee.isSome = true →
      compare_folder_tasks_based_on_assignees sort_direction a b
        = (if assignees_result_before_tie_break sort_direction a b = 0
            then to_int (a.source_task.id - b.source_task.id)
            else assignees_result_before_tie_break sort_direction a b)) ∧
    (¬ (a.cached_first_assignee.isSome = true ∧ b.cached_first_assignee.isSome = true) →
      compare_folder_tasks_based_on_assignees sort_direction a b
        = assignees_result_before_tie_break sort_direction a b) := by
  refine ⟨rfl, ?_, ?_, ?_, ?_⟩
  · unfold compare_folder_tasks_based_on_custom_field custom_field_result_before_tie_break
    simp only []
    split_ifs <;> rfl
  · intro a_status b_status ha hb
    unfold compare_folder_tasks_based_on_status status_result_before_tie_break
    rw [ha, hb]
    simp only []
    split_ifs <;> simp_all
  · rintro ⟨ha, hb⟩
    obtain ⟨ua, hua⟩ := Option.isSome_iff_exists.1 ha
    obtain ⟨ub, hub⟩ := Option.isSome_iff_exists.1 hb
    unfold compare_folder_tasks_based_on_assignees assignees_result_before_tie_break
    rw [hua, hub]
  · intro hnot
    unfold compare_folder_tasks_based_on_assignees assignees_result_before_tie_break
    cases hua : a.cached_first_assignee with
    | none => rfl
    | some ua =>
      cases hub : b.cached_first_assignee with
      | none => rfl
      | some ub =>
        exfalso
        apply hnot
        rw [hua, hub]
        exact ⟨rfl, rfl⟩

/-- C16, as stated, fails: for two tasks whose statuses have the natural
indices 1 and 2, the Status comparator's result before the task-id tie-break is
-1 under Normal and -1 under Reverse, not its negation (the comparator itself
returns -1 under both directions). -/
theorem direction_negates_result_counterexample :
    status_result_before_tie_break Sort_Direction_Reverse (sample_status 5 1) (sample_status 9 2)
      ≠ - status_result_before_tie_break Sort_Direction_Normal (sample_status 5 1)
          (sample_status 9 2) ∧
    compare_folder_tasks_based_on_status Sort_Direction_Normal
      (status_task 1 (sample_status 5 1)) (status_task 2 (sample_status 9 2)) = some (-1) ∧
    compare_folder_tasks_based_on_status Sort_Direction_Reverse
      (status_task 1 (sample_status 5 1)) (status_task 2 (sample_status 9 2)) = some (-1) := by
  decide

theorem to_int_neg (x : Int) (h1 : -2147483648 < x) (h2 : x < 2147483648) :
    to_int (x * Sort_Direction_Reverse) = - to_int (x * Sort_Direction_Normal) := by
  unfold to_int Sort_Direction_Reverse Sort_Direction_Normal
  omega

theorem to_int_tie (x : Int) :
    to_int (x * Sort_Direction_Normal) = 0 ↔ to_int (x * Sort_Direction_Reverse) = 0 := by
  unfold to_int Sort_Direction_Reverse Sort_Direction_Normal
  omega

/-- C16, amended: for the directions Normal and Reverse and every two tasks,
with the difference of the natural indices representable in 32 bits and the
difference of the status ids and the result of the custom-field comparison
strictly between -2^31 and 2^31: under Reverse the result before the task-id
tie-break is the negation of the result under Normal for Title, for
CustomField when both tasks have a value for the sort field, for Assignee when
both tasks have a first assignee, and for Status when the natural indices are
equal; it is the same nonzero value under both directions for Assignee when
exactly one of the two tasks has a first assignee and for Status when the
natural indices differ; in each of these cases the two tasks are tied under
one direction exactly when they are tied under the other.  Pairs where both
tasks lack a first assignee, or where a task lacks a value for the sort field,
are left out. -/
theorem direction_negates_or_keeps_result (string_atoi : Str → Int)
    (sort_custom_field_id : Custom_Field_Id) (field : Custom_Field)
    (a b : Sorted_Folder_Task) (a_status b_status : Custom_Status)
    (hcustom : -2147483648 < compare_tasks_custom_fields string_atoi sort_custom_field_id
        a.source_task b.source_task field.type ∧
      compare_tasks_custom_fields string_atoi sort_custom_field_id
        a.source_task b.source_task field.type < 2147483648)
    (hindex : -2147483648 ≤ a_status.natural_index - b_status.natural_index ∧
      a_status.natural_index - b_status.natural_index < 2147483648)
    (hstatus : -2147483648 < a_status.id - b_status.id ∧ a_status.id - b_status.id < 2147483648) :
    (title_result_before_tie_break Sort_Direction_Reverse a b
        = - title_result_before_tie_break Sort_Direction_Normal a b ∧
      (title_result_before_tie_break Sort_Direction_Normal a b = 0 ↔
        title_result_before_tie_break Sort_Direction_Reverse a b = 0)) ∧
    ((find_sort_custom_field_value sort_custom_field_id
            a.source_task.custom_field_values).isSome = true ∧
        (find_sort_custom_field_value sort_custom_field_id
            b.source_task.custom_field_values).isSome = true →
      custom_field_result_before_tie_break string_atoi Sort_Direction_Reverse
          sort_custom_field_id field a b
        = - custom_field_result_before_tie_break string_atoi Sort_Direction_Normal
            sort_custom_field_id field a b ∧
      (custom_field_result_before_tie_break string_atoi Sort_Direction_Normal
          sort_custom_field_id field a b = 0 ↔
        custom_field_result_before_tie_break string_atoi Sort_Direction_Reverse
          sort_custom_field_id field a b = 0)) ∧
    ((a.cached_first_assignee.isSome = true ∧ b.cached_first_assignee.isSome = true →
        assignees_result_before_tie_break Sort_Direction_Reverse a b
          = - assignees_result_before_tie_break Sort_Direction_Normal a b ∧
        (assignees_result_before_tie_break Sort_Direction_Normal a b = 0 ↔
          assignees_result_before_tie_break Sort_Direction_Reverse a b = 0)) ∧
      (a.cached_first_assignee.isSome ≠ b.cached_first_assignee.isSome →
        assignees_result_before_tie_break Sort_Direction_Reverse a b
          = assignees_result_before_tie_break Sort_Direction_Normal a b ∧
        assignees_result_before_tie_break Sort_Direction_Normal a b ≠ 0 ∧
        assignees_result_before_tie_break Sort_Direction_Reverse a b ≠ 0)) ∧
    ((a_status.natural_index = b_status.natural_index →
        status_result_before_tie_break Sort_Direction_Reverse a_status b_status
          = - status_result_before_tie_break Sort_Direction_Normal a_status b_status ∧
        (status_result_before_tie_break Sort_Direction_Normal a_status b_status = 0 ↔
          status_result_before_tie_break Sort_Direction_Reverse a_status b_status = 0)) ∧
      (a_status.natural_index ≠ b_status.natural_index →
        status_result_before_tie_break Sort_Direction_Reverse a_status b_status
          = status_result_before_tie_break Sort_Direction_Normal a_status b_status ∧
        status_result_before_tie_break Sort_Direction_Normal a_status b_status ≠ 0 ∧
        status_result_before_tie_break Sort_Direction_Reverse a_status b_status ≠ 0)) := by
  have hneg : ∀ x : Int, x * Sort_Direction_Reverse = - (x * Sort_Direction_Normal) := by
    intro x
    unfold Sort_Direction_Reverse Sort_Direction_Normal
    omega
  have hzero : ∀ x : Int, x * Sort_Direction_Normal = 0 ↔ x * Sort_Direction_Reverse = 0 := by
    intro x
    unfold Sort_Direction_Reverse Sort_Direction_Normal
    omega
  have hfit : to_int (a_status.natural_index - b_status.natural_index)
      = a_status.natural_index - b_status.natural_index :=
    to_int_of_fits _ hindex.1 hindex.2
  refine ⟨⟨?_, ?_⟩, ?_, ⟨?_, ?_⟩, ⟨?_, ?_⟩⟩
  · unfold title_result_before_tie_break
    exact hneg _
  · unfold title_result_before_tie_break
    exact hzero _
  · intro _
    unfold custom_field_result_before_tie_break
    exact ⟨to_int_neg _ hcustom.1 hcustom.2, to_int_tie _⟩
  · rintro ⟨ha, hb⟩
    obtain ⟨ua, hua⟩ := Option.isSome_iff_exists.1 ha
    obtain ⟨ub, hub⟩ := Option.isSome_iff_exists.1 hb
    unfold assignees_result_before_tie_break
    rw [hua, hub]
    exact ⟨hneg _, hzero _⟩
  · intro hone
    unfold assignees_result_before_tie_break
    cases hua : a.cached_first_assignee with
    | none =>
      refine ⟨rfl, ?_, ?_⟩
      · show (1 : Int) ≠ 0
        decide
      · show (1 : Int) ≠ 0
        decide
    | some ua =>
      cases hub : b.cached_first_assignee with
      | none =>
        refine ⟨rfl, ?_, ?_⟩
        · show (-1 : Int) ≠ 0
          decide
        · show (-1 : Int) ≠ 0
          decide
      | some ub =>
        exfalso
        apply hone
        rw [hua, hub]
        rfl
  · intro heq
    have h0 : to_int (a_status.natural_index - b_status.natural_index) = 0 := by
      rw [hfit]
      omega
    unfold status_result_before_tie_break
    rw [if_pos h0, if_pos h0]
    have h1 := hstatus.1
    have h2 := hstatus.2
    unfold Custom_Status_Id at *
    exact ⟨to_int_neg _ h1 h2, to_int_tie _⟩
  · intro hne
    have h0 : to_int (a_status.natural_index - b_status.natural_index) ≠ 0 := by
      rw [hfit]
      omega
    unfold status_result_before_tie_break
    rw [if_neg h0, if_neg h0]
    exact ⟨rfl, h0, h0⟩

/-- C16 amended, at two tasks with the values "12" and "5" for the Numeric
field 7 and two statuses that share the natural index 3: the CustomField and
Status results before the tie-break are negated under Reverse. -/
theorem direction_negates_or_keeps_result_witness :
    ((-2147483648 < compare_tasks_custom_fields sample_atoi 7
          (valued_task 1 7 [49, 50]).source_task (valued_task 2 7 [53]).source_task
          sample_numeric_field.type ∧
        compare_tasks_custom_fields sample_atoi 7
          (valued_task 1 7 [49, 50]).source_task (valued_task 2 7 [53]).source_task
          sample_numeric_field.type < 2147483648) ∧
      (-2147483648 ≤ (sample_status 5 3).natural_index - (sample_status 9 3).natural_index ∧
        (sample_status 5 3).natural_index - (sample_status 9 3).natural_index < 2147483648) ∧
      (-2147483648 < (sample_status 5 3).id - (sample_status 9 3).id ∧
        (sample_status 5 3).id - (sample_status 9 3).id < 2147483648)) ∧
    custom_field_result_before_tie_break sample_atoi Sort_Direction_Reverse 7
        sample_numeric_field (valued_task 1 7 [49, 50]) (valued_task 2 7 [53])
      = - custom_field_result_before_tie_break sample_atoi Sort_Direction_Normal 7
          sample_numeric_field (valued_task 1 7 [49, 50]) (valued_task 2 7 [53]) ∧
    status_result_before_tie_break Sort_Direction_Reverse (sample_status 5 3) (sample_status 9 3)
      = - status_result_before_tie_break Sort_Direction_Normal (sample_status 5 3)
          (sample_status 9 3) :=
  ⟨⟨by decide, by decide, by decide⟩,
    ((direction_negates_or_keeps_result sample_atoi 7 sample_numeric_field
      (valued_task 1 7 [49, 50]) (valued_task 2 7 [53]) (sample_status 5 3) (sample_status 9 3)
      (by decide) (by decide) (by decide)).2.1 ⟨by decide, by decide⟩).1,
    ((direction_negates_or_keeps_result sample_atoi 7 sample_numeric_field
      (valued_task 1 7 [49, 50]) (valued_task 2 7 [53]) (sample_status 5 3) (sample_status 9 3)
      (by decide) (by decide) (by decide)).2.2.2.1 rfl).1⟩

/-- C15 fails on the code: the two unassigned tasks, already sorted by assignee,
sorted again with the same field and direction, come out in the other order
(with insertion sort as `qsort`): the Assignee comparator calls every pair of
unassigned tasks out of order, so every pass swaps them. -/
theorem sort_by_assignee_twice_swaps :
    unassigned_by_assignee.sort_field = Task_List_Sort_Field.Assignee ∧
    unassigned_by_assignee.top_level_tasks = [1, 0] ∧
    ∃ s, sort_top_level_tasks_and_rebuild_flattened_tree sample_env 3 unassigned_by_assignee
        = some s ∧
      s.sort_field = unassigned_by_assignee.sort_field ∧
      s.sort_direction = unassigned_by_assignee.sort_direction ∧
      s.top_level_tasks = [0, 1] ∧
      s.top_level_tasks ≠ unassigned_by_assignee.top_level_tasks :=
  ⟨by decide, by decide,
    (sort_top_level_tasks_and_rebuild_flattened_tree sample_env 3 unassigned_by_assignee).getD
      sample_loaded, by decide, by decide, by decide, by decide, by decide⟩

/-! ## The flattener as a list of rows -/

theorem write_rows_length : ∀ (rows data : List Flattened_Folder_Task) (current_task : Nat),
    (write_rows data current_task rows).length = data.length := by
  intro rows
  induction rows with
  | nil => intro data current_task; rfl
  | cons row rows ih =>
    intro data current_task
    unfold write_rows
    rw [ih]
    simp

theorem write_rows_set_comm : ∀ (rows data : List Flattened_Folder_Task) (current_task k : Nat)
    (x : Flattened_Folder_Task), k < current_task →
    (write_rows data current_task rows).set k x = write_rows (data.set k x) current_task rows := by
  intro rows
  induction rows with
  | nil => intro data current_task k x _; rfl
  | cons row rows ih =>
    intro data current_task k x hk
    unfold write_rows
    rw [ih _ _ _ _ (by omega), List.set_comm row x data (by omega : current_task ≠ k)]

theorem write_rows_getElem?_lt : ∀ (rows data : List Flattened_Folder_Task) (current_task k : Nat),
    k < current_task → (write_rows data current_task rows)[k]? = data[k]? := by
  intro rows
  induction rows with
  | nil => intro data current_task k _; rfl
  | cons row rows ih =>
    intro data current_task k hk
    unfold write_rows
    rw [ih _ _ _ (by omega), List.getElem?_set_ne (by omega)]

theorem write_rows_append : ∀ (xs ys data : List Flattened_Folder_Task) (current_task : Nat),
    write_rows data current_task (xs ++ ys)
      = write_rows (write_rows data current_task xs) (current_task + xs.length) ys := by
  intro xs
  induction xs with
  | nil => intro ys data current_task; rfl
  | cons x xs ih =>
    intro ys data current_task
    show write_rows (data.set current_task x) (current_task + 1) (xs ++ ys)
      = write_rows (write_rows (data.set current_task x) (current_task + 1) xs)
          (current_task + (xs.length + 1)) ys
    rw [ih]
    congr 1
    omega

theorem take_set_self {α : Type} (l : List α) (n : Nat) (a : α) :
    (l.set n a).take n = l.take n := by
  apply List.ext_getElem?
  intro j
  rw [List.getElem?_take, List.getElem?_take]
  by_cases hj : j < n
  · rw [if_pos hj, if_pos hj, List.getElem?_set_ne (by omega)]
  · rw [if_neg hj, if_neg hj]

theorem write_rows_take : ∀ (rows data : List Flattened_Folder_Task) (current_task : Nat),
    current_task + rows.length ≤ data.length →
    (write_rows data current_task rows).take (current_task + rows.length)
      = data.take current_task ++ rows := by
  intro rows
  induction rows with
  | nil => intro data current_task _; simp [write_rows]
  | cons row rows ih =>
    intro data current_task h
    simp only [List.length_cons] at h
    unfold write_rows
    have e : current_task + (row :: rows).length = current_task + 1 + rows.length := by
      simp only [List.length_cons]; omega
    rw [e, ih _ _ (by simp only [List.length_set]; omega)]
    have hlt : current_task < data.length := by omega
    rw [List.take_succ, List.getElem?_set_self (by omega), take_set_self]
    simp

theorem set_self_of_getElem? {α : Type} (l : List α) (i : Nat) (x : α) (h : l[i]? = some x) :
    l.set i x = l := by
  apply List.ext_getElem?
  intro j
  by_cases hj : i = j
  · subst hj
    rw [List.getElem?_set_self (lt_of_getElem?_some h), h]
  · rw [List.getElem?_set_ne hj]

/-- The loop over the sub tasks, with the call on one sub task refined by
`visit_rows`: the rows of the sub tasks are written from the cursor on and the
row at `flattened_task`, below the cursor, receives the sum of the results. -/
theorem visit_sub_tasks_eq
    (visit : Nat → List Flattened_Folder_Task × Nat →
      Option (Nat × (List Flattened_Folder_Task × Nat)))
    (visit_rows : Nat → Option (Nat × List Flattened_Folder_Task))
    (hvisit : ∀ sub_task data current_task, current_task ≤ data.length →
      visit sub_task (data, current_task)
        = match visit_rows sub_task with
          | none => none
          | some (count, rows) =>
            if current_task + rows.length ≤ data.length then
              some (count, (write_rows data current_task rows, current_task + rows.length))
            else none)
    (slab : List Nat) (flattened_task : Nat) :
    ∀ (positions : List Nat) (data : List Flattened_Folder_Task) (current_task : Nat)
      (row : Flattened_Folder_Task),
      data[flattened_task]? = some row → flattened_task < current_task →
      current_task ≤ data.length →
      visit_sub_tasks visit slab flattened_task positions (data, current_task)
        = match rows_of_sub_tasks visit_rows (positions.map (fun position => slab[position]?)) with
          | none => none
          | some (count, rows) =>
            if current_task + rows.length ≤ data.length then
              some (write_rows
                  (data.set flattened_task
                    { row with num_visible_sub_tasks := row.num_visible_sub_tasks + count })
                  current_task rows,
                current_task + rows.length)
            else none := by
  intro positions
  induction positions with
  | nil =>
    intro data current_task row hrow hft hcur
    simp only [visit_sub_tasks, List.map_nil, rows_of_sub_tasks, List.length_nil, Nat.add_zero,
      if_pos hcur, write_rows]
    rw [set_self_of_getElem? _ _ _ hrow]
  | cons position rest ih =>
    intro data current_task row hrow hft hcur
    simp only [List.map_cons]
    unfold visit_sub_tasks
    cases hslab : slab[position]? with
    | none => simp only [rows_of_sub_tasks]
    | some sub_task =>
      simp only [rows_of_sub_tasks]
      rw [hvisit sub_task data current_task hcur]
      cases hv : visit_rows sub_task with
      | none => rfl
      | some result =>
        obtain ⟨count, rows⟩ := result
        simp only []
        by_cases hroom : current_task + rows.length ≤ data.length
        · rw [if_pos hroom]
          simp only []
          have hget : (write_rows data current_task rows)[flattened_task]? = some row := by
            rw [write_rows_getElem?_lt _ _ _ _ hft, hrow]
          unfold add_visible_sub_tasks
          rw [hget]
          simp only []
          rw [write_rows_set_comm _ _ _ _ _ hft]
          have hrow1 : (write_rows
              (data.set flattened_task
                { row with num_visible_sub_tasks := row.num_visible_sub_tasks + count })
              current_task rows)[flattened_task]?
              = some { row with num_visible_sub_tasks := row.num_visible_sub_tasks + count } := by
            rw [write_rows_getElem?_lt _ _ _ _ hft,
              List.getElem?_set_self (lt_of_getElem?_some hrow)]
          rw [ih _ _ _ hrow1 (by omega) (by rw [write_rows_length, List.length_set]; exact hroom)]
          cases hr : rows_of_sub_tasks visit_rows (rest.map (fun position => slab[position]?)) with
          | none => rfl
          | some result' =>
            obtain ⟨count', rows'⟩ := result'
            simp only [write_rows_length, List.length_set, List.length_append]
            by_cases hroom' : current_task + rows.length + rows'.length ≤ data.length
            · rw [if_pos hroom', if_pos (by omega)]
              rw [write_rows_append, write_rows_set_comm _ _ _ _ _ hft, List.set_set]
              simp only [Nat.add_assoc]
            · rw [if_neg hroom', if_neg (by omega)]
        · rw [if_neg hroom]
          simp only []
          cases hr : rows_of_sub_tasks visit_rows (rest.map (fun position => slab[position]?)) with
          | none => rfl
          | some result' =>
            obtain ⟨count', rows'⟩ := result'
            simp only [List.length_append]
            rw [if_neg (by omega)]

/-- The recursive flattener writes, from the cursor on, the rows `rows_of`
lists, and returns the value `rows_of` gives; it faults exactly when `rows_of`
does or the rows do not fit the block. -/
theorem rebuild_eq_rows_of (s : State) :
    ∀ (fuel task : Nat) (is_parent_expanded : Bool) (level : Nat)
      (data : List Flattened_Folder_Task) (current_task : Nat),
      current_task ≤ data.length →
      rebuild_flattened_task_tree_hierarchically s fuel task is_parent_expanded level
          (data, current_task)
        = match rows_of s fuel task is_parent_expanded level with
          | none => none
          | some (count, rows) =>
            if current_task + rows.length ≤ data.length then
              some (count, (write_rows data current_task rows, current_task + rows.length))
            else none := by
  intro fuel
  induction fuel with
  | zero =>
    intro task is_parent_expanded level data current_task _
    rfl
  | succ fuel ih =>
    intro task is_parent_expanded level data current_task hcur
    unfold rebuild_flattened_task_tree_hierarchically rows_of filtered_out
    cases ht : s.sorted_folder_tasks[task]? with
    | none => rfl
    | some t =>
      simp only []
      have key :
          (if is_parent_expanded = true then
            if current_task < data.length then
              match visit_sub_tasks
                  (fun sub_task buffer =>
                    rebuild_flattened_task_tree_hierarchically s fuel sub_task t.is_expanded
                      (level + 1) buffer)
                  s.sub_tasks current_task
                  ((List.range t.num_sub_tasks).map (fun index => t.sub_tasks + index))
                  (data.set current_task
                    { sorted_task := task, nesting_level := level,
                      num_visible_sub_tasks := 0, needs_sub_task_sort := true },
                    current_task + 1) with
              | none => none
              | some buffer => some (1, buffer)
            else none
          else some (1, (data, current_task)))
          = match (if is_parent_expanded = true then
                match rows_of_sub_tasks
                    (fun sub_task => rows_of s fuel sub_task t.is_expanded (level + 1))
                    ((List.range t.num_sub_tasks).map
                      (fun index => s.sub_tasks[t.sub_tasks + index]?)) with
                | none => none
                | some (count, rows) =>
                  some (1, { sorted_task := task, nesting_level := level,
                             num_visible_sub_tasks := count,
                             needs_sub_task_sort := true } :: rows)
              else some (1, [])) with
            | none => none
            | some (count, rows) =>
              if current_task + rows.length ≤ data.length then
                some (count, (write_rows data current_task rows, current_task + rows.length))
              else none := by
        by_cases hipe : is_parent_expanded = true
        · rw [if_pos hipe, if_pos hipe]
          by_cases hroom : current_task < data.length
          · rw [if_pos hroom]
            have hv := visit_sub_tasks_eq
              (fun sub_task buffer =>
                rebuild_flattened_task_tree_hierarchically s fuel sub_task t.is_expanded
                  (level + 1) buffer)
              (fun sub_task => rows_of s fuel sub_task t.is_expanded (level + 1))
              (fun sub_task data current_task h =>
                ih sub_task t.is_expanded (level + 1) data current_task h)
              s.sub_tasks current_task
              ((List.range t.num_sub_tasks).map (fun index => t.sub_tasks + index))
              (data.set current_task
                { sorted_task := task, nesting_level := level,
                  num_visible_sub_tasks := 0, needs_sub_task_sort := true })
              (current_task + 1)
              { sorted_task := task, nesting_level := level,
                num_visible_sub_tasks := 0, needs_sub_task_sort := true }
              (List.getElem?_set_self hroom) (by omega)
              (by rw [List.length_set]; omega)
            rw [hv]
            simp only [List.map_map, Function.comp_def]
            cases hr : rows_of_sub_tasks
                (fun sub_task => rows_of s fuel sub_task t.is_expanded (level + 1))
                ((List.range t.num_sub_tasks).map
                  (fun index => s.sub_tasks[t.sub_tasks + index]?)) with
            | none => rfl
            | some result =>
              obtain ⟨count, rows⟩ := result
              simp only [List.length_set, List.length_cons, List.set_set, Nat.zero_add,
                write_rows]
              by_cases hfit : current_task + 1 + rows.length ≤ data.length
              · rw [if_pos hfit, if_pos (by omega)]
                simp only [Nat.add_assoc, Nat.add_comm 1]
              · rw [if_neg hfit, if_neg (by omega)]
          · rw [if_neg hroom]
            cases hr : rows_of_sub_tasks
                (fun sub_task => rows_of s fuel sub_task t.is_expanded (level + 1))
                ((List.range t.num_sub_tasks).map
                  (fun index => s.sub_tasks[t.sub_tasks + index]?)) with
            | none => rfl
            | some result =>
              obtain ⟨count, rows⟩ := result
              simp only [List.length_cons]
              rw [if_neg (by omega)]
        · rw [if_neg hipe, if_neg hipe]
          simp only [List.length_nil, Nat.add_zero, if_pos hcur, write_rows]
      by_cases hshow : s.show_only_active_tasks = true
      · simp only [hshow, if_true]
        cases hc : t.cached_status with
        | none => rfl
        | some status =>
          simp only []
          by_cases hg : status.group ≠ Status_Group.Active
          · simp only [decide_eq_true hg, List.length_nil, Nat.add_zero, if_pos hcur, write_rows]
          · simp only [decide_eq_false hg]
            exact key
      · simp only [hshow]
        exact key

/-- The loop of `rebuild_flattened_task_tree` over the top level tasks. -/
theorem rebuild_fold_eq (s : State) (fuel : Nat)
    (body : List Flattened_Folder_Task × Nat → Nat → Option (List Flattened_Folder_Task × Nat))
    (hbody : ∀ buffer task, body buffer task
      = match rebuild_flattened_task_tree_hierarchically s fuel task true 0 buffer with
        | none => none
        | some (_, buffer) => some buffer) :
    ∀ (tasks : List Nat) (data : List Flattened_Folder_Task) (current_task : Nat),
      current_task ≤ data.length →
      tasks.foldlM body (data, current_task)
        = match rows_of_sub_tasks (fun task => rows_of s fuel task true 0) (tasks.map some) with
          | none => none
          | some (_, rows) =>
            if current_task + rows.length ≤ data.length then
              some (write_rows data current_task rows, current_task + rows.length)
            else none := by
  intro tasks
  induction tasks with
  | nil =>
    intro data current_task hcur
    simp only [List.foldlM_nil, List.map_nil, rows_of_sub_tasks, List.length_nil, Nat.add_zero,
      if_pos hcur, write_rows]
    rfl
  | cons task rest ih =>
    intro data current_task hcur
    rw [List.foldlM_cons, hbody]
    simp only [List.map_cons, rows_of_sub_tasks]
    rw [rebuild_eq_rows_of s fuel task true 0 data current_task hcur]
    cases hv : rows_of s fuel task true 0 with
    | none => rfl
    | some result =>
      obtain ⟨count, rows⟩ := result
      simp only []
      by_cases hroom : current_task + rows.length ≤ data.length
      · rw [if_pos hroom]
        simp only [Option.bind_eq_bind, Option.some_bind]
        rw [ih _ _ (by rw [write_rows_length]; exact hroom)]
        cases hr : rows_of_sub_tasks (fun task => rows_of s fuel task true 0)
            (rest.map some) with
        | none => rfl
        | some result' =>
          obtain ⟨count', rows'⟩ := result'
          simp only [write_rows_length, List.length_append]
          by_cases hroom' : current_task + rows.length + rows'.length ≤ data.length
          · rw [if_pos hroom', if_pos (by omega), write_rows_append]
            simp only [Nat.add_assoc]
          · rw [if_neg hroom', if_neg (by omega)]
      · rw [if_neg hroom]
        simp only [Option.bind_eq_bind, Option.none_bind]
        cases hr : rows_of_sub_tasks (fun task => rows_of s fuel task true 0)
            (rest.map some) with
        | none => rfl
        | some result' =>
          obtain ⟨count', rows'⟩ := result'
          simp only [List.length_append]
          rw [if_neg (by omega)]

/-- The full rebuild writes the rows of `tree_rows` at the start of the block
and sets the length to their number; it faults exactly when `tree_rows` does or
the rows do not fit the block. -/
theorem rebuild_flattened_task_tree_eq (fuel : Nat) (s : State) :
    rebuild_flattened_task_tree fuel s
      = match tree_rows s fuel with
        | none => none
        | some rows =>
          if rows.length ≤ s.flattened_data.length then
            some { s with
              flattened_data := write_rows s.flattened_data 0 rows
              flattened_length := rows.length }
          else none := by
  unfold rebuild_flattened_task_tree tree_rows
  rw [rebuild_fold_eq s fuel]
  rotate_left
  · intro buffer task
    rfl
  · exact Nat.zero_le _
  cases hr : rows_of_sub_tasks (fun task => rows_of s fuel task true 0)
      (s.top_level_tasks.map some) with
  | none => rfl
  | some result =>
    obtain ⟨count, rows⟩ := result
    simp only [Nat.zero_add]
    by_cases hroom : rows.length ≤ s.flattened_data.length
    · rw [if_pos hroom, if_pos hroom]
    · rw [if_neg hroom, if_neg hroom]

/-- A full rebuild that returns leaves the rows of `tree_rows` as the live rows
and touches nothing but the row block and its length. -/
theorem rebuild_flattened_task_tree_rows (fuel : Nat) (s s' : State)
    (h : rebuild_flattened_task_tree fuel s = some s') :
    ∃ rows, tree_rows s fuel = some rows ∧ rows.length ≤ s.flattened_data.length ∧
      flattened_rows s' = rows ∧
      s' = { s with
        flattened_data := write_rows s.flattened_data 0 rows
        flattened_length := rows.length } := by
  rw [rebuild_flattened_task_tree_eq] at h
  cases hr : tree_rows s fuel with
  | none => rw [hr] at h; cases h
  | some rows =>
    rw [hr] at h
    simp only [] at h
    by_cases hroom : rows.length ≤ s.flattened_data.length
    · rw [if_pos hroom] at h
      cases h
      refine ⟨rows, rfl, hroom, ?_, rfl⟩
      unfold flattened_rows
      have := write_rows_take rows s.flattened_data 0 (by omega)
      simp only [Nat.zero_add, List.take_zero, List.nil_append] at this
      exact this
    · rw [if_neg hroom] at h
      cases h

/-- A full rebuild returns when `tree_rows` lists rows that fit the block. -/
theorem rebuild_flattened_task_tree_of_rows (fuel : Nat) (s : State)
    (rows : List Flattened_Folder_Task) (h : tree_rows s fuel = some rows)
    (hroom : rows.length ≤ s.flattened_data.length) :
    ∃ s', rebuild_flattened_task_tree fuel s = some s' ∧ flattened_rows s' = rows ∧
      s' = { s with
        flattened_data := write_rows s.flattened_data 0 rows
        flattened_length := rows.length } := by
  have e : rebuild_flattened_task_tree fuel s = some { s with
      flattened_data := write_rows s.flattened_data 0 rows
      flattened_length := rows.length } := by
    rw [rebuild_flattened_task_tree_eq, h]
    simp only []
    rw [if_pos hroom]
  obtain ⟨rows', h1, _, h3, h4⟩ := rebuild_flattened_task_tree_rows fuel s _ e
  rw [h] at h1
  cases h1
  exact ⟨_, e, h3, rfl⟩

/-- The loop over sub tasks returns the number of visible sub tasks when every
call returns 1 for a visible task and 0 otherwise; a property of all rows of
the calls holds of all rows of the loop. -/
theorem rows_of_sub_tasks_count (s : State)
    (visit : Nat → Option (Nat × List Flattened_Folder_Task))
    (P : Flattened_Folder_Task → Prop)
    (hvisit : ∀ sub_task count rows, visit sub_task = some (count, rows) →
      count = (if is_visible s sub_task = true then 1 else 0) ∧ ∀ row ∈ rows, P row) :
    ∀ (sub_tasks : List (Option Nat)) (count : Nat) (rows : List Flattened_Folder_Task),
      rows_of_sub_tasks visit sub_tasks = some (count, rows) →
      count = ((sub_tasks.filterMap id).filter (is_visible s)).length ∧ ∀ row ∈ rows, P row := by
  intro sub_tasks
  induction sub_tasks with
  | nil =>
    intro count rows h
    simp only [rows_of_sub_tasks, Option.some.injEq, Prod.mk.injEq] at h
    obtain ⟨rfl, rfl⟩ := h
    exact ⟨rfl, by simp⟩
  | cons entry rest ih =>
    intro count rows h
    cases entry with
    | none => simp only [rows_of_sub_tasks] at h; cases h
    | some sub_task =>
      simp only [rows_of_sub_tasks] at h
      cases hv : visit sub_task with
      | none => rw [hv] at h; cases h
      | some result =>
        obtain ⟨c1, rows1⟩ := result
        rw [hv] at h
        simp only [] at h
        cases hr : rows_of_sub_tasks visit rest with
        | none => rw [hr] at h; cases h
        | some result' =>
          obtain ⟨c2, rows2⟩ := result'
          rw [hr] at h
          simp only [Option.some.injEq, Prod.mk.injEq] at h
          obtain ⟨rfl, rfl⟩ := h
          obtain ⟨hc1, hP1⟩ := hvisit sub_task c1 rows1 hv
          obtain ⟨hc2, hP2⟩ := ih c2 rows2 hr
          refine ⟨?_, ?_⟩
          · simp only [List.filterMap_cons, id_eq, List.filter_cons]
            by_cases hvis : is_visible s sub_task = true
            · rw [if_pos hvis] at hc1
              rw [if_pos hvis, List.length_cons, hc1, hc2]
              omega
            · rw [if_neg hvis] at hc1
              rw [if_neg hvis, hc1, hc2]
              omega
          · intro row hrow
            rcases List.mem_append.1 hrow with h1 | h2
            · exact hP1 row h1
            · exact hP2 row h2

/-- A call of the flattener returns 1 for a visible task and 0 for a filtered
one, and every row it emits carries the number of visible direct sub tasks of
its task. -/
theorem rows_of_count (s : State) :
    ∀ (fuel task : Nat) (is_parent_expanded : Bool) (level count : Nat)
      (rows : List Flattened_Folder_Task),
      rows_of s fuel task is_parent_expanded level = some (count, rows) →
      count = (if is_visible s task = true then 1 else 0) ∧
      ∀ row ∈ rows, ∃ t, s.sorted_folder_tasks[row.sorted_task]? = some t ∧
        row.num_visible_sub_tasks = (visible_sub_tasks s t).length := by
  intro fuel
  induction fuel with
  | zero =>
    intro task is_parent_expanded level count rows h
    simp only [rows_of] at h
    cases h
  | succ fuel ih =>
    intro task is_parent_expanded level count rows h
    unfold rows_of at h
    cases ht : s.sorted_folder_tasks[task]? with
    | none => rw [ht] at h; cases h
    | some t =>
      rw [ht] at h
      simp only [] at h
      have hvis : is_visible s task = decide (filtered_out s t = some false) := by
        unfold is_visible
        rw [ht]
      cases hf : filtered_out s t with
      | none => rw [hf] at h; cases h
      | some b =>
        rw [hf] at h
        rw [hf] at hvis
        cases b with
        | true =>
          simp only [Option.some.injEq, Prod.mk.injEq] at h
          obtain ⟨rfl, rfl⟩ := h
          refine ⟨?_, by simp⟩
          rw [hvis]
          simp
        | false =>
          simp only [] at h
          have hone : (1 : Nat) = (if is_visible s task = true then 1 else 0) := by
            rw [hvis]
            simp
          by_cases hipe : is_parent_expanded = true
          · rw [if_pos hipe] at h
            cases hr : rows_of_sub_tasks
                (fun sub_task => rows_of s fuel sub_task t.is_expanded (level + 1))
                ((List.range t.num_sub_tasks).map
                  (fun index => s.sub_tasks[t.sub_tasks + index]?)) with
            | none => rw [hr] at h; cases h
            | some result =>
              obtain ⟨c, crows⟩ := result
              rw [hr] at h
              simp only [Option.some.injEq, Prod.mk.injEq] at h
              obtain ⟨rfl, rfl⟩ := h
              obtain ⟨hc, hP⟩ := rows_of_sub_tasks_count s _
                (fun row => ∃ t, s.sorted_folder_tasks[row.sorted_task]? = some t ∧
                  row.num_visible_sub_tasks = (visible_sub_tasks s t).length)
                (fun sub_task count rows hsub =>
                  ih sub_task t.is_expanded (level + 1) count rows hsub) _ c crows hr
              refine ⟨hone, ?_⟩
              intro row hrow
              rcases List.mem_cons.1 hrow with h1 | h2
              · subst h1
                refine ⟨t, ht, ?_⟩
                simp only []
                rw [hc]
                unfold visible_sub_tasks
                rw [List.filterMap_map]
                rfl
              · exact hP row h2
          · rw [if_neg hipe] at h
            simp only [Option.some.injEq, Prod.mk.injEq] at h
            obtain ⟨rfl, rfl⟩ := h
            exact ⟨hone, by simp⟩

/-- Every row of `tree_rows` carries the number of visible direct sub tasks of
its task. -/
theorem tree_rows_count (s : State) (fuel : Nat) (rows : List Flattened_Folder_Task)
    (h : tree_rows s fuel = some rows) :
    ∀ row ∈ rows, ∃ t, s.sorted_folder_tasks[row.sorted_task]? = some t ∧
      row.num_visible_sub_tasks = (visible_sub_tasks s t).length := by
  unfold tree_rows at h
  cases hr : rows_of_sub_tasks (fun task => rows_of s fuel task true 0)
      (s.top_level_tasks.map some) with
  | none => rw [hr] at h; cases h
  | some result =>
    obtain ⟨c, rows'⟩ := result
    rw [hr] at h
    cases h
    exact (rows_of_sub_tasks_count s _ _
      (fun sub_task count rows hsub => rows_of_count s fuel sub_task true 0 count rows hsub)
      _ _ _ hr).2

theorem rows_of_sub_tasks_cons (visit : Nat → Option (Nat × List Flattened_Folder_Task))
    (entry : Option Nat) (rest : List (Option Nat)) (count : Nat)
    (rows : List Flattened_Folder_Task)
    (h : rows_of_sub_tasks visit (entry :: rest) = some (count, rows)) :
    ∃ sub_task c1 rows1 c2 rows2, entry = some sub_task ∧ visit sub_task = some (c1, rows1) ∧
      rows_of_sub_tasks visit rest = some (c2, rows2) ∧ count = c1 + c2 ∧
      rows = rows1 ++ rows2 := by
  cases entry with
  | none => simp only [rows_of_sub_tasks] at h; cases h
  | some sub_task =>
    simp only [rows_of_sub_tasks] at h
    cases hv : visit sub_task with
    | none => rw [hv] at h; cases h
    | some result =>
      obtain ⟨c1, rows1⟩ := result
      rw [hv] at h
      simp only [] at h
      cases hr : rows_of_sub_tasks visit rest with
      | none => rw [hr] at h; cases h
      | some result' =>
        obtain ⟨c2, rows2⟩ := result'
        rw [hr] at h
        simp only [Option.some.injEq, Prod.mk.injEq] at h
        exact ⟨sub_task, c1, rows1, c2, rows2, rfl, hv, rfl, h.1.symm, h.2.symm⟩

theorem rows_of_sub_tasks_cons_eq (visit : Nat → Option (Nat × List Flattened_Folder_Task))
    (sub_task : Nat) (rest : List (Option Nat)) (c1 c2 : Nat)
    (rows1 rows2 : List Flattened_Folder_Task)
    (h1 : visit sub_task = some (c1, rows1))
    (h2 : rows_of_sub_tasks visit rest = some (c2, rows2)) :
    rows_of_sub_tasks visit (some sub_task :: rest) = some (c1 + c2, rows1 ++ rows2) := by
  simp only [rows_of_sub_tasks, h1, h2]

theorem rows_of_succ (s : State) (fuel task : Nat) (is_parent_expanded : Bool) (level : Nat)
    (t : Sorted_Folder_Task) (ht : s.sorted_folder_tasks[task]? = some t) :
    rows_of s (fuel + 1) task is_parent_expanded level
      = match filtered_out s t with
        | none => none
        | some true => some (0, [])
        | some false =>
          if is_parent_expanded then
            match rows_of_sub_tasks
                (fun sub_task => rows_of s fuel sub_task t.is_expanded (level + 1))
                ((List.range t.num_sub_tasks).map
                  (fun index => s.sub_tasks[t.sub_tasks + index]?)) with
            | none => none
            | some (count, rows) =>
              some (1, { sorted_task := task, nesting_level := level,
                         num_visible_sub_tasks := count, needs_sub_task_sort := true } :: rows)
          else some (1, []) := by
  rw [rows_of, ht]

/-- What a call that returns has gone through. -/
theorem rows_of_some (s : State) (fuel task : Nat) (is_parent_expanded : Bool) (level : Nat)
    (count : Nat) (rows : List Flattened_Folder_Task)
    (h : rows_of s fuel task is_parent_expanded level = some (count, rows)) :
    ∃ fuel' t b, fuel = fuel' + 1 ∧ s.sorted_folder_tasks[task]? = some t ∧
      filtered_out s t = some b ∧
      ((b = true ∨ is_parent_expanded = false) → rows = []) ∧
      (b = true → count = 0) ∧ (b = false → count = 1) ∧
      (b = false → is_parent_expanded = true →
        ∃ c crows,
          rows_of_sub_tasks (fun sub_task => rows_of s fuel' sub_task t.is_expanded (level + 1))
            ((List.range t.num_sub_tasks).map
              (fun index => s.sub_tasks[t.sub_tasks + index]?)) = some (c, crows) ∧
          rows = { sorted_task := task, nesting_level := level,
                   num_visible_sub_tasks := c, needs_sub_task_sort := true } :: crows) := by
  cases fuel with
  | zero => simp only [rows_of] at h; cases h
  | succ fuel' =>
    cases ht : s.sorted_folder_tasks[task]? with
    | none =>
      unfold rows_of at h
      rw [ht] at h
      cases h
    | some t =>
      rw [rows_of_succ s fuel' task is_parent_expanded level t ht] at h
      cases hf : filtered_out s t with
      | none => rw [hf] at h; cases h
      | some b =>
        rw [hf] at h
        refine ⟨fuel', t, b, rfl, rfl, hf, ?_⟩
        cases b with
        | true =>
          simp only [Option.some.injEq, Prod.mk.injEq] at h
          obtain ⟨rfl, rfl⟩ := h
          simp
        | false =>
          simp only [] at h
          by_cases hipe : is_parent_expanded = true
          · rw [if_pos hipe] at h
            cases hr : rows_of_sub_tasks
                (fun sub_task => rows_of s fuel' sub_task t.is_expanded (level + 1))
                ((List.range t.num_sub_tasks).map
                  (fun index => s.sub_tasks[t.sub_tasks + index]?)) with
            | none => rw [hr] at h; cases h
            | some result =>
              obtain ⟨c, crows⟩ := result
              rw [hr] at h
              simp only [Option.some.injEq, Prod.mk.injEq] at h
              obtain ⟨rfl, rfl⟩ := h
              refine ⟨?_, ?_, ?_, ?_⟩
              · rintro (h1 | h1)
                · cases h1
                · rw [hipe] at h1; cases h1
              · intro h1; cases h1
              · intro _; rfl
              · intro _ _
                exact ⟨c, crows, rfl, rfl⟩
          · rw [if_neg hipe] at h
            simp only [Option.some.injEq, Prod.mk.injEq] at h
            obtain ⟨rfl, rfl⟩ := h
            refine ⟨fun _ => rfl, ?_, fun _ => rfl, fun _ h2 => absurd h2 hipe⟩
            intro h1; cases h1

/-- The rows of a loop over sub tasks lie at the nesting level of the calls or
deeper, the first of them at that level. -/
theorem rows_of_sub_tasks_levels (visit : Nat → Option (Nat × List Flattened_Folder_Task))
    (bound : Nat)
    (hvisit : ∀ sub_task count rows, visit sub_task = some (count, rows) →
      (∀ row ∈ rows, bound ≤ row.nesting_level) ∧
      (∀ row, rows.head? = some row → row.nesting_level = bound)) :
    ∀ (sub_tasks : List (Option Nat)) (count : Nat) (rows : List Flattened_Folder_Task),
      rows_of_sub_tasks visit sub_tasks = some (count, rows) →
      (∀ row ∈ rows, bound ≤ row.nesting_level) ∧
      (∀ row, rows.head? = some row → row.nesting_level = bound) := by
  intro sub_tasks
  induction sub_tasks with
  | nil =>
    intro count rows h
    simp only [rows_of_sub_tasks, Option.some.injEq, Prod.mk.injEq] at h
    obtain ⟨rfl, rfl⟩ := h
    simp
  | cons entry rest ih =>
    intro count rows h
    obtain ⟨sub_task, c1, rows1, c2, rows2, rfl, hv, hr, rfl, rfl⟩ :=
      rows_of_sub_tasks_cons visit entry rest count rows h
    obtain ⟨ha1, hh1⟩ := hvisit sub_task c1 rows1 hv
    obtain ⟨ha2, hh2⟩ := ih c2 rows2 hr
    refine ⟨?_, ?_⟩
    · intro row hrow
      rcases List.mem_append.1 hrow with h1 | h2
      · exact ha1 row h1
      · exact ha2 row h2
    · intro row hrow
      cases rows1 with
      | nil => exact hh2 row (by simpa using hrow)
      | cons r1 rest1 => exact hh1 row (by simpa using hrow)

/-- The rows of a call lie at its nesting level or deeper, the first of them at
that level. -/
theorem rows_of_levels (s : State) :
    ∀ (fuel task : Nat) (is_parent_expanded : Bool) (level count : Nat)
      (rows : List Flattened_Folder_Task),
      rows_of s fuel task is_parent_expanded level = some (count, rows) →
      (∀ row ∈ rows, level ≤ row.nesting_level) ∧
      (∀ row, rows.head? = some row → row.nesting_level = level) := by
  intro fuel
  induction fuel with
  | zero =>
    intro task is_parent_expanded level count rows h
    simp only [rows_of] at h
    cases h
  | succ fuel ih =>
    intro task is_parent_expanded level count rows h
    obtain ⟨fuel', t, b, hfuel, ht, hf, hnil, h0, h1, hrows⟩ :=
      rows_of_some s _ task is_parent_expanded level count rows h
    cases hfuel
    by_cases hcase : b = true ∨ is_parent_expanded = false
    · rw [hnil hcase]
      simp
    · have hb : b = false := by
        cases b with
        | true => exact absurd (Or.inl rfl) hcase
        | false => rfl
      have hipe : is_parent_expanded = true := by
        cases is_parent_expanded with
        | true => rfl
        | false => exact absurd (Or.inr rfl) hcase
      obtain ⟨c, crows, hr, rfl⟩ := hrows hb hipe
      obtain ⟨ha, _⟩ := rows_of_sub_tasks_levels _ (level + 1)
        (fun sub_task count rows hsub => ih sub_task t.is_expanded (level + 1) count rows hsub)
        _ c crows hr
      refine ⟨?_, ?_⟩
      · intro row hrow
        rcases List.mem_cons.1 hrow with h1 | h2
        · subst h1
          exact Nat.le_refl _
        · have := ha row h2
          omega
      · intro row hrow
        simp only [List.head?_cons, Option.some.injEq] at hrow
        subst hrow
        rfl

/-- The rows depend on the state through the task block, the array of sub tasks
and the filter flag only. -/
theorem rows_of_congr (s s' : State)
    (hsorted : s'.sorted_folder_tasks = s.sorted_folder_tasks)
    (hsub : s'.sub_tasks = s.sub_tasks)
    (hshow : s'.show_only_active_tasks = s.show_only_active_tasks) :
    ∀ (fuel task : Nat) (is_parent_expanded : Bool) (level : Nat),
      rows_of s' fuel task is_parent_expanded level
        = rows_of s fuel task is_parent_expanded level := by
  intro fuel
  induction fuel with
  | zero => intro task is_parent_expanded level; rfl
  | succ fuel ih =>
    intro task is_parent_expanded level
    cases ht : s.sorted_folder_tasks[task]? with
    | none =>
      unfold rows_of
      rw [hsorted, ht]
    | some t =>
      rw [rows_of_succ s fuel task is_parent_expanded level t ht,
        rows_of_succ s' fuel task is_parent_expanded level t (by rw [hsorted]; exact ht)]
      have hf : filtered_out s' t = filtered_out s t := by
        unfold filtered_out
        rw [hshow]
      have hv : (fun sub_task => rows_of s' fuel sub_task t.is_expanded (level + 1))
          = (fun sub_task => rows_of s fuel sub_task t.is_expanded (level + 1)) :=
        funext (fun sub_task => ih sub_task t.is_expanded (level + 1))
      rw [hf, hv, hsub]

theorem tree_rows_congr (s s' : State)
    (hsorted : s'.sorted_folder_tasks = s.sorted_folder_tasks)
    (hsub : s'.sub_tasks = s.sub_tasks)
    (hshow : s'.show_only_active_tasks = s.show_only_active_tasks)
    (htop : s'.top_level_tasks = s.top_level_tasks) (fuel : Nat) :
    tree_rows s' fuel = tree_rows s fuel := by
  unfold tree_rows
  have hv : (fun task => rows_of s' fuel task true 0) = (fun task => rows_of s fuel task true 0) :=
    funext (fun task => rows_of_congr s s' hsorted hsub hshow fuel task true 0)
  rw [hv, htop]

theorem toggle_is_expanded_eq (s : State) (sorted_task : Nat) (t : Sorted_Folder_Task)
    (ht : s.sorted_folder_tasks[sorted_task]? = some t) :
    toggle_is_expanded s sorted_task
      = some { s with
          sorted_folder_tasks := s.sorted_folder_tasks.set sorted_task
            { t with is_expanded := !t.is_expanded }
          queue_flattened_tree_rebuild := true } := by
  unfold toggle_is_expanded
  rw [ht]

/-- What a full rebuild that returns leaves: the rows of `tree_rows` as the
live rows, everything but the row block as it was, the row block at its
length. -/
theorem rebuild_flattened_task_tree_frame_rows (fuel : Nat) (s s' : State)
    (h : rebuild_flattened_task_tree fuel s = some s') :
    ∃ rows, tree_rows s fuel = some rows ∧ rows.length ≤ s.flattened_data.length ∧
      flattened_rows s' = rows ∧
      s'.sorted_folder_tasks = s.sorted_folder_tasks ∧ s'.sub_tasks = s.sub_tasks ∧
      s'.show_only_active_tasks = s.show_only_active_tasks ∧
      s'.top_level_tasks = s.top_level_tasks ∧
      s'.flattened_data.length = s.flattened_data.length := by
  obtain ⟨rows, h1, h2, h3, h4⟩ := rebuild_flattened_task_tree_rows fuel s s' h
  refine ⟨rows, h1, h2, h3, ?_, ?_, ?_, ?_, ?_⟩
  · rw [h4]
  · rw [h4]
  · rw [h4]
  · rw [h4]
  · rw [h4]
    exact write_rows_length _ _ _

/-- A queued rebuild returns when `tree_rows` lists rows that fit the block. -/
theorem rebuild_if_queued_of_rows (fuel : Nat) (s : State)
    (rows : List Flattened_Folder_Task)
    (hqueued : s.queue_flattened_tree_rebuild = true)
    (h : tree_rows s fuel = some rows)
    (hroom : rows.length ≤ s.flattened_data.length) :
    ∃ s', rebuild_if_queued fuel s = some s' ∧ flattened_rows s' = rows ∧
      s'.sorted_folder_tasks = s.sorted_folder_tasks ∧ s'.sub_tasks = s.sub_tasks ∧
      s'.show_only_active_tasks = s.show_only_active_tasks ∧
      s'.top_level_tasks = s.top_level_tasks ∧
      s'.flattened_data.length = s.flattened_data.length := by
  have h' : tree_rows { s with queue_flattened_tree_rebuild := false } fuel = some rows := by
    rw [tree_rows_congr s { s with queue_flattened_tree_rebuild := false } rfl rfl rfl rfl fuel]
    exact h
  obtain ⟨s', hs', hrows, _⟩ := rebuild_flattened_task_tree_of_rows fuel
    { s with queue_flattened_tree_rebuild := false } rows h' hroom
  obtain ⟨rows', h1, _, h3, h4, h5, h6, h7, h8⟩ :=
    rebuild_flattened_task_tree_frame_rows fuel _ s' hs'
  refine ⟨s', ?_, hrows, h4, h5, h6, h7, h8⟩
  unfold rebuild_if_queued
  rw [if_pos hqueued]
  exact hs'

/-- The rows of a full rebuild of a family whose tasks all pass the filter. -/
theorem family_tree_rows (s : State) (data : List Folder_Task) (expanded : Bool) (fuel : Nat)
    (h : Family_Shape s data expanded) (hpass : All_Pass s 3) :
    tree_rows s (fuel + 2)
      = some ({ sorted_task := 0, nesting_level := 0, num_visible_sub_tasks := 2,
                needs_sub_task_sort := true } ::
          (if expanded = true then
            [{ sorted_task := 1, nesting_level := 1, num_visible_sub_tasks := 0,
               needs_sub_task_sort := true },
             { sorted_task := 2, nesting_level := 1, num_visible_sub_tasks := 0,
               needs_sub_task_sort := true }]
          else [])) := by
  obtain ⟨t0, ht0, _⟩ := h.source 0 (by omega)
  obtain ⟨t1, ht1, _⟩ := h.source 1 (by omega)
  obtain ⟨t2, ht2, _⟩ := h.source 2 (by omega)
  obtain ⟨hn0, ho0, he0⟩ := h.parent t0 ht0
  have hn1 := h.child 1 t1 (Or.inl rfl) ht1
  have hn2 := h.child 2 t2 (Or.inr rfl) ht2
  have hf0 := hpass 0 t0 (by omega) ht0
  have hf1 := hpass 1 t1 (by omega) ht1
  have hf2 := hpass 2 t2 (by omega) ht2
  have hchild : ∀ (i : Nat) (t : Sorted_Folder_Task), s.sorted_folder_tasks[i]? = some t →
      t.num_sub_tasks = 0 → filtered_out s t = some false →
      rows_of s (fuel + 1) i expanded 1
        = some (1, if expanded = true then
            [{ sorted_task := i, nesting_level := 1, num_visible_sub_tasks := 0,
               needs_sub_task_sort := true }]
          else []) := by
    intro i t ht hn hf
    rw [rows_of_succ s fuel i expanded 1 t ht, hf, hn]
    cases expanded <;> rfl
  unfold tree_rows
  rw [h.top]
  simp only [List.map_cons, List.map_nil, rows_of_sub_tasks]
  rw [rows_of_succ s (fuel + 1) 0 true 0 t0 ht0, hf0, hn0, ho0, he0]
  simp only [if_true]
  have hrange : (List.range 2).map (fun index => s.sub_tasks[0 + index]?) = [some 1, some 2] := by
    simp only [List.range_succ, List.range_zero, List.nil_append, List.cons_append, List.map_cons,
      List.map_nil, Nat.add_zero, Nat.zero_add, h.first, h.second]
  rw [hrange]
  simp only [rows_of_sub_tasks, hchild 1 t1 ht1 hn1 hf1, hchild 2 t2 ht2 hn2 hf2]
  cases expanded <;> rfl

/-- Ingestion of a batch of three tasks of which only the first lists the
active container, once, and the other two each list the first as their parent
task: the load returns and builds a family with a collapsed parent. -/
theorem family_loaded_shape (heap : Heap_Garbage) (old : State) (A B C : Folder_Task)
    (hblocks : Blocks_Allocated old)
    (hAB : A.id ≠ B.id) (hAC : A.id ≠ C.id) (hBC : B.id ≠ C.id)
    (hA : A.parent_folder_ids.count old.current_folder.id = 1)
    (hB : old.current_folder.id ∉ B.parent_folder_ids)
    (hC : old.current_folder.id ∉ C.parent_folder_ids)
    (hAp : A.parent_task_ids = []) (hBp : B.parent_task_ids = [A.id])
    (hCp : C.parent_task_ids = [A.id]) :
    ∃ s1, process_folder_contents_data heap old [A, B, C] = some s1 ∧
      Family_Shape s1 [A, B, C] false ∧ s1.folder_tasks = [A, B, C] ∧
      s1.show_only_active_tasks = old.show_only_active_tasks ∧
      3 ≤ s1.sorted_folder_tasks.length := by
  have hids : ([A, B, C].map (fun r => r.id)).Nodup := by
    simp [hAB, hAC, hBC]
  obtain ⟨s1, hload, hb⟩ := process_folder_contents_data_spec heap old [A, B, C] hblocks hids
  have hft : s1.folder_tasks = [A, B, C] := by rw [hb.state_eq]
  have hshow : s1.show_only_active_tasks = old.show_only_active_tasks := by rw [hb.state_eq]
  have htl : s1.top_level_tasks = top_level_of_batch old.current_folder.id [A, B, C] := by
    rw [hb.state_eq]
  have hcap : 3 ≤ s1.sorted_folder_tasks.length := hb.capacity
  have hroom : 3 ≤ s1.flattened_data.length := by
    have := (hb.blocks_allocated hblocks).2
    rw [hft] at this
    exact this
  have hga : id_hash_map_get s1.id_to_sorted_folder_task A.id = some 0 :=
    (hb.index A.id 0).2 rfl
  have hpairs : parent_task_id_pairs [A, B, C] = [(1, A.id), (2, A.id)] := by
    simp [parent_task_id_pairs, List.enum, List.enumFrom, hAp, hBp, hCp]
  have hnum0 : num_sub_tasks_at s1.sorted_folder_tasks 0 = 2 := by
    rw [hb.num 0 (by simp), hpairs]
    simp [count_resolving_to, hga]
  have hnum1 : num_sub_tasks_at s1.sorted_folder_tasks 1 = 0 := by
    rw [hb.num 1 (by simp), hpairs]
    simp [count_resolving_to, hga]
  have hnum2 : num_sub_tasks_at s1.sorted_folder_tasks 2 = 0 := by
    rw [hb.num 2 (by simp), hpairs]
    simp [count_resolving_to, hga]
  have hoff0 : sub_tasks_at s1.sorted_folder_tasks 0 = 0 := by
    rw [hb.off 0 (by simp) (by rw [hnum0]; decide)]
    simp [num_sub_tasks_before]
  have hchildren : (s1.sub_tasks.drop 0).take 2 = [1, 2] := by
    have := hb.children 0 (by simp)
    rw [hnum0, hpairs] at this
    simp only [num_sub_tasks_before, List.take_zero, List.map_nil, List.sum_nil] at this
    rw [this]
    simp [children_resolving_to, hga]
  simp only [List.drop_zero] at hchildren
  have hsub : ∀ (k : Nat), k < 2 → s1.sub_tasks[k]? = [1, 2][k]? := by
    intro k hk
    rw [← hchildren, List.getElem?_take, if_pos hk]
  refine ⟨s1, hload, ?_, hft, hshow, hcap⟩
  refine ⟨?_, hsub 0 (by omega), hsub 1 (by omega), hroom, ?_, ?_, ?_⟩
  · rw [htl]
    simp [top_level_of_batch, List.enum, List.enumFrom, hA, List.count_eq_zero.2 hB,
      List.count_eq_zero.2 hC]
  · intro i hi
    obtain ⟨t, ht, hsrc, _, _⟩ := hb.tasks i hi
    refine ⟨t, ht, ?_⟩
    rw [hsrc, List.getElem?_eq_getElem (show i < [A, B, C].length from hi)]
  · intro t ht
    obtain ⟨t', ht', _, _, hexp⟩ := hb.tasks 0 (by simp)
    rw [ht] at ht'
    cases ht'
    refine ⟨?_, ?_, hexp⟩
    · simpa [num_sub_tasks_at, ht] using hnum0
    · simpa [sub_tasks_at, ht] using hoff0
  · intro i t hi ht
    rcases hi with rfl | rfl
    · simpa [num_sub_tasks_at, ht] using hnum1
    · simpa [num_sub_tasks_at, ht] using hnum2

theorem Family_Shape.of_same_relations {s s' : State} {data : List Folder_Task} {expanded : Bool}
    (h : Family_Shape s data expanded)
    (hsorted : s'.sorted_folder_tasks = s.sorted_folder_tasks)
    (hsub : s'.sub_tasks = s.sub_tasks) (htop : s'.top_level_tasks = s.top_level_tasks)
    (hlen : s'.flattened_data.length = s.flattened_data.length) :
    Family_Shape s' data expanded := by
  refine ⟨?_, ?_, ?_, ?_, ?_, ?_, ?_⟩
  · rw [htop]; exact h.top
  · rw [hsub]; exact h.first
  · rw [hsub]; exact h.second
  · rw [hlen]; exact h.room
  · rw [hsorted]; exact h.source
  · rw [hsorted]; exact h.parent
  · rw [hsorted]; exact h.child

theorem All_Pass.of_same_tasks {s s' : State} {n : Nat} (h : All_Pass s n)
    (hsorted : s'.sorted_folder_tasks = s.sorted_folder_tasks)
    (hshow : s'.show_only_active_tasks = s.show_only_active_tasks) : All_Pass s' n := by
  intro i t hi ht
  rw [hsorted] at ht
  have := h i t hi ht
  unfold filtered_out at this ⊢
  rw [hshow]
  exact this

/-- The press of the expand arrow of the parent of a family. -/
theorem Family_Shape.toggle {s : State} {data : List Folder_Task} {expanded : Bool}
    (h : Family_Shape s data expanded) (hpass : All_Pass s 3) :
    ∃ s', toggle_is_expanded s 0 = some s' ∧ s'.queue_flattened_tree_rebuild = true ∧
      Family_Shape s' data (!expanded) ∧ All_Pass s' 3 := by
  obtain ⟨t0, ht0, hsrc0⟩ := h.source 0 (by omega)
  obtain ⟨hn0, ho0, he0⟩ := h.parent t0 ht0
  have hlt : 0 < s.sorted_folder_tasks.length := lt_of_getElem?_some ht0
  refine ⟨_, toggle_is_expanded_eq s 0 t0 ht0, rfl, ?_, ?_⟩
  · refine ⟨h.top, h.first, h.second, h.room, ?_, ?_, ?_⟩
    · intro i hi
      by_cases hi0 : i = 0
      · subst hi0
        exact ⟨_, List.getElem?_set_self hlt, hsrc0⟩
      · obtain ⟨t, ht, hsrc⟩ := h.source i hi
        refine ⟨t, ?_, hsrc⟩
        show (s.sorted_folder_tasks.set 0 _)[i]? = some t
        rw [List.getElem?_set_ne (fun e => hi0 e.symm)]
        exact ht
    · intro t ht
      have ht' : (s.sorted_folder_tasks.set 0 { t0 with is_expanded := !t0.is_expanded })[0]?
          = some t := ht
      rw [List.getElem?_set_self hlt] at ht'
      cases ht'
      exact ⟨hn0, ho0, by rw [he0]⟩
    · intro i t hi ht
      have ht' : (s.sorted_folder_tasks.set 0 { t0 with is_expanded := !t0.is_expanded })[i]?
          = some t := ht
      rw [List.getElem?_set_ne (by rcases hi with rfl | rfl <;> decide)] at ht'
      exact h.child i t hi ht'
  · intro i t hi ht
    have ht' : (s.sorted_folder_tasks.set 0 { t0 with is_expanded := !t0.is_expanded })[i]?
        = some t := ht
    by_cases hi0 : i = 0
    · subst hi0
      rw [List.getElem?_set_self hlt] at ht'
      cases ht'
      exact hpass 0 t0 hi ht0
    · rw [List.getElem?_set_ne (fun e => hi0 e.symm)] at ht'
      exact hpass i t hi ht'

/-- The press of the expand arrow of the parent of a family and the queued
rebuild: both return, and the rows are those of the family in its new expand
state. -/
theorem family_press_and_rebuild (fuel : Nat) {s : State} {data : List Folder_Task}
    {expanded : Bool} (h : Family_Shape s data expanded) (hpass : All_Pass s 3) :
    ∃ s' s'', toggle_is_expanded s 0 = some s' ∧ rebuild_if_queued (fuel + 2) s' = some s'' ∧
      Family_Shape s'' data (!expanded) ∧ All_Pass s'' 3 ∧
      flattened_rows s''
        = { sorted_task := 0, nesting_level := 0, num_visible_sub_tasks := 2,
            needs_sub_task_sort := true } ::
          (if (!expanded) = true then
            [{ sorted_task := 1, nesting_level := 1, num_visible_sub_tasks := 0,
               needs_sub_task_sort := true },
             { sorted_task := 2, nesting_level := 1, num_visible_sub_tasks := 0,
               needs_sub_task_sort := true }]
          else []) := by
  obtain ⟨s', htoggle, hqueued, hshape, hpass'⟩ := h.toggle hpass
  have hrows := family_tree_rows s' data (!expanded) fuel hshape hpass'
  obtain ⟨s'', hs'', hF, hsorted, hsub, hshow, htop, hlen⟩ :=
    rebuild_if_queued_of_rows (fuel + 2) s' _ hqueued hrows (by
      have := hshape.room
      cases expanded <;> simp <;> omega)
  exact ⟨s', s'', htoggle, hs'', hshape.of_same_relations hsorted hsub htop hlen,
    hpass'.of_same_tasks hsorted hshow, hF⟩

/-- A sort by title of a state whose top level list has fewer than two entries
is the refresh of the cached data followed by a full rebuild. -/
theorem sort_by_title_of_short_top_level (env : Env) (fuel : Nat) (s : State)
    (tasks : List Sorted_Folder_Task) (htop : s.top_level_tasks.length < 2)
    (hloop : (List.range s.folder_tasks.length).foldlM (update_cached_data_of_task env)
      s.sorted_folder_tasks = some tasks) :
    ∃ s', sort_by_field env fuel Task_List_Sort_Field.Title s
        = rebuild_flattened_task_tree fuel s' ∧
      s'.sorted_folder_tasks = tasks ∧ s'.sub_tasks = s.sub_tasks ∧
      s'.top_level_tasks = s.top_level_tasks ∧
      s'.show_only_active_tasks = s.show_only_active_tasks ∧
      s'.flattened_data = s.flattened_data := by
  by_cases hsf : s.sort_field = Task_List_Sort_Field.Title
  · refine ⟨{ s with
        sort_direction := to_char (s.sort_direction * -1)
        sorted_folder_tasks := tasks
        sort_field := Task_List_Sort_Field.Title }, ?_, rfl, rfl, rfl, rfl, rfl⟩
    unfold sort_by_field
    rw [if_neg (by decide)]
    simp only [if_pos hsf]
    unfold update_cached_data_for_sorted_tasks
    simp only [hloop]
    unfold sort_top_level_tasks_and_rebuild_flattened_tree get_comparator_by_current_sort_type
      qsort
    simp only [if_pos htop]
  · refine ⟨{ s with
        sort_direction := Sort_Direction_Normal
        sorted_folder_tasks := tasks
        sort_field := Task_List_Sort_Field.Title }, ?_, rfl, rfl, rfl, rfl, rfl⟩
    unfold sort_by_field
    rw [if_neg (by decide)]
    simp only [if_neg hsf]
    unfold update_cached_data_for_sorted_tasks
    simp only [hloop]
    unfold sort_top_level_tasks_and_rebuild_flattened_tree get_comparator_by_current_sort_type
      qsort
    simp only [if_pos htop]

/-- The first sort by title of a freshly ingested family whose tasks all pass
the filter: the sort returns and leaves the row of the collapsed parent. -/
theorem family_first_sort (env : Env) (fuel : Nat) (s : State) (data : List Folder_Task)
    (h : Family_Shape s data false) (hft : s.folder_tasks.length = 3)
    (hcap : 3 ≤ s.sorted_folder_tasks.length)
    (hactive : s.show_only_active_tasks = true →
      ∀ r ∈ data, ∃ status, env.find_custom_status_by_id r.custom_status_id = some status ∧
        status.group = Status_Group.Active) :
    ∃ s', sort_by_field env (fuel + 2) Task_List_Sort_Field.Title s = some s' ∧
      Family_Shape s' data false ∧ All_Pass s' 3 ∧
      flattened_rows s'
        = [{ sorted_task := 0, nesting_level := 0, num_visible_sub_tasks := 2,
             needs_sub_task_sort := true }] := by
  obtain ⟨tasks, hloop⟩ := update_cached_data_loop_some env s.sorted_folder_tasks 3 hcap
  obtain ⟨_, _, hget⟩ := update_cached_data_loop env s.sorted_folder_tasks 3 tasks hloop
  rw [← hft] at hloop
  obtain ⟨S, hsort, hsorted, hsub, htop, hshow, hdata⟩ :=
    sort_by_title_of_short_top_level env (fuel + 2) s tasks (by rw [h.top]; decide) hloop
  have hlook : ∀ (i : Nat) (t' : Sorted_Folder_Task), i < 3 →
      S.sorted_folder_tasks[i]? = some t' →
      ∃ t, s.sorted_folder_tasks[i]? = some t ∧ t' = refresh_cached_data env t := by
    intro i t' hi ht'
    rw [hsorted, hget i] at ht'
    cases ht : s.sorted_folder_tasks[i]? with
    | none => rw [ht] at ht'; cases ht'
    | some t =>
      rw [ht] at ht'
      simp only [Option.map_some', if_pos hi, Option.some.injEq] at ht'
      exact ⟨t, rfl, ht'.symm⟩
  have hfwd : ∀ (i : Nat) (t : Sorted_Folder_Task), i < 3 →
      s.sorted_folder_tasks[i]? = some t →
      S.sorted_folder_tasks[i]? = some (refresh_cached_data env t) := by
    intro i t hi ht
    rw [hsorted, hget i, ht]
    simp only [Option.map_some', if_pos hi]
  have hshape : Family_Shape S data false := by
    refine ⟨?_, ?_, ?_, ?_, ?_, ?_, ?_⟩
    · rw [htop]; exact h.top
    · rw [hsub]; exact h.first
    · rw [hsub]; exact h.second
    · rw [hdata]; exact h.room
    · intro i hi
      obtain ⟨t, ht, hsrc⟩ := h.source i hi
      exact ⟨_, hfwd i t hi ht, hsrc⟩
    · intro t' ht'
      obtain ⟨t, ht, rfl⟩ := hlook 0 t' (by omega) ht'
      exact h.parent t ht
    · intro i t' hi ht'
      obtain ⟨t, ht, rfl⟩ := hlook i t' (by rcases hi with rfl | rfl <;> omega) ht'
      exact h.child i t hi ht
  have hpass : All_Pass S 3 := by
    intro i t' hi ht'
    obtain ⟨t, ht, rfl⟩ := hlook i t' hi ht'
    obtain ⟨t2, ht2, hsrc⟩ := h.source i hi
    rw [ht] at ht2
    cases ht2
    unfold filtered_out
    rw [hshow]
    by_cases hs : s.show_only_active_tasks = true
    · rw [if_pos hs]
      have hmem : t.source_task ∈ data := List.getElem?_mem hsrc.symm
      obtain ⟨status, hfind, hgroup⟩ := hactive hs _ hmem
      show (match env.find_custom_status_by_id t.source_task.custom_status_id with
        | none => none
        | some status => some (decide (status.group ≠ Status_Group.Active))) = some false
      rw [hfind]
      simp [hgroup]
    · rw [if_neg hs]
  have hrows := family_tree_rows S data false fuel hshape hpass
  obtain ⟨s', hs', hF, hs'eq⟩ := rebuild_flattened_task_tree_of_rows (fuel + 2) S _ hrows (by
    have := hshape.room
    simp
    omega)
  obtain ⟨_, _, _, _, h4, h5, h6, h7, h8⟩ :=
    rebuild_flattened_task_tree_frame_rows (fuel + 2) S s' hs'
  refine ⟨s', by rw [hsort]; exact hs', hshape.of_same_relations h4 h5 h7 h8, hpass.of_same_tasks h4 h6, ?_⟩
  rw [hF]
  rfl

/-! ## The claims on the flattener -/

/-- C18, as stated, fails: after a full rebuild of the chain 10 > 11 > 12 with
the tasks 10 and 11 expanded, two rows follow the row of task 10 before the
next row at a nesting level not greater than its own (there is none), while its
`num_visible_sub_tasks` is 1. -/
theorem num_visible_sub_tasks_subtree_rows_counterexample :
    ∃ s', rebuild_flattened_task_tree 4 chain_expanded = some s' ∧
      flattened_rows s'
        = [{ sorted_task := 0, nesting_level := 0, num_visible_sub_tasks := 1,
             needs_sub_task_sort := true },
           { sorted_task := 1, nesting_level := 1, num_visible_sub_tasks := 1,
             needs_sub_task_sort := true },
           { sorted_task := 2, nesting_level := 2, num_visible_sub_tasks := 0,
             needs_sub_task_sort := true }] ∧
      subtree_row_count (flattened_rows s') 0 = 2 ∧
      ((flattened_rows s')[0]?).map (fun row => row.num_visible_sub_tasks) = some 1 :=
  ⟨(rebuild_flattened_task_tree 4 chain_expanded).getD sample_state,
    by decide, by decide, by decide, by decide⟩

/-- C18, amended: after a full rebuild, the `num_visible_sub_tasks` of every
live row is the number of direct sub tasks of the row's task that pass the
active-only filter (one per slot of its children range), whatever the expand
states are. -/
theorem num_visible_sub_tasks_counts_direct_sub_tasks (fuel : Nat) (s s' : State)
    (h : rebuild_flattened_task_tree fuel s = some s') :
    ∀ row ∈ flattened_rows s', ∃ t, s'.sorted_folder_tasks[row.sorted_task]? = some t ∧
      row.num_visible_sub_tasks = (visible_sub_tasks s' t).length := by
  obtain ⟨rows, h1, _, h3, h4⟩ := rebuild_flattened_task_tree_rows fuel s s' h
  intro row hrow
  rw [h3] at hrow
  obtain ⟨t, ht, hn⟩ := tree_rows_count s fuel rows h1 row hrow
  refine ⟨t, ?_, ?_⟩
  · rw [h4]
    exact ht
  · rw [hn, h4]
    rfl

/-- C18 amended, at the chain with the tasks 10 and 11 expanded. -/
theorem num_visible_sub_tasks_counts_direct_sub_tasks_witness :
    rebuild_flattened_task_tree 4 chain_expanded
      = some ((rebuild_flattened_task_tree 4 chain_expanded).getD sample_state) ∧
    ∀ row ∈ flattened_rows ((rebuild_flattened_task_tree 4 chain_expanded).getD sample_state),
      ∃ t, ((rebuild_flattened_task_tree 4 chain_expanded).getD
          sample_state).sorted_folder_tasks[row.sorted_task]? = some t ∧
        row.num_visible_sub_tasks
          = (visible_sub_tasks ((rebuild_flattened_task_tree 4 chain_expanded).getD sample_state)
              t).length :=
  ⟨by decide,
    num_visible_sub_tasks_counts_direct_sub_tasks 4 chain_expanded
      ((rebuild_flattened_task_tree 4 chain_expanded).getD sample_state) (by decide)⟩

/-- C19: for every batch of three tasks A, B, C with distinct ids, ingested in
that order, all passing the active filter, where only A lists the active
container (once) and has no parent task and B and C each list A as their only
parent task: the load, the first sort (by title) and its full rebuild return
and, A being collapsed, yield exactly the row [A (level 0,
num_visible_sub_tasks 2)]; pressing A expanded and rebuilding yields exactly
[A (level 0, num_visible_sub_tasks 2), B (level 1), C (level 1)]; pressing A
collapsed again and rebuilding yields exactly [A (level 0,
num_visible_sub_tasks 2)].  Tasks 0, 1, 2 of the rows are A, B, C. -/
theorem family_rows_expanded_and_collapsed (heap : Heap_Garbage) (env : Env) (fuel : Nat)
    (old : State) (A B C : Folder_Task)
    (hblocks : Blocks_Allocated old)
    (hAB : A.id ≠ B.id) (hAC : A.id ≠ C.id) (hBC : B.id ≠ C.id)
    (hA : A.parent_folder_ids.count old.current_folder.id = 1)
    (hB : old.current_folder.id ∉ B.parent_folder_ids)
    (hC : old.current_folder.id ∉ C.parent_folder_ids)
    (hAp : A.parent_task_ids = []) (hBp : B.parent_task_ids = [A.id])
    (hCp : C.parent_task_ids = [A.id])
    (hactive : old.show_only_active_tasks = true →
      ∀ r ∈ [A, B, C], ∃ status, env.find_custom_status_by_id r.custom_status_id = some status ∧
        status.group = Status_Group.Active) :
    ∃ s1 s2 s3 s4 s5 s6,
      process_folder_contents_data heap old [A, B, C] = some s1 ∧
      sort_by_field env (fuel + 2) Task_List_Sort_Field.Title s1 = some s2 ∧
      Family_Shape s2 [A, B, C] false ∧
      flattened_rows s2
        = [{ sorted_task := 0, nesting_level := 0, num_visible_sub_tasks := 2,
             needs_sub_task_sort := true }] ∧
      toggle_is_expanded s2 0 = some s3 ∧ rebuild_if_queued (fuel + 2) s3 = some s4 ∧
      Family_Shape s4 [A, B, C] true ∧
      flattened_rows s4
        = [{ sorted_task := 0, nesting_level := 0, num_visible_sub_tasks := 2,
             needs_sub_task_sort := true },
           { sorted_task := 1, nesting_level := 1, num_visible_sub_tasks := 0,
             needs_sub_task_sort := true },
           { sorted_task := 2, nesting_level := 1, num_visible_sub_tasks := 0,
             needs_sub_task_sort := true }] ∧
      toggle_is_expanded s4 0 = some s5 ∧ rebuild_if_queued (fuel + 2) s5 = some s6 ∧
      Family_Shape s6 [A, B, C] false ∧
      flattened_rows s6
        = [{ sorted_task := 0, nesting_level := 0, num_visible_sub_tasks := 2,
             needs_sub_task_sort := true }] := by
  obtain ⟨s1, hload, hshape1, hft1, hshow1, hcap1⟩ :=
    family_loaded_shape heap old A B C hblocks hAB hAC hBC hA hB hC hAp hBp hCp
  obtain ⟨s2, hsort, hshape2, hpass2, hrows2⟩ :=
    family_first_sort env fuel s1 [A, B, C] hshape1 (by rw [hft1]; rfl) hcap1
      (by rw [hshow1]; exact hactive)
  obtain ⟨s3, s4, htoggle3, hrebuild4, hshape4, hpass4, hrows4⟩ :=
    family_press_and_rebuild fuel hshape2 hpass2
  obtain ⟨s5, s6, htoggle5, hrebuild6, hshape6, _, hrows6⟩ :=
    family_press_and_rebuild fuel hshape4 hpass4
  exact ⟨s1, s2, s3, s4, s5, s6, hload, hsort, hshape2, hrows2, htoggle3, hrebuild4, hshape4,
    hrows4, htoggle5, hrebuild6, hshape6, hrows6⟩

/-- C19, at the batch of the tasks 10, 11, 12 of the active folder 5, with
zeroed allocator content and insertion sort. -/
theorem family_rows_expanded_and_collapsed_witness :
    (Blocks_Allocated sample_state ∧
      (sample_task 10 [5] []).parent_folder_ids.count sample_state.current_folder.id = 1 ∧
      sample_state.current_folder.id ∉ (sample_task 11 [] [10]).parent_folder_ids ∧
      sample_state.current_folder.id ∉ (sample_task 12 [] [10]).parent_folder_ids) ∧
    ∃ s1 s2 s3 s4 s5 s6,
      process_folder_contents_data sample_heap sample_state
        [sample_task 10 [5] [], sample_task 11 [] [10], sample_task 12 [] [10]] = some s1 ∧
      sort_by_field sample_env (2 + 2) Task_List_Sort_Field.Title s1 = some s2 ∧
      Family_Shape s2 [sample_task 10 [5] [], sample_task 11 [] [10], sample_task 12 [] [10]]
        false ∧
      flattened_rows s2
        = [{ sorted_task := 0, nesting_level := 0, num_visible_sub_tasks := 2,
             needs_sub_task_sort := true }] ∧
      toggle_is_expanded s2 0 = some s3 ∧ rebuild_if_queued (2 + 2) s3 = some s4 ∧
      Family_Shape s4 [sample_task 10 [5] [], sample_task 11 [] [10], sample_task 12 [] [10]]
        true ∧
      flattened_rows s4
        = [{ sorted_task := 0, nesting_level := 0, num_visible_sub_tasks := 2,
             needs_sub_task_sort := true },
           { sorted_task := 1, nesting_level := 1, num_visible_sub_tasks := 0,
             needs_sub_task_sort := true },
           { sorted_task := 2, nesting_level := 1, num_visible_sub_tasks := 0,
             needs_sub_task_sort := true }] ∧
      toggle_is_expanded s4 0 = some s5 ∧ rebuild_if_queued (2 + 2) s5 = some s6 ∧
      Family_Shape s6 [sample_task 10 [5] [], sample_task 11 [] [10], sample_task 12 [] [10]]
        false ∧
      flattened_rows s6
        = [{ sorted_task := 0, nesting_level := 0, num_visible_sub_tasks := 2,
             needs_sub_task_sort := true }] :=
  ⟨⟨by decide, by decide, by decide, by decide⟩,
    family_rows_expanded_and_collapsed sample_heap sample_env 2 sample_state
      (sample_task 10 [5] []) (sample_task 11 [] [10]) (sample_task 12 [] [10])
      (by decide) (by decide) (by decide) (by decide) (by decide) (by decide) (by decide)
      rfl rfl rfl (fun _ _ _ => ⟨_, rfl, rfl⟩)⟩

theorem rows_of_sub_tasks_mono (visit visit' : Nat → Option (Nat × List Flattened_Folder_Task))
    (hvisit : ∀ sub_task result, visit sub_task = some result → visit' sub_task = some result) :
    ∀ (sub_tasks : List (Option Nat)) (result : Nat × List Flattened_Folder_Task),
      rows_of_sub_tasks visit sub_tasks = some result →
      rows_of_sub_tasks visit' sub_tasks = some result := by
  intro sub_tasks
  induction sub_tasks with
  | nil => intro result h; exact h
  | cons entry rest ih =>
    intro result h
    obtain ⟨count, rows⟩ := result
    obtain ⟨sub_task, c1, rows1, c2, rows2, rfl, hv, hr, rfl, rfl⟩ :=
      rows_of_sub_tasks_cons visit entry rest count rows h
    exact rows_of_sub_tasks_cons_eq visit' sub_task rest c1 c2 rows1 rows2
      (hvisit sub_task _ hv) (ih _ hr)

/-- A call that returns with some depth bound returns the same with a larger
one. -/
theorem rows_of_mono (s : State) :
    ∀ (fuel task : Nat) (is_parent_expanded : Bool) (level : Nat)
      (result : Nat × List Flattened_Folder_Task),
      rows_of s fuel task is_parent_expanded level = some result →
      rows_of s (fuel + 1) task is_parent_expanded level = some result := by
  intro fuel
  induction fuel with
  | zero =>
    intro task is_parent_expanded level result h
    simp only [rows_of] at h
    cases h
  | succ fuel ih =>
    intro task is_parent_expanded level result h
    cases ht : s.sorted_folder_tasks[task]? with
    | none =>
      unfold rows_of at h
      rw [ht] at h
      cases h
    | some t =>
      rw [rows_of_succ s fuel task is_parent_expanded level t ht] at h
      rw [rows_of_succ s (fuel + 1) task is_parent_expanded level t ht]
      cases hf : filtered_out s t with
      | none => rw [hf] at h; cases h
      | some b =>
        rw [hf] at h
        cases b with
        | true => exact h
        | false =>
          simp only [] at h ⊢
          by_cases hipe : is_parent_expanded = true
          · rw [if_pos hipe] at h ⊢
            cases hr : rows_of_sub_tasks
                (fun sub_task => rows_of s fuel sub_task t.is_expanded (level + 1))
                ((List.range t.num_sub_tasks).map
                  (fun index => s.sub_tasks[t.sub_tasks + index]?)) with
            | none => rw [hr] at h; cases h
            | some inner =>
              rw [hr] at h
              rw [rows_of_sub_tasks_mono _
                (fun sub_task => rows_of s (fuel + 1) sub_task t.is_expanded (level + 1))
                (fun sub_task result hsub => ih sub_task t.is_expanded (level + 1) result hsub)
                _ inner hr]
              exact h
          · rw [if_neg hipe] at h ⊢
            exact h

theorem rows_of_mono_le (s : State) (fuel fuel' task : Nat) (is_parent_expanded : Bool)
    (level : Nat) (result : Nat × List Flattened_Folder_Task) (hle : fuel ≤ fuel')
    (h : rows_of s fuel task is_parent_expanded level = some result) :
    rows_of s fuel' task is_parent_expanded level = some result := by
  induction fuel' with
  | zero =>
    have : fuel = 0 := by omega
    rw [this] at h
    exact h
  | succ k ih =>
    by_cases hk : fuel ≤ k
    · exact rows_of_mono s k task is_parent_expanded level result (ih hk)
    · have : fuel = k + 1 := by omega
      rw [this] at h
      exact h

theorem tree_rows_mono_le (s : State) (fuel fuel' : Nat) (rows : List Flattened_Folder_Task)
    (hle : fuel ≤ fuel') (h : tree_rows s fuel = some rows) :
    tree_rows s fuel' = some rows := by
  unfold tree_rows at h ⊢
  cases hr : rows_of_sub_tasks (fun task => rows_of s fuel task true 0)
      (s.top_level_tasks.map some) with
  | none => rw [hr] at h; cases h
  | some result =>
    rw [hr] at h
    rw [rows_of_sub_tasks_mono _ (fun task => rows_of s fuel' task true 0)
      (fun task inner hsub => rows_of_mono_le s fuel fuel' task true 0 inner hle hsub) _ result hr]
    exact h

/-- The rows of a full rebuild do not depend on the depth bound: two bounds
with which the recursion returns give the same rows. -/
theorem tree_rows_unique (s : State) (fuel fuel' : Nat) (rows rows' : List Flattened_Folder_Task)
    (h : tree_rows s fuel = some rows) (h' : tree_rows s fuel' = some rows') : rows = rows' := by
  rcases Nat.le_total fuel fuel' with hle | hle
  · have := tree_rows_mono_le s fuel fuel' rows hle h
    rw [h'] at this
    exact (Option.some.inj this).symm
  · have := tree_rows_mono_le s fuel' fuel rows' hle h'
    rw [h] at this
    exact Option.some.inj this

theorem rows_of_sub_tasks_some (visit : Nat → Option (Nat × List Flattened_Folder_Task)) :
    ∀ (sub_tasks : List (Option Nat)),
      (∀ entry ∈ sub_tasks, ∃ sub_task, entry = some sub_task ∧ (visit sub_task).isSome = true) →
      (rows_of_sub_tasks visit sub_tasks).isSome = true := by
  intro sub_tasks
  induction sub_tasks with
  | nil => intro _; rfl
  | cons entry rest ih =>
    intro h
    obtain ⟨sub_task, rfl, hv⟩ := h entry (List.mem_cons_self _ _)
    have hrest := ih (fun e he => h e (List.mem_cons_of_mem _ he))
    obtain ⟨r1, hr1⟩ := Option.isSome_iff_exists.1 hv
    obtain ⟨r2, hr2⟩ := Option.isSome_iff_exists.1 hrest
    obtain ⟨c1, rows1⟩ := r1
    obtain ⟨c2, rows2⟩ := r2
    rw [rows_of_sub_tasks_cons_eq visit sub_task rest c1 c2 rows1 rows2 hr1 hr2]
    rfl

theorem rows_segmented_nil (s : State) (fuel : Nat) : Rows_Segmented s fuel [] := by
  intro i row h
  simp at h

/-- Segmented rows stay segmented when rows that start no deeper than any of
them follow. -/
theorem rows_segmented_append (s : State) (fuel bound : Nat)
    (xs ys : List Flattened_Folder_Task)
    (hxs : Rows_Segmented s fuel xs) (hys : Rows_Segmented s fuel ys)
    (hdeep : ∀ r ∈ xs, bound ≤ r.nesting_level)
    (hhead : ∀ r, ys.head? = some r → r.nesting_level ≤ bound) :
    Rows_Segmented s fuel (xs ++ ys) := by
  intro i row hrow
  by_cases hi : i < xs.length
  · rw [List.getElem?_append_left hi] at hrow
    obtain ⟨count, rest, hcall, hrest, hdrop, hnext⟩ := hxs i row hrow
    have hlen : i + (rest.length + 1) ≤ xs.length := by
      have := congrArg List.length hdrop
      simp only [List.length_drop, List.length_cons, List.length_append] at this
      omega
    refine ⟨count, rest, hcall, hrest, ?_, ?_⟩
    · rw [List.drop_append_of_le_length (by omega), hdrop,
        List.drop_append_of_le_length hlen]
      simp
    · intro next hnext'
      rw [List.drop_append_of_le_length hlen] at hnext'
      cases hd : xs.drop (i + (rest.length + 1)) with
      | nil =>
        rw [hd, List.nil_append] at hnext'
        have h1 := hhead next hnext'
        have h2 := hdeep row (List.getElem?_mem hrow)
        omega
      | cons x rest' =>
        rw [hd] at hnext'
        exact hnext next (by rw [hd]; exact hnext')
  · have hge : xs.length ≤ i := by omega
    rw [List.getElem?_append_right hge] at hrow
    obtain ⟨count, rest, hcall, hrest, hdrop, hnext⟩ := hys (i - xs.length) row hrow
    have e1 : (xs ++ ys).drop i = ys.drop (i - xs.length) := by
      rw [List.drop_append_eq_append_drop, List.drop_eq_nil_of_le hge, List.nil_append]
    have e2 : (xs ++ ys).drop (i + (rest.length + 1))
        = ys.drop (i - xs.length + (rest.length + 1)) := by
      rw [List.drop_append_eq_append_drop, List.drop_eq_nil_of_le (by omega), List.nil_append]
      congr 1
      omega
    refine ⟨count, rest, hcall, hrest, ?_, ?_⟩
    · rw [e1, e2]
      exact hdrop
    · intro next hnext'
      rw [e2] at hnext'
      exact hnext next hnext'

/-- The rows of a loop over sub tasks are segmented when the rows of every call
are. -/
theorem rows_of_sub_tasks_segmented (s : State) (fuel bound : Nat)
    (visit : Nat → Option (Nat × List Flattened_Folder_Task))
    (hvisit : ∀ sub_task count rows, visit sub_task = some (count, rows) →
      Rows_Segmented s fuel rows ∧
      (∀ row ∈ rows, bound ≤ row.nesting_level) ∧
      (∀ row, rows.head? = some row → row.nesting_level = bound)) :
    ∀ (sub_tasks : List (Option Nat)) (count : Nat) (rows : List Flattened_Folder_Task),
      rows_of_sub_tasks visit sub_tasks = some (count, rows) →
      Rows_Segmented s fuel rows := by
  intro sub_tasks
  induction sub_tasks with
  | nil =>
    intro count rows h
    simp only [rows_of_sub_tasks, Option.some.injEq, Prod.mk.injEq] at h
    obtain ⟨rfl, rfl⟩ := h
    exact rows_segmented_nil s fuel
  | cons entry rest ih =>
    intro count rows h
    obtain ⟨sub_task, c1, rows1, c2, rows2, rfl, hv, hr, rfl, rfl⟩ :=
      rows_of_sub_tasks_cons visit entry rest count rows h
    obtain ⟨hseg1, hdeep1, _⟩ := hvisit sub_task c1 rows1 hv
    obtain ⟨_, hhead2⟩ := rows_of_sub_tasks_levels visit bound
      (fun sub_task count rows hsub => (hvisit sub_task count rows hsub).2) rest c2 rows2 hr
    exact rows_segmented_append s fuel bound rows1 rows2 hseg1 (ih c2 rows2 hr) hdeep1
      (fun r hr' => Nat.le_of_eq (hhead2 r hr'))

/-- The rows of a call are segmented. -/
theorem rows_of_segmented (s : State) (fuel : Nat) :
    ∀ (fuel0 task : Nat) (is_parent_expanded : Bool) (level count : Nat)
      (rows : List Flattened_Folder_Task), fuel0 ≤ fuel →
      rows_of s fuel0 task is_parent_expanded level = some (count, rows) →
      Rows_Segmented s fuel rows := by
  intro fuel0
  induction fuel0 with
  | zero =>
    intro task is_parent_expanded level count rows _ h
    simp only [rows_of] at h
    cases h
  | succ fuel0 ih =>
    intro task is_parent_expanded level count rows hle h
    obtain ⟨fuel', t, b, hfuel, ht, hf, hnil, h0, h1, hrows⟩ :=
      rows_of_some s _ task is_parent_expanded level count rows h
    cases hfuel
    by_cases hcase : b = true ∨ is_parent_expanded = false
    · rw [hnil hcase]
      exact rows_segmented_nil s fuel
    · have hb : b = false := by
        cases b with
        | true => exact absurd (Or.inl rfl) hcase
        | false => rfl
      have hipe : is_parent_expanded = true := by
        cases is_parent_expanded with
        | true => rfl
        | false => exact absurd (Or.inr rfl) hcase
      subst hb
      subst hipe
      obtain ⟨c, crows, hr, rfl⟩ := hrows rfl rfl
      have hcount : count = 1 := h1 rfl
      subst hcount
      obtain ⟨hdeep, _⟩ := rows_of_sub_tasks_levels _ (level + 1)
        (fun sub_task count rows hsub =>
          rows_of_levels s fuel0 sub_task t.is_expanded (level + 1) count rows hsub)
        _ c crows hr
      have hseg := rows_of_sub_tasks_segmented s fuel (level + 1) _
        (fun sub_task count rows hsub =>
          ⟨ih sub_task t.is_expanded (level + 1) count rows (by omega) hsub,
            rows_of_levels s fuel0 sub_task t.is_expanded (level + 1) count rows hsub⟩)
        _ c crows hr
      intro i row hrow
      cases i with
      | zero =>
        simp only [List.getElem?_cons_zero, Option.some.injEq] at hrow
        subst hrow
        refine ⟨1, crows, ?_, ?_, ?_, ?_⟩
        · exact rows_of_mono_le s (fuel0 + 1) fuel task true level _ hle h
        · intro r hr'
          have := hdeep r hr'
          show level < r.nesting_level
          omega
        · simp
        · intro next hnext
          simp at hnext
      | succ j =>
        rw [List.getElem?_cons_succ] at hrow
        obtain ⟨count', rest, hcall, hrest, hdrop, hnext⟩ := hseg j row hrow
        refine ⟨count', rest, hcall, hrest, ?_, ?_⟩
        · have e : j + 1 + (rest.length + 1) = (j + (rest.length + 1)) + 1 := by omega
          rw [List.drop_succ_cons, e, List.drop_succ_cons]
          exact hdrop
        · intro next hnext'
          have e : j + 1 + (rest.length + 1) = (j + (rest.length + 1)) + 1 := by omega
          rw [e, List.drop_succ_cons] at hnext'
          exact hnext next hnext'

/-- The rows of a full rebuild are segmented. -/
theorem tree_rows_segmented (s : State) (fuel : Nat) (rows : List Flattened_Folder_Task)
    (h : tree_rows s fuel = some rows) : Rows_Segmented s fuel rows := by
  unfold tree_rows at h
  cases hr : rows_of_sub_tasks (fun task => rows_of s fuel task true 0)
      (s.top_level_tasks.map some) with
  | none => rw [hr] at h; cases h
  | some result =>
    obtain ⟨c, rows'⟩ := result
    rw [hr] at h
    cases h
    exact rows_of_sub_tasks_segmented s fuel 0 _
      (fun task count rows hsub =>
        ⟨rows_of_segmented s fuel fuel task true 0 count rows (Nat.le_refl _) hsub,
          rows_of_levels s fuel task true 0 count rows hsub⟩)
      _ _ _ hr

/-- Writing rows over themselves changes nothing. -/
theorem write_rows_self : ∀ (rows data tail : List Flattened_Folder_Task) (current_task : Nat),
    data.drop current_task = rows ++ tail → write_rows data current_task rows = data := by
  intro rows
  induction rows with
  | nil => intro data tail current_task _; rfl
  | cons row rows ih =>
    intro data tail current_task h
    unfold write_rows
    have hget : data[current_task]? = some row := by
      have := congrArg (fun l => l[0]?) h
      simp only [List.getElem?_drop, Nat.add_zero, List.cons_append,
        List.getElem?_cons_zero] at this
      exact this
    rw [set_self_of_getElem? _ _ _ hget]
    apply ih data tail (current_task + 1)
    have := congrArg (fun l => l.drop 1) h
    simp only [List.drop_drop, List.cons_append, List.drop_succ_cons, List.drop_zero] at this
    rw [← this]

theorem takeWhile_append_of_all {α : Type} (p : α → Bool) (xs ys : List α)
    (hxs : ∀ x ∈ xs, p x = true) (hys : ∀ y, ys.head? = some y → p y = false) :
    (xs ++ ys).takeWhile p = xs := by
  induction xs with
  | nil =>
    cases ys with
    | nil => rfl
    | cons y rest =>
      simp only [List.nil_append]
      rw [List.takeWhile_cons_of_neg (by rw [hys y rfl]; simp)]
  | cons x rest ih =>
    simp only [List.cons_append]
    rw [List.takeWhile_cons_of_pos (hxs x (List.mem_cons_self _ _)),
      ih (fun z hz => hxs z (List.mem_cons_of_mem _ hz))]

/-! ## The claims on reloads, lookups and the draw pass -/

/-- C24: for every batch of n records with pairwise distinct ids,
`process_folder_contents_data` returns, the task store is the batch (length
n), decorated task i refers to task i of the store and carries its id for every
i below n, and every such decorated task is collapsed, whatever the previous
state was. -/
theorem process_folder_contents_data_resets_store (heap : Heap_Garbage) (old : State)
    (data : List Folder_Task) (hblocks : Blocks_Allocated old)
    (hids : (data.map (fun r => r.id)).Nodup) :
    ∃ s, process_folder_contents_data heap old data = some s ∧
      s.folder_tasks = data ∧ s.folder_tasks.length = data.length ∧
      ∀ (i : Nat), i < data.length →
        ∃ t record, s.sorted_folder_tasks[i]? = some t ∧ s.folder_tasks[i]? = some record ∧
          t.source_task = record ∧ t.id = record.id ∧ t.is_expanded = false := by
  obtain ⟨s, hload, hb⟩ := process_folder_contents_data_spec heap old data hblocks hids
  have hft : s.folder_tasks = data := by rw [hb.state_eq]
  refine ⟨s, hload, hft, by rw [hft], ?_⟩
  intro i hi
  obtain ⟨t, ht, hsrc, hid, hexp⟩ := hb.tasks i hi
  refine ⟨t, data[i], ht, ?_, hsrc, hid, hexp⟩
  rw [hft]
  exact List.getElem?_eq_getElem hi

/-- C24, at a reload of the two unassigned tasks over the chain whose tasks 10
and 11 were expanded. -/
theorem process_folder_contents_data_resets_store_witness :
    ((chain_expanded.sorted_folder_tasks[0]?).map (fun t => t.is_expanded) = some true ∧
      Blocks_Allocated chain_expanded ∧ (unassigned_batch.map (fun r => r.id)).Nodup) ∧
    ∃ s, process_folder_contents_data sample_heap chain_expanded unassigned_batch = some s ∧
      s.folder_tasks = unassigned_batch ∧ s.folder_tasks.length = unassigned_batch.length ∧
      ∀ (i : Nat), i < unassigned_batch.length →
        ∃ t record, s.sorted_folder_tasks[i]? = some t ∧ s.folder_tasks[i]? = some record ∧
          t.source_task = record ∧ t.id = record.id ∧ t.is_expanded = false :=
  ⟨⟨by decide, by decide, by decide⟩,
    process_folder_contents_data_resets_store sample_heap chain_expanded unassigned_batch
      (by decide) (by decide)⟩

theorem find_custom_field_value_from_some (field_id : Custom_Field_Id) :
    ∀ (values : List Custom_Field_Value) (start index : Nat),
      find_custom_field_value_from field_id values start = some index ↔
        start ≤ index ∧
        (∃ value, values[index - start]? = some value ∧ value.field_id = field_id) ∧
        ∀ (j : Nat) (other : Custom_Field_Value), j < index - start → values[j]? = some other →
          other.field_id ≠ field_id := by
  intro values
  induction values with
  | nil =>
    intro start index
    simp [find_custom_field_value_from]
  | cons value rest ih =>
    intro start index
    unfold find_custom_field_value_from
    by_cases hv : value.field_id = field_id
    · rw [if_pos hv]
      constructor
      · intro h
        cases h
        refine ⟨Nat.le_refl _, ⟨value, by simp, hv⟩, ?_⟩
        intro j other hj
        omega
      · rintro ⟨hle, _, hfirst⟩
        by_cases hlt : start < index
        · exact absurd hv (hfirst 0 value (by omega) (List.getElem?_cons_zero))
        · have : start = index := by omega
          rw [this]
    · rw [if_neg hv, ih (start + 1) index]
      constructor
      · rintro ⟨hle, ⟨found, hfound, hid⟩, hfirst⟩
        have e : index - start = (index - (start + 1)) + 1 := by omega
        refine ⟨by omega, ⟨found, ?_, hid⟩, ?_⟩
        · rw [e, List.getElem?_cons_succ]
          exact hfound
        · intro j other hj hother
          cases j with
          | zero =>
            simp only [List.getElem?_cons_zero, Option.some.injEq] at hother
            rw [← hother]
            exact hv
          | succ j =>
            rw [List.getElem?_cons_succ] at hother
            exact hfirst j other (by omega) hother
      · rintro ⟨hle, ⟨found, hfound, hid⟩, hfirst⟩
        have hne : start ≠ index := by
          intro e
          rw [e, Nat.sub_self] at hfound
          simp only [List.getElem?_cons_zero, Option.some.injEq] at hfound
          rw [← hfound] at hid
          exact hv hid
        have e : index - start = (index - (start + 1)) + 1 := by omega
        rw [e, List.getElem?_cons_succ] at hfound
        refine ⟨by omega, ⟨found, hfound, hid⟩, ?_⟩
        intro j other hj hother
        exact hfirst (j + 1) other (by omega) (by rw [List.getElem?_cons_succ]; exact hother)

theorem find_custom_field_value_from_none (field_id : Custom_Field_Id) :
    ∀ (values : List Custom_Field_Value) (start : Nat),
      find_custom_field_value_from field_id values start = none ↔
        ∀ value ∈ values, value.field_id ≠ field_id := by
  intro values
  induction values with
  | nil =>
    intro start
    simp [find_custom_field_value_from]
  | cons value rest ih =>
    intro start
    unfold find_custom_field_value_from
    by_cases hv : value.field_id = field_id
    · rw [if_pos hv]
      simp [hv]
    · rw [if_neg hv, ih (start + 1)]
      simp [hv]

/-- C27: `try_find_custom_field_value_in_task` returns the entry at `index`
exactly when the field is present, the entry at `index` of the value list of
the task has the id of the field and no earlier entry has it; it returns null
exactly when the field is absent or no entry of the list has the id of the
field. -/
theorem try_find_custom_field_value_in_task_first (task : Folder_Task)
    (field : Option Custom_Field) :
    (∀ (index : Nat), try_find_custom_field_value_in_task task field = some index ↔
      ∃ present, field = some present ∧
        (∃ value, task.custom_field_values[index]? = some value ∧
          value.field_id = present.id) ∧
        ∀ (j : Nat) (other : Custom_Field_Value), j < index →
          task.custom_field_values[j]? = some other → other.field_id ≠ present.id) ∧
    (try_find_custom_field_value_in_task task field = none ↔
      field = none ∨
        ∃ present, field = some present ∧
          ∀ value ∈ task.custom_field_values, value.field_id ≠ present.id) := by
  cases field with
  | none => simp [try_find_custom_field_value_in_task]
  | some present =>
    refine ⟨?_, ?_⟩
    · intro index
      unfold try_find_custom_field_value_in_task
      simp only []
      rw [find_custom_field_value_from_some present.id task.custom_field_values 0 index]
      simp
    · unfold try_find_custom_field_value_in_task
      simp only []
      rw [find_custom_field_value_from_none present.id task.custom_field_values 0]
      simp

theorem sort_by_custom_field_tasks (env : Env) (fuel : Nat) (field_id : Custom_Field_Id)
    (s s' : State) (h : sort_by_custom_field env fuel field_id s = some s') :
    (List.range s.folder_tasks.length).foldlM (update_cached_data_of_task env)
      s.sorted_folder_tasks = some s'.sorted_folder_tasks := by
  unfold sort_by_custom_field at h
  simp only [] at h
  split at h
  · cases h
  · rename_i s2 hu
    obtain ⟨-, hloop⟩ := update_cached_data_for_sorted_tasks_frame env _ s2 hu
    obtain ⟨h3, -⟩ := sort_top_level_tasks_frame env fuel _ s' h
    have hsorted : s'.sorted_folder_tasks = s2.sorted_folder_tasks := by rw [h3]
    rw [hsorted, ← hloop]
    by_cases hsf : s.sort_field = Task_List_Sort_Field.Custom_Field ∧
        field_id = s.sort_custom_field_id
    · simp only [if_pos hsf]
    · simp only [if_neg hsf]

/-- The refresh of the cached data keeps every task in its slot and touches
only its two cached fields. -/
theorem update_cached_data_loop_keeps (env : Env) (tasks tasks' : List Sorted_Folder_Task)
    (n : Nat)
    (h : (List.range n).foldlM (update_cached_data_of_task env) tasks = some tasks') :
    tasks'.length = tasks.length ∧
    ∀ (i : Nat) (t : Sorted_Folder_Task), tasks[i]? = some t →
      ∃ t', tasks'[i]? = some t' ∧ t'.is_expanded = t.is_expanded ∧
        t'.sub_tasks = t.sub_tasks ∧ t'.num_sub_tasks = t.num_sub_tasks ∧
        t'.source_task = t.source_task ∧ t'.id = t.id := by
  obtain ⟨hlen, _, hget⟩ := update_cached_data_loop env tasks n tasks' h
  refine ⟨hlen, ?_⟩
  intro i t ht
  rw [hget i, ht]
  by_cases hi : i < n
  · exact ⟨refresh_cached_data env t, by simp only [Option.map_some', if_pos hi],
      rfl, rfl, rfl, rfl, rfl⟩
  · exact ⟨t, by simp only [Option.map_some', if_neg hi], rfl, rfl, rfl, rfl, rfl⟩

/-- C29: a call of `sort_by_field` or of `sort_by_custom_field` that returns
leaves the array of sub tasks as it was and every decorated task in its slot
with its expand flag, its children range and so its children list (same
elements, same order); the top level list is a rearrangement of the old one
(for a `qsort` that keeps the contract of the C library). -/
theorem sort_keeps_children_and_expand_state (env : Env) (fuel : Nat)
    (sort_by : Task_List_Sort_Field) (field_id : Custom_Field_Id) (s s' : State)
    (h : sort_by_field env fuel sort_by s = some s' ∨
      sort_by_custom_field env fuel field_id s = some s') :
    s'.sub_tasks = s.sub_tasks ∧
    s'.sorted_folder_tasks.length = s.sorted_folder_tasks.length ∧
    (∀ (i : Nat) (t : Sorted_Folder_Task), s.sorted_folder_tasks[i]? = some t →
      ∃ t', s'.sorted_folder_tasks[i]? = some t' ∧ t'.is_expanded = t.is_expanded ∧
        t'.sub_tasks = t.sub_tasks ∧ t'.num_sub_tasks = t.num_sub_tasks ∧
        sub_tasks_of s' t' = sub_tasks_of s t ∧
        t'.source_task = t.source_task ∧ t'.id = t.id) ∧
    (Qsort_Contract env.qsort → s'.top_level_tasks.Perm s.top_level_tasks) := by
  have key : s'.sub_tasks = s.sub_tasks ∧
      (List.range s.folder_tasks.length).foldlM (update_cached_data_of_task env)
        s.sorted_folder_tasks = some s'.sorted_folder_tasks ∧
      (Qsort_Contract env.qsort → s'.top_level_tasks.Perm s.top_level_tasks) := by
    rcases h with h | h
    · obtain ⟨_, heq, hperm, hloop⟩ := sort_by_field_frame env fuel sort_by s s' h
      exact ⟨by rw [heq], hloop, hperm⟩
    · obtain ⟨heq, hperm⟩ := sort_by_custom_field_frame env fuel field_id s s' h
      exact ⟨by rw [heq], sort_by_custom_field_tasks env fuel field_id s s' h, hperm⟩
  obtain ⟨hsub, hloop, hperm⟩ := key
  obtain ⟨hlen, hkeep⟩ := update_cached_data_loop_keeps env _ _ _ hloop
  refine ⟨hsub, hlen, ?_, hperm⟩
  intro i t ht
  obtain ⟨t', ht', he, hs, hn, hsrc, hid⟩ := hkeep i t ht
  refine ⟨t', ht', he, hs, hn, ?_, hsrc, hid⟩
  unfold sub_tasks_of
  rw [hsub, hs, hn]

/-- C29, at a sort by status of the chain whose tasks 10 and 11 are expanded. -/
theorem sort_keeps_children_and_expand_state_witness :
    sort_by_field sample_env 4 Task_List_Sort_Field.Status chain_expanded
      = some ((sort_by_field sample_env 4 Task_List_Sort_Field.Status chain_expanded).getD
          sample_state) ∧
    ((sort_by_field sample_env 4 Task_List_Sort_Field.Status chain_expanded).getD
        sample_state).sub_tasks = chain_expanded.sub_tasks ∧
    ∀ (i : Nat) (t : Sorted_Folder_Task), chain_expanded.sorted_folder_tasks[i]? = some t →
      ∃ t', ((sort_by_field sample_env 4 Task_List_Sort_Field.Status chain_expanded).getD
          sample_state).sorted_folder_tasks[i]? = some t' ∧
        t'.is_expanded = t.is_expanded ∧
        t'.sub_tasks = t.sub_tasks ∧ t'.num_sub_tasks = t.num_sub_tasks ∧
        sub_tasks_of ((sort_by_field sample_env 4 Task_List_Sort_Field.Status
          chain_expanded).getD sample_state) t' = sub_tasks_of chain_expanded t ∧
        t'.source_task = t.source_task ∧ t'.id = t.id :=
  ⟨by decide,
    (sort_keeps_children_and_expand_state sample_env 4 Task_List_Sort_Field.Status 0
      chain_expanded _ (Or.inl (by decide))).1,
    (sort_keeps_children_and_expand_state sample_env 4 Task_List_Sort_Field.Status 0
      chain_expanded _ (Or.inl (by decide))).2.2.1⟩

theorem mem_top_level_of_batch (top_parent_id : Folder_Id) (data : List Folder_Task) (i : Nat)
    (r : Folder_Task) (hr : data[i]? = some r) (hmem : top_parent_id ∈ r.parent_folder_ids) :
    i ∈ top_level_of_batch top_parent_id data := by
  unfold top_level_of_batch
  refine List.mem_flatMap.2 ⟨(i, r), ?_, ?_⟩
  · exact List.mem_enum_iff_getElem?.2 hr
  · exact List.mem_replicate.2 ⟨Nat.pos_iff_ne_zero.1 (List.count_pos_iff.2 hmem), rfl⟩

theorem rows_of_sub_tasks_none_of_mem (visit : Nat → Option (Nat × List Flattened_Folder_Task))
    (task : Nat) (hvisit : visit task = none) :
    ∀ (tasks : List Nat), task ∈ tasks → rows_of_sub_tasks visit (tasks.map some) = none := by
  intro tasks
  induction tasks with
  | nil => intro h; cases h
  | cons head rest ih =>
    intro h
    simp only [List.map_cons, rows_of_sub_tasks]
    cases hv : visit head with
    | none => rfl
    | some result =>
      obtain ⟨c, rows⟩ := result
      simp only []
      rcases List.mem_cons.1 h with h1 | h2
      · rw [← h1, hvisit] at hv
        cases hv
      · rw [ih h2]

/-- With the filter on, a full rebuild faults when a top level task has no
cached status. -/
theorem rebuild_faults_on_absent_status (fuel : Nat) (s : State) (task : Nat)
    (t : Sorted_Folder_Task) (ht : s.sorted_folder_tasks[task]? = some t)
    (habsent : t.cached_status = none) (hmem : task ∈ s.top_level_tasks)
    (hshow : s.show_only_active_tasks = true) :
    rebuild_flattened_task_tree fuel s = none := by
  have hvisit : rows_of s fuel task true 0 = none := by
    cases fuel with
    | zero => rfl
    | succ fuel =>
      rw [rows_of_succ s fuel task true 0 t ht]
      unfold filtered_out
      rw [if_pos hshow, habsent]
  rw [rebuild_flattened_task_tree_eq]
  unfold tree_rows
  rw [rows_of_sub_tasks_none_of_mem _ task hvisit s.top_level_tasks hmem]

/-- A sort by status faults when the top level list has two entries or more
and one of its tasks has no cached status. -/
theorem sort_by_status_faults_on_absent_status (env : Env) (fuel : Nat) (s : State)
    (task : Nat) (t : Sorted_Folder_Task) (ht : s.sorted_folder_tasks[task]? = some t)
    (habsent : t.cached_status = none) (hmem : task ∈ s.top_level_tasks)
    (hfield : s.sort_field = Task_List_Sort_Field.Status)
    (htwo : 2 ≤ s.top_level_tasks.length) :
    sort_top_level_tasks_and_rebuild_flattened_tree env fuel s = none := by
  unfold sort_top_level_tasks_and_rebuild_flattened_tree get_comparator_by_current_sort_type
  rw [hfield]
  simp only []
  have hq : qsort env.qsort
      (compare_pointers (compare_folder_tasks_based_on_status s.sort_direction)
        s.sorted_folder_tasks) s.top_level_tasks = none := by
    unfold qsort
    rw [if_neg (by omega)]
    have hcmp : compare_pointers (compare_folder_tasks_based_on_status s.sort_direction)
        s.sorted_folder_tasks task task = none := by
      unfold compare_pointers
      rw [ht]
      simp only []
      unfold compare_folder_tasks_based_on_status
      rw [habsent]
    have hall : (s.top_level_tasks.all (fun x => s.top_level_tasks.all (fun y =>
        (compare_pointers (compare_folder_tasks_based_on_status s.sort_direction)
          s.sorted_folder_tasks x y).isSome))) = false := by
      rw [List.all_eq_false]
      refine ⟨task, hmem, ?_⟩
      rw [Bool.not_eq_true, List.all_eq_false]
      refine ⟨task, hmem, ?_⟩
      rw [hcmp]
      simp
    rw [hall]
    simp
  rw [hq]

/-- C25 fails on the code: for every batch with distinct ids in which a task of
the active container has a status id unknown to the registry, every sort after
the load (which ends in a full rebuild) faults when the active-only filter is
on, and the sort by status faults, filter on or off, as soon as the top level
list has two entries: the absent status is dereferenced by
`rebuild_flattened_task_tree_hierarchically` and by
`compare_folder_tasks_based_on_status`. -/
theorem sort_faults_on_absent_status (heap : Heap_Garbage) (env : Env) (fuel : Nat)
    (old : State) (data : List Folder_Task) (i : Nat) (r : Folder_Task)
    (sort_by : Task_List_Sort_Field)
    (hq : Qsort_Contract env.qsort) (hblocks : Blocks_Allocated old)
    (hids : (data.map (fun r => r.id)).Nodup)
    (hr : data[i]? = some r) (htop : old.current_folder.id ∈ r.parent_folder_ids)
    (habsent : env.find_custom_status_by_id r.custom_status_id = none) :
    ∃ s1, process_folder_contents_data heap old data = some s1 ∧
      (old.show_only_active_tasks = true → sort_by_field env fuel sort_by s1 = none) ∧
      (2 ≤ s1.top_level_tasks.length →
        sort_by_field env fuel Task_List_Sort_Field.Status s1 = none) := by
  obtain ⟨s1, hload, hb⟩ := process_folder_contents_data_spec heap old data hblocks hids
  have hi : i < data.length := lt_of_getElem?_some hr
  have hft : s1.folder_tasks = data := by rw [hb.state_eq]
  have hshow1 : s1.show_only_active_tasks = old.show_only_active_tasks := by rw [hb.state_eq]
  have htl : s1.top_level_tasks = top_level_of_batch old.current_folder.id data := by
    rw [hb.state_eq]
  have hmem : i ∈ s1.top_level_tasks := by
    rw [htl]
    exact mem_top_level_of_batch _ data i r hr htop
  obtain ⟨t, ht, hsrc, _, _⟩ := hb.tasks i hi
  have hsrc' : t.source_task = r := by
    rw [hsrc]
    have := List.getElem?_eq_getElem hi
    rw [this] at hr
    exact Option.some.inj hr
  -- what any sort does after the refresh of the cached data
  have key : ∀ (f : Task_List_Sort_Field),
      sort_by_field env fuel f s1 = none ∨
      ∃ s2 : State, s2.top_level_tasks = s1.top_level_tasks ∧
        s2.show_only_active_tasks = s1.show_only_active_tasks ∧ s2.sort_field = f ∧
        (∃ t', s2.sorted_folder_tasks[i]? = some t' ∧ t'.cached_status = none) ∧
        sort_by_field env fuel f s1
          = sort_top_level_tasks_and_rebuild_flattened_tree env fuel s2 := by
    intro f
    unfold sort_by_field
    by_cases hcf : f = Task_List_Sort_Field.Custom_Field
    · exact Or.inl (by rw [if_pos hcf])
    · rw [if_neg hcf]
      simp only []
      cases hu : update_cached_data_for_sorted_tasks env
          (if s1.sort_field = f then
            { s1 with sort_direction := to_char (s1.sort_direction * -1) }
          else { s1 with sort_direction := Sort_Direction_Normal }) with
      | none => exact Or.inl rfl
      | some s2 =>
        obtain ⟨heq, hloop⟩ := update_cached_data_for_sorted_tasks_frame env _ s2 hu
        have hloop' : (List.range data.length).foldlM (update_cached_data_of_task env)
            s1.sorted_folder_tasks = some s2.sorted_folder_tasks := by
          rw [← hft, ← hloop]
          by_cases hsf : s1.sort_field = f
          · simp only [if_pos hsf]
          · simp only [if_neg hsf]
        obtain ⟨_, _, hget⟩ := update_cached_data_loop env _ _ _ hloop'
        refine Or.inr ⟨{ s2 with sort_field := f }, ?_, ?_, rfl, ?_, rfl⟩
        · show s2.top_level_tasks = s1.top_level_tasks
          rw [heq]
          by_cases hsf : s1.sort_field = f
          · simp only [if_pos hsf]
          · simp only [if_neg hsf]
        · show s2.show_only_active_tasks = s1.show_only_active_tasks
          rw [heq]
          by_cases hsf : s1.sort_field = f
          · simp only [if_pos hsf]
          · simp only [if_neg hsf]
        · refine ⟨refresh_cached_data env t, ?_, ?_⟩
          · show s2.sorted_folder_tasks[i]? = _
            rw [hget i, ht]
            simp only [Option.map_some', if_pos hi]
          · show env.find_custom_status_by_id t.source_task.custom_status_id = none
            rw [hsrc']
            exact habsent
  refine ⟨s1, hload, ?_, ?_⟩
  · intro hshow
    rcases key sort_by with hnone | ⟨s2, h2top, h2show, _, ⟨t', ht', hnull⟩, hrun⟩
    · exact hnone
    · rw [hrun]
      cases hs : sort_top_level_tasks_and_rebuild_flattened_tree env fuel s2 with
      | none => rfl
      | some s3 =>
        exfalso
        obtain ⟨_, hperm⟩ := sort_top_level_tasks_frame env fuel s2 s3 hs
        unfold sort_top_level_tasks_and_rebuild_flattened_tree at hs
        cases hc : get_comparator_by_current_sort_type env s2 with
        | none => rw [hc] at hs; cases hs
        | some cmp =>
          rw [hc] at hs
          simp only [] at hs
          cases hqs : qsort env.qsort (compare_pointers cmp s2.sorted_folder_tasks)
              s2.top_level_tasks with
          | none => rw [hqs] at hs; cases hs
          | some top =>
            rw [hqs] at hs
            simp only [] at hs
            have hp := qsort_perm env.qsort hq _ _ _ hqs
            have hmem' : i ∈ top := hp.symm.subset (by rw [h2top]; exact hmem)
            rw [rebuild_faults_on_absent_status fuel { s2 with top_level_tasks := top } i t'
              ht' hnull hmem' (by
                show s2.show_only_active_tasks = true
                rw [h2show, hshow1, hshow])] at hs
            cases hs
  · intro htwo
    rcases key Task_List_Sort_Field.Status with hnone | ⟨s2, h2top, _, h2f, ⟨t', ht', hnull⟩, hrun⟩
    · exact hnone
    · rw [hrun]
      exact sort_by_status_faults_on_absent_status env fuel s2 i t' ht' hnull
        (by rw [h2top]; exact hmem) h2f (by rw [h2top]; exact htwo)

/-- C25 failing, at the two tasks of folder 5 of which the second has the
unknown status id 1. -/
theorem sort_faults_on_absent_status_witness :
    (Blocks_Allocated sample_state ∧ (orphan_batch.map (fun r => r.id)).Nodup ∧
      orphan_batch[1]? = some { sample_task 31 [5] [] with custom_status_id := 1 } ∧
      orphan_env.find_custom_status_by_id 1 = none) ∧
    ∃ s1, process_folder_contents_data sample_heap sample_state orphan_batch = some s1 ∧
      (sample_state.show_only_active_tasks = true →
        sort_by_field orphan_env 4 Task_List_Sort_Field.Title s1 = none) ∧
      (2 ≤ s1.top_level_tasks.length →
        sort_by_field orphan_env 4 Task_List_Sort_Field.Status s1 = none) :=
  ⟨⟨by decide, by decide, by decide, by decide⟩,
    sort_faults_on_absent_status sample_heap orphan_env 4 sample_state orphan_batch 1
      { sample_task 31 [5] [] with custom_status_id := 1 } Task_List_Sort_Field.Title
      insertion_sort_contract (by decide) (by decide) (by decide) (by decide) (by decide)⟩

theorem first_visible_row_eq (scroll_y row_height : ℚ) (hrow : 0 < row_height)
    (hscroll : 0 ≤ scroll_y) (hfit : scroll_y < 4294967296 * row_height) :
    (first_visible_row scroll_y row_height : Int) = Int.floor (scroll_y / row_height) := by
  have h0 : 0 ≤ Int.floor (scroll_y / row_height) :=
    Int.floor_nonneg.2 (div_nonneg hscroll (le_of_lt hrow))
  have h1 : Int.floor (scroll_y / row_height) < 4294967296 := by
    rw [Int.floor_lt]
    rw [div_lt_iff₀ hrow]
    exact_mod_cast hfit
  unfold first_visible_row MAX to_u32
  rw [Int.emod_eq_of_lt h0 h1]
  split_ifs with h
  · omega
  · exact Int.toNat_of_nonneg h0

/-- C26 fails on the code: `first_visible_row` is the floor of the quotient of
the scroll offset by the row height, with no upper clamp (`MAX(0, ...)` on an
unsigned value clamps nothing), so it is below the number N of rows exactly
when the scroll offset is below N row heights; from N row heights on, the first
read of the backward walk is outside the live rows.  The bound
`last_visible_row` is clamped to N. -/
theorem first_visible_row_not_clamped (rows : List Flattened_Folder_Task)
    (scroll_y content_height row_height : ℚ) (hrow : 0 < row_height)
    (hscroll : 0 ≤ scroll_y) (hfit : scroll_y < 4294967296 * row_height) :
    (first_visible_row scroll_y row_height < rows.length ↔
      scroll_y < rows.length * row_height) ∧
    last_visible_row rows.length scroll_y content_height row_height ≤ rows.length ∧
    (0 < rows.length → (rows.length : ℚ) * row_height ≤ scroll_y →
      rows.length ≤ first_visible_row scroll_y row_height ∧
      first_top_level_task_row rows (first_visible_row scroll_y row_height) = none) := by
  have heq := first_visible_row_eq scroll_y row_height hrow hscroll hfit
  have hiff : first_visible_row scroll_y row_height < rows.length ↔
      scroll_y < rows.length * row_height := by
    rw [← div_lt_iff₀ hrow]
    have : ((rows.length : Int) : ℚ) = (rows.length : ℚ) := by push_cast; rfl
    rw [← this, ← Int.floor_lt, ← heq]
    exact Int.ofNat_lt.symm
  refine ⟨hiff, ?_, ?_⟩
  · unfold last_visible_row MIN
    split_ifs <;> omega
  · intro hpos hbeyond
    have hge : rows.length ≤ first_visible_row scroll_y row_height := by
      by_contra hlt
      exact absurd (hiff.1 (by omega)) (not_lt.2 hbeyond)
    refine ⟨hge, ?_⟩
    cases hfirst : first_visible_row scroll_y row_height with
    | zero => omega
    | succ row =>
      unfold first_top_level_task_row
      rw [List.getElem?_eq_none (by omega)]

/-- C26 failing, at five rows of height 24 and the scroll offset 240: the first
visible row is 10. -/
theorem first_visible_row_not_clamped_witness :
    ((0 : ℚ) < 24 ∧ (0 : ℚ) ≤ 240 ∧ (240 : ℚ) < 4294967296 * 24 ∧
      first_visible_row 240 24 = 10) ∧
    ((first_visible_row 240 24 < (List.replicate 5 (default : Flattened_Folder_Task)).length ↔
        (240 : ℚ) < (List.replicate 5 (default : Flattened_Folder_Task)).length * 24) ∧
      last_visible_row (List.replicate 5 (default : Flattened_Folder_Task)).length 240 100 24
        ≤ (List.replicate 5 (default : Flattened_Folder_Task)).length ∧
      (0 < (List.replicate 5 (default : Flattened_Folder_Task)).length →
        (((List.replicate 5 (default : Flattened_Folder_Task)).length : Nat) : ℚ) * 24 ≤ 240 →
        (List.replicate 5 (default : Flattened_Folder_Task)).length ≤ first_visible_row 240 24 ∧
        first_top_level_task_row (List.replicate 5 (default : Flattened_Folder_Task))
          (first_visible_row 240 24) = none)) :=
  ⟨⟨by norm_num, by norm_num, by norm_num,
      by norm_num [first_visible_row, MAX, to_u32]; rfl⟩,
    first_visible_row_not_clamped (List.replicate 5 default) 240 100 24
      (by norm_num) (by norm_num) (by norm_num)⟩

/-! ## The claims on the bounds of the rebuild -/

/-- A queued rebuild faults, whatever the depth bound, when the rows of the
tree outnumber the cells of the row block. -/
theorem rebuild_if_queued_overflows (s : State) (bound : Nat)
    (rows : List Flattened_Folder_Task) (hqueued : s.queue_flattened_tree_rebuild = true)
    (hrows : tree_rows s bound = some rows) (hmore : s.flattened_data.length < rows.length) :
    ∀ (fuel : Nat), rebuild_if_queued fuel s = none := by
  intro fuel
  unfold rebuild_if_queued
  rw [if_pos hqueued, rebuild_flattened_task_tree_eq,
    tree_rows_congr s { s with queue_flattened_tree_rebuild := false } rfl rfl rfl rfl fuel]
  cases hr : tree_rows s fuel with
  | none => rfl
  | some rows' =>
    have := tree_rows_unique s fuel bound rows' rows hr hrows
    subst this
    simp only []
    rw [if_neg (by
      show ¬ rows'.length ≤ s.flattened_data.length
      omega)]

/-- C21 fails on the code: a batch of three tasks in which the third names the
other two, both of the active container, as its parent tasks is given a row
block of three cells; with both parents expanded the traversal emits four rows
(the shared child once below each parent), and the full rebuild writes outside
the block, whatever the depth bound. -/
theorem rebuild_overflows_row_block :
    shared_child_batch.length = 3 ∧
    shared_child_expanded.folder_tasks = shared_child_batch ∧
    shared_child_expanded.flattened_data.length = 3 ∧
    flattened_rows (press_and_rebuild shared_child_loaded 0) = shared_child_rows.take 3 ∧
    tree_rows shared_child_expanded 4 = some shared_child_rows ∧
    shared_child_rows.length = 4 ∧
    ∀ (fuel : Nat), rebuild_if_queued fuel shared_child_expanded = none :=
  ⟨by decide, by decide, by decide, by decide, by decide, by decide,
    rebuild_if_queued_overflows shared_child_expanded 4 shared_child_rows (by decide)
      (by decide) (by decide)⟩

theorem self_parent_never_returns :
    ∀ (fuel level : Nat), rows_of self_parent_expanded fuel 0 true level = none := by
  intro fuel
  induction fuel with
  | zero => intro level; rfl
  | succ fuel ih =>
    intro level
    have ht : self_parent_expanded.sorted_folder_tasks[0]? = some self_parent_root := by decide
    have hf : filtered_out self_parent_expanded self_parent_root = some false := by decide
    have hsub : (List.range self_parent_root.num_sub_tasks).map
        (fun index => self_parent_expanded.sub_tasks[self_parent_root.sub_tasks + index]?)
        = [some 0] := by decide
    have he : self_parent_root.is_expanded = true := rfl
    rw [rows_of_succ self_parent_expanded fuel 0 true level self_parent_root ht, hf, hsub, he]
    simp only [if_true, rows_of_sub_tasks, ih (level + 1)]

/-- C22, as stated, fails: for the batch of one task of the active container
that names itself as its parent task, once the task is expanded, the recursion
of the full rebuild returns with no depth bound. -/
theorem rebuild_terminates_counterexample :
    self_parent_expanded.folder_tasks = self_parent_batch ∧
    self_parent_expanded.sorted_folder_tasks[0]? = some self_parent_root ∧
    self_parent_expanded.sub_tasks = [0] ∧
    flattened_rows self_parent_loaded
      = [{ sorted_task := 0, nesting_level := 0, num_visible_sub_tasks := 1,
           needs_sub_task_sort := true }] ∧
    (∀ (fuel : Nat), tree_rows self_parent_expanded fuel = none) ∧
    ∀ (fuel : Nat), rebuild_if_queued fuel self_parent_expanded = none := by
  have hrows : ∀ (fuel : Nat), tree_rows self_parent_expanded fuel = none := by
    intro fuel
    unfold tree_rows
    have htop : self_parent_expanded.top_level_tasks = [0] := by decide
    rw [htop]
    simp only [List.map_cons, List.map_nil, rows_of_sub_tasks, self_parent_never_returns fuel 0]
  refine ⟨by decide, by decide, by decide, by decide, hrows, ?_⟩
  intro fuel
  unfold rebuild_if_queued
  rw [if_pos (by decide), rebuild_flattened_task_tree_eq,
    tree_rows_congr self_parent_expanded
      { self_parent_expanded with queue_flattened_tree_rebuild := false } rfl rfl rfl rfl fuel,
    hrows fuel]

/-- A call on a live task returns when the depth bound exceeds the rank of the
task, in a state whose parent task relation is ranked and whose statuses are
resolved. -/
theorem rows_of_returns (s : State) (rank : Nat → Nat) (hrank : ranked_by rank s = true)
    (hstatus : statuses_resolved s = true) :
    ∀ (fuel task : Nat) (is_parent_expanded : Bool) (level : Nat),
      task < s.folder_tasks.length → rank task < fuel →
      (rows_of s fuel task is_parent_expanded level).isSome = true := by
  intro fuel
  induction fuel with
  | zero =>
    intro task is_parent_expanded level _ h
    omega
  | succ fuel ih =>
    intro task is_parent_expanded level hlive hfuel
    unfold ranked_by at hrank
    have hr := List.all_eq_true.1 hrank task (List.mem_range.2 hlive)
    cases ht : s.sorted_folder_tasks[task]? with
    | none => rw [ht] at hr; cases hr
    | some t =>
      rw [ht] at hr
      simp only [] at hr
      rw [rows_of_succ s fuel task is_parent_expanded level t ht]
      have hf : ∃ b, filtered_out s t = some b := by
        unfold filtered_out
        by_cases hshow : s.show_only_active_tasks = true
        · rw [if_pos hshow]
          unfold statuses_resolved at hstatus
          rw [hshow] at hstatus
          simp only [Bool.not_true, Bool.false_or] at hstatus
          have hs := List.all_eq_true.1 hstatus task (List.mem_range.2 hlive)
          rw [ht] at hs
          simp only [] at hs
          obtain ⟨status, hstat⟩ := Option.isSome_iff_exists.1 hs
          rw [hstat]
          exact ⟨_, rfl⟩
        · rw [if_neg hshow]
          exact ⟨_, rfl⟩
      obtain ⟨b, hb⟩ := hf
      rw [hb]
      cases b with
      | true => rfl
      | false =>
        simp only []
        by_cases hipe : is_parent_expanded = true
        · rw [if_pos hipe]
          have hsome := rows_of_sub_tasks_some
            (fun sub_task => rows_of s fuel sub_task t.is_expanded (level + 1))
            ((List.range t.num_sub_tasks).map (fun index => s.sub_tasks[t.sub_tasks + index]?))
            (by
              intro entry hentry
              obtain ⟨index, hindex, rfl⟩ := List.mem_map.1 hentry
              have hcell := List.all_eq_true.1 hr index hindex
              cases hsub : s.sub_tasks[t.sub_tasks + index]? with
              | none => rw [hsub] at hcell; cases hcell
              | some sub_task =>
                rw [hsub] at hcell
                simp only [Bool.and_eq_true, decide_eq_true_eq] at hcell
                exact ⟨sub_task, rfl, ih sub_task t.is_expanded (level + 1) hcell.1 (by omega)⟩)
          obtain ⟨inner, hinner⟩ := Option.isSome_iff_exists.1 hsome
          rw [hinner]
          rfl
        · rw [if_neg hipe]
          rfl

/-- C22, amended: for every state whose parent task relation has no cycle
(every child of a live task is a live task of smaller rank, for some rank),
whose top level list holds live tasks and whose statuses are resolved when the
filter is on, and for every assignment of expanded flags, the recursion of the
full rebuild terminates: with a depth bound above the ranks it returns the
rows, with every larger bound the same rows, and the full rebuild itself
returns them when they fit the row block. -/
theorem rebuild_terminates_without_cycle (s : State) (rank : Nat → Nat) (bound : Nat)
    (hrank : ranked_by rank s = true) (hstatus : statuses_resolved s = true)
    (htop : top_level_below rank bound s = true) :
    ∃ rows, tree_rows s bound = some rows ∧
      (∀ (fuel : Nat), bound ≤ fuel → tree_rows s fuel = some rows) ∧
      (rows.length ≤ s.flattened_data.length →
        ∀ (fuel : Nat), bound ≤ fuel →
          ∃ s', rebuild_flattened_task_tree fuel s = some s' ∧ flattened_rows s' = rows) := by
  have hsome : (rows_of_sub_tasks (fun task => rows_of s bound task true 0)
      (s.top_level_tasks.map some)).isSome = true := by
    apply rows_of_sub_tasks_some
    intro entry hentry
    obtain ⟨task, htask, rfl⟩ := List.mem_map.1 hentry
    unfold top_level_below at htop
    have h := List.all_eq_true.1 htop task htask
    simp only [Bool.and_eq_true, decide_eq_true_eq] at h
    exact ⟨task, rfl, rows_of_returns s rank hrank hstatus bound task true 0 h.1 h.2⟩
  obtain ⟨result, hresult⟩ := Option.isSome_iff_exists.1 hsome
  obtain ⟨count, rows⟩ := result
  have hrows : tree_rows s bound = some rows := by
    unfold tree_rows
    rw [hresult]
  refine ⟨rows, hrows, fun fuel hle => tree_rows_mono_le s bound fuel rows hle hrows, ?_⟩
  intro hroom fuel hle
  obtain ⟨s', hs', hF, _⟩ := rebuild_flattened_task_tree_of_rows fuel s rows
    (tree_rows_mono_le s bound fuel rows hle hrows) hroom
  exact ⟨s', hs', hF⟩

/-- C22 amended, at the chain 10 > 11 > 12 with the tasks 10 and 11 expanded,
ranked by 3 minus the slot. -/
theorem rebuild_terminates_without_cycle_witness :
    (ranked_by (fun task => 3 - task) chain_expanded = true ∧
      statuses_resolved chain_expanded = true ∧
      top_level_below (fun task => 3 - task) 4 chain_expanded = true) ∧
    ∃ rows, tree_rows chain_expanded 4 = some rows ∧
      (∀ (fuel : Nat), 4 ≤ fuel → tree_rows chain_expanded fuel = some rows) ∧
      (rows.length ≤ chain_expanded.flattened_data.length →
        ∀ (fuel : Nat), 4 ≤ fuel →
          ∃ s', rebuild_flattened_task_tree fuel chain_expanded = some s' ∧
            flattened_rows s' = rows) :=
  ⟨⟨by decide, by decide, by decide⟩,
    rebuild_terminates_without_cycle chain_expanded (fun task => 3 - task) 4
      (by decide) (by decide) (by decide)⟩

/-- C30: for the rows F of a full rebuild and every row i of F, with no state
change in between, `rebuild_flattened_task_subtree` on row i returns; the call
of the flattener it makes writes, from row i on, exactly the rows i .. i + k
of F over themselves, where k is the number of rows of the subtree of row i in
F (the rows that follow row i before the next row that is not deeper), so the
row block and the whole state are left as the full rebuild produced them. -/
theorem rebuild_flattened_task_subtree_rewrites_subtree (fuel : Nat) (s s1 : State) (i : Nat)
    (hF : rebuild_flattened_task_tree fuel s = some s1) (hi : i < s1.flattened_length) :
    ∃ (row : Flattened_Folder_Task) (count : Nat) (segment : List Flattened_Folder_Task),
      (flattened_rows s1)[i]? = some row ∧ s1.flattened_data[i]? = some row ∧
      rebuild_flattened_task_tree_hierarchically s1 fuel row.sorted_task true row.nesting_level
          (s1.flattened_data, i)
        = some (count, (write_rows s1.flattened_data i segment, i + segment.length)) ∧
      segment.length = 1 + subtree_row_count (flattened_rows s1) i ∧
      segment = ((flattened_rows s1).drop i).take segment.length ∧
      write_rows s1.flattened_data i segment = s1.flattened_data ∧
      rebuild_flattened_task_subtree fuel s1 i = some s1 := by
  obtain ⟨F, hrows, hroom, hF1, hs1⟩ := rebuild_flattened_task_tree_rows fuel s s1 hF
  have hsorted1 : s1.sorted_folder_tasks = s.sorted_folder_tasks := by rw [hs1]
  have hsub1 : s1.sub_tasks = s.sub_tasks := by rw [hs1]
  have hshow1 : s1.show_only_active_tasks = s.show_only_active_tasks := by rw [hs1]
  have hN : s1.flattened_length = F.length := by rw [hs1]
  have hlen1 : s1.flattened_data.length = s.flattened_data.length := by
    rw [hs1]
    exact write_rows_length _ _ _
  have hiF : i < F.length := by omega
  have hrow : F[i]? = some F[i] := List.getElem?_eq_getElem hiF
  have hdata : s1.flattened_data[i]? = some F[i] := by
    have e : (flattened_rows s1)[i]? = some F[i] := by rw [hF1]; exact hrow
    unfold flattened_rows at e
    rw [List.getElem?_take, if_pos hi] at e
    exact e
  obtain ⟨count, rest, hcall, hrest, hdrop, hnext⟩ := tree_rows_segmented s fuel F hrows i F[i] hrow
  have hcall1 : rows_of s1 fuel F[i].sorted_task true F[i].nesting_level
      = some (count, F[i] :: rest) := by
    rw [rows_of_congr s s1 hsorted1 hsub1 hshow1]
    exact hcall
  have hfit : i + (rest.length + 1) ≤ F.length := by
    have := congrArg List.length hdrop
    simp only [List.length_drop, List.length_cons, List.length_append] at this
    omega
  have hle : i ≤ s1.flattened_data.length := by omega
  have hrun := rebuild_eq_rows_of s1 fuel F[i].sorted_task true F[i].nesting_level
    s1.flattened_data i hle
  rw [hcall1] at hrun
  simp only [List.length_cons] at hrun
  rw [if_pos (by omega)] at hrun
  have hFdata : F = s1.flattened_data.take s1.flattened_length := by
    rw [← hF1]
    rfl
  have hdrop_data : s1.flattened_data.drop i
      = (F[i] :: rest) ++ (F.drop (i + (rest.length + 1)) ++
          s1.flattened_data.drop s1.flattened_length) := by
    have hsplit : s1.flattened_data
        = F ++ s1.flattened_data.drop s1.flattened_length := by
      rw [hFdata, List.take_append_drop]
    conv_lhs => rw [hsplit]
    rw [List.drop_append_of_le_length (by omega), hdrop]
    simp
  have hself : write_rows s1.flattened_data i (F[i] :: rest) = s1.flattened_data :=
    write_rows_self _ _ _ i hdrop_data
  have hcountF : subtree_row_count F i = rest.length := by
    unfold subtree_row_count
    rw [hrow]
    simp only []
    have hd1 : F.drop (i + 1) = rest ++ F.drop (i + (rest.length + 1)) := by
      have := congrArg (fun l => l.drop 1) hdrop
      simp only [List.drop_drop, List.cons_append, List.drop_succ_cons, List.drop_zero] at this
      rw [← this]
    rw [hd1, takeWhile_append_of_all _ _ _
      (fun r hr => decide_eq_true (hrest r hr))
      (fun y hy => decide_eq_false (by
        have := hnext y hy
        omega))]
  refine ⟨F[i], count, F[i] :: rest, by rw [hF1]; exact hrow, hdata, hrun, ?_, ?_, hself, ?_⟩
  · rw [hF1, hcountF]
    simp only [List.length_cons]
    omega
  · rw [hF1, hdrop]
    simp
  · unfold rebuild_flattened_task_subtree
    rw [hdata]
    simp only []
    rw [hrun, hself]

/-- C30, at row 1 (task 11) of the chain 10 > 11 > 12 with the tasks 10 and 11
expanded. -/
theorem rebuild_flattened_task_subtree_rewrites_subtree_witness :
    (rebuild_flattened_task_tree 4 chain_expanded = some chain_rebuilt ∧
      1 < chain_rebuilt.flattened_length ∧
      flattened_rows chain_rebuilt = chain_rows ∧
      subtree_row_count (flattened_rows chain_rebuilt) 1 = 1) ∧
    ∃ (row : Flattened_Folder_Task) (count : Nat) (segment : List Flattened_Folder_Task),
      (flattened_rows chain_rebuilt)[1]? = some row ∧
      chain_rebuilt.flattened_data[1]? = some row ∧
      rebuild_flattened_task_tree_hierarchically chain_rebuilt 4 row.sorted_task true
          row.nesting_level (chain_rebuilt.flattened_data, 1)
        = some (count, (write_rows chain_rebuilt.flattened_data 1 segment,
            1 + segment.length)) ∧
      segment.length = 1 + subtree_row_count (flattened_rows chain_rebuilt) 1 ∧
      segment = ((flattened_rows chain_rebuilt).drop 1).take segment.length ∧
      write_rows chain_rebuilt.flattened_data 1 segment = chain_rebuilt.flattened_data ∧
      rebuild_flattened_task_subtree 4 chain_rebuilt 1 = some chain_rebuilt :=
  ⟨⟨by decide, by decide, by decide, by decide⟩,
    rebuild_flattened_task_subtree_rewrites_subtree 4 chain_expanded chain_rebuilt 1
      (by decide) (by decide)⟩

/-! ## The claims on the table cells and on the consistency of the title order -/

/-- C31 fails on the code: for a custom column (index 3 or more) whose custom
field is resolved and for which the task has a value, the header shows the
title of the field and the cell shows the value of the task when the column
index is above 3, but the cell of column 3, the first custom column, shows
nothing: the test is `column > custom_columns_start_index`. -/
theorem first_custom_column_cell_is_blank (env : Env) (s : State)
    (column_to_custom_field : List (Option Custom_Field)) (column : Nat)
    (flattened_task : Flattened_Folder_Task) (sorted_task : Sorted_Folder_Task)
    (field : Custom_Field) (index : Nat) (value : Custom_Field_Value)
    (htask : s.sorted_folder_tasks[flattened_task.sorted_task]? = some sorted_task)
    (hcolumn : custom_columns_start_index ≤ column)
    (hfield : column_to_custom_field[column - custom_columns_start_index]? = some (some field))
    (hfind : try_find_custom_field_value_in_task sorted_task.source_task (some field)
      = some index)
    (hvalue : sorted_task.source_task.custom_field_values[index]? = some value) :
    get_column_title column_to_custom_field column = some field.title ∧
    (column = custom_columns_start_index →
      draw_table_cell_for_task env s column_to_custom_field column flattened_task = some []) ∧
    (custom_columns_start_index < column →
      draw_table_cell_for_task env s column_to_custom_field column flattened_task
        = some [value.value]) := by
  unfold custom_columns_start_index at *
  obtain ⟨k, rfl⟩ : ∃ k, column = k + 3 := ⟨column - 3, by omega⟩
  refine ⟨?_, ?_, ?_⟩
  · unfold get_column_title
    simp only [custom_columns_start_index]
    rw [hfield]
  · intro h3
    have hk : k = 0 := by omega
    subst hk
    unfold draw_table_cell_for_task
    rw [htask]
    simp [custom_columns_start_index]
  · intro h3
    unfold draw_table_cell_for_task
    rw [htask]
    simp only [custom_columns_start_index]
    rw [if_pos (by omega), hfield]
    simp only []
    rw [hfind]
    simp only []
    rw [hvalue]

/-- C31 failing, at the first custom column (index 3) of a folder with the
custom column 7 and a task with the value "5" for field 7. -/
theorem first_custom_column_cell_is_blank_witness :
    (map_columns_to_custom_fields sample_env valued_state
        = [some sample_numeric_field, some sample_numeric_field] ∧
      valued_state.sorted_folder_tasks[0]? = some (valued_task 1 7 [53]) ∧
      try_find_custom_field_value_in_task (valued_task 1 7 [53]).source_task (some sample_numeric_field)
        = some 0 ∧
      (valued_task 1 7 [53]).source_task.custom_field_values[0]?
        = some { field_id := 7, value := [53] } ∧
      draw_table_cell_for_task sample_env valued_state
        (map_columns_to_custom_fields sample_env valued_state) 3
        { sorted_task := 0, nesting_level := 0, num_visible_sub_tasks := 0,
          needs_sub_task_sort := true } = some [] ∧
      draw_table_cell_for_task sample_env valued_state
        (map_columns_to_custom_fields sample_env valued_state) 4
        { sorted_task := 0, nesting_level := 0, num_visible_sub_tasks := 0,
          needs_sub_task_sort := true } = some [[53]]) ∧
    get_column_title (map_columns_to_custom_fields sample_env valued_state) 3
      = some sample_numeric_field.title ∧
    (3 = custom_columns_start_index →
      draw_table_cell_for_task sample_env valued_state
        (map_columns_to_custom_fields sample_env valued_state) 3
        { sorted_task := 0, nesting_level := 0, num_visible_sub_tasks := 0,
          needs_sub_task_sort := true } = some []) ∧
    (custom_columns_start_index < 3 →
      draw_table_cell_for_task sample_env valued_state
        (map_columns_to_custom_fields sample_env valued_state) 3
        { sorted_task := 0, nesting_level := 0, num_visible_sub_tasks := 0,
          needs_sub_task_sort := true } = some [[53]]) :=
  ⟨⟨by decide, by decide, by decide, by decide, by decide, by decide⟩,
    first_custom_column_cell_is_blank sample_env valued_state
      (map_columns_to_custom_fields sample_env valued_state) 3
      { sorted_task := 0, nesting_level := 0, num_visible_sub_tasks := 0,
        needs_sub_task_sort := true }
      (valued_task 1 7 [53]) sample_numeric_field 0 { field_id := 7, value := [53] }
      (by decide) (by decide) (by decide) (by decide) (by decide)⟩

theorem strncmp_cons_cons (x y : Nat) (xs ys : Str) :
    strncmp (x :: xs) (y :: ys) (MIN (x :: xs).length (y :: ys).length)
      = if x ≠ y then (x : Int) - (y : Int)
        else if x = 0 then 0
        else strncmp xs ys (MIN xs.length ys.length) := by
  simp only [List.length_cons, MIN_succ]
  rfl

theorem strncmp_nil_left (b : Str) :
    strncmp [] b (MIN ([] : Str).length b.length) = 0 :=
  strncmp_zero_left b b.length

theorem strncmp_self : ∀ (a : Str), strncmp a a (MIN a.length a.length) = 0 := by
  intro a
  induction a with
  | nil => exact strncmp_nil_left []
  | cons x xs ih =>
    rw [strncmp_cons_cons]
    simp only [ne_eq, not_true_eq_false, if_false]
    by_cases h0 : x = 0
    · rw [if_pos h0]
    · rw [if_neg h0]
      exact ih

end TaskList
